import Mathlib

/-!
Verification development for the `wayland-pipewire-idle-inhibit` daemon.

The definitions below are a shallow embedding of the daemon's Rust source:

* `src/pipewire_connection/graph/object.rs` — graph object payloads
  (`NodeData`, `PortData`, `LinkData`, `PWObject`, `PWObjectData`);
* `src/pipewire_connection/graph/filter.rs` — regex filters over nodes
  (a compiled regex is abstracted as a `String → Bool` predicate);
* `src/pipewire_connection/graph/mod.rs` — the graph store `PWGraph` with
  its secondary indexes and the active-sink traversal;
* `src/inhibit_idle_state.rs` — the debouncing inhibit-state machine;
* `src/dbus_server.rs` — the D-Bus manual-toggle entry point;
* `src/pipewire_connection/mod.rs` — the registry handler for new links.

Rust `HashMap`s are embedded as association lists (`List (Nat × α)`) and
`HashSet`s as duplicate-free `List Nat`, with iteration order fixed by the
list order.  Machine integers (`u32` ids) are embedded as `Nat`; no id
arithmetic occurs in the embedded code, so overflow is irrelevant.
-/

/-- Character-list version of "starts with". -/
def charsStartWith : List Char → List Char → Bool
  | [], _ => true
  | _ :: _, [] => false
  | a :: pat, b :: s => a == b && charsStartWith pat s

/-- Character-list version of substring containment. -/
def charsContain (pat : List Char) : List Char → Bool
  | [] => pat.isEmpty
  | b :: s => charsStartWith pat (b :: s) || charsContain pat s

/-- Rust `String::contains(pat)` — substring containment. -/
def strContains (s pat : String) : Bool :=
  charsContain pat.toList s.toList

/-- `pipewire::spa::Direction`: a wrapper over a raw `u32` with the named
constants `Input` and `Output`; the Rust code matches it with a `_` arm, so
other raw values are representable. -/
inductive PWDirection where
  | input
  | output
  | other (raw : Nat)
deriving DecidableEq, Repr

/-- `NodeData` from `graph/object.rs`: all fields optional. -/
structure NodeData where
  name : Option String
  appName : Option String
  description : Option String
  nick : Option String
  mediaClass : Option String
  mediaRole : Option String
  mediaSoftware : Option String
deriving DecidableEq, Repr

/-- `NodeData::get_name` from `graph/object.rs`:
`self.description.as_deref().or(self.nick.as_deref()).or(self.name.as_deref())`. -/
def NodeData.get_name (d : NodeData) : Option String :=
  match d.description with
  | some v => some v
  | none =>
    match d.nick with
    | some v => some v
    | none => d.name

/-- `NodeData::is_empty` from `graph/object.rs`. -/
def NodeData.is_empty (d : NodeData) : Bool :=
  d.name.isNone && d.appName.isNone && d.description.isNone && d.nick.isNone
    && d.mediaClass.isNone && d.mediaRole.isNone && d.mediaSoftware.isNone

/-- `NodeData::update` from `graph/object.rs`: field-wise merge, `Some`
fields of the delta replace the stored ones. -/
def NodeData.update (d new : NodeData) : NodeData :=
  { name := match new.name with | some v => some v | none => d.name
    appName := match new.appName with | some v => some v | none => d.appName
    description := match new.description with | some v => some v | none => d.description
    nick := match new.nick with | some v => some v | none => d.nick
    mediaClass := match new.mediaClass with | some v => some v | none => d.mediaClass
    mediaRole := match new.mediaRole with | some v => some v | none => d.mediaRole
    mediaSoftware := match new.mediaSoftware with | some v => some v | none => d.mediaSoftware }

/-- `PortData` from `graph/object.rs`. -/
structure PortData where
  name : Option String
  nodeId : Option Nat
  direction : Option PWDirection
  isTerminal : Option Bool
deriving DecidableEq, Repr

/-- `PortData::is_empty` from `graph/object.rs`. -/
def PortData.is_empty (d : PortData) : Bool :=
  d.name.isNone && d.nodeId.isNone && d.direction.isNone && d.isTerminal.isNone

/-- `PortData::update` from `graph/object.rs`. -/
def PortData.update (d new : PortData) : PortData :=
  { name := match new.name with | some v => some v | none => d.name
    nodeId := match new.nodeId with | some v => some v | none => d.nodeId
    direction := match new.direction with | some v => some v | none => d.direction
    isTerminal := match new.isTerminal with | some v => some v | none => d.isTerminal }

/-- `LinkData` from `graph/object.rs`. -/
structure LinkData where
  inputPort : Option Nat
  outputPort : Option Nat
  active : Option Bool
deriving DecidableEq, Repr

/-- `LinkData::is_empty` from `graph/object.rs`. -/
def LinkData.is_empty (d : LinkData) : Bool :=
  d.inputPort.isNone && d.outputPort.isNone && d.active.isNone

/-- `LinkData::update` from `graph/object.rs`. -/
def LinkData.update (d new : LinkData) : LinkData :=
  { inputPort := match new.inputPort with | some v => some v | none => d.inputPort
    outputPort := match new.outputPort with | some v => some v | none => d.outputPort
    active := match new.active with | some v => some v | none => d.active }

/-- `PWObject` from `graph/object.rs`; the `proxy` handles carry no data
consulted by the embedded code and are dropped. -/
inductive PWObject where
  | node (data : NodeData)
  | port (data : PortData)
  | link (data : LinkData)
deriving DecidableEq, Repr

/-- `PWObjectData` from `graph/object.rs`. -/
inductive PWObjectData where
  | node (data : NodeData)
  | port (data : PortData)
  | link (data : LinkData)
deriving DecidableEq, Repr

/-- `PWObjectData::is_empty` from `graph/object.rs`. -/
def PWObjectData.is_empty : PWObjectData → Bool
  | .node d => d.is_empty
  | .port d => d.is_empty
  | .link d => d.is_empty

/-- `matches_property` from `graph/filter.rs`; a compiled `Regex` is
abstracted as the `String → Bool` predicate its `is_match` denotes. -/
def matchesProperty (filter : Option (String → Bool)) (property : Option String) : Bool :=
  match filter with
  | none => true
  | some f =>
    match property with
    | none => false
    | some p => f p

/-- `SinkFilter` from `graph/filter.rs`. -/
structure SinkFilter where
  name : Option (String → Bool)

/-- `impl Filter<NodeData> for SinkFilter` from `graph/filter.rs`. -/
def SinkFilter.matches (f : SinkFilter) (node : NodeData) : Bool :=
  matchesProperty f.name node.get_name

/-- `Filter::matches_any` from `graph/filter.rs`, at `SinkFilter`. -/
def SinkFilter.matches_any (filters : List SinkFilter) (node : NodeData) : Bool :=
  filters.any (fun f => f.matches node)

/-- `NodeFilter` from `graph/filter.rs`. -/
structure NodeFilter where
  name : Option (String → Bool)
  appName : Option (String → Bool)
  mediaClass : Option (String → Bool)
  mediaRole : Option (String → Bool)
  mediaSoftware : Option (String → Bool)

/-- `impl Filter<NodeData> for NodeFilter` from `graph/filter.rs`. -/
def NodeFilter.matches (f : NodeFilter) (node : NodeData) : Bool :=
  matchesProperty f.name node.get_name
    && matchesProperty f.appName node.appName
    && matchesProperty f.mediaClass node.mediaClass
    && matchesProperty f.mediaRole node.mediaRole
    && matchesProperty f.mediaSoftware node.mediaSoftware

/-- `Filter::matches_any` from `graph/filter.rs`, at `NodeFilter`. -/
def NodeFilter.matches_any (filters : List NodeFilter) (node : NodeData) : Bool :=
  filters.any (fun f => f.matches node)

/-- Association-list embedding of `HashMap::insert` (replace or append). -/
def alInsert {α : Type} (m : List (Nat × α)) (k : Nat) (v : α) : List (Nat × α) :=
  match m with
  | [] => [(k, v)]
  | (k1, v1) :: rest => if k1 = k then (k, v) :: rest else (k1, v1) :: alInsert rest k v

/-- Association-list embedding of `HashMap::get`. -/
def alLookup {α : Type} (m : List (Nat × α)) (k : Nat) : Option α :=
  match m with
  | [] => none
  | (k1, v) :: rest => if k1 = k then some v else alLookup rest k

/-- Association-list embedding of `HashMap::remove` (drops the key). -/
def alRemoveKey {α : Type} (m : List (Nat × α)) (k : Nat) : List (Nat × α) :=
  m.filter (fun p => p.1 != k)

/-- List embedding of `HashSet::insert`. -/
def idSetInsert (s : List Nat) (x : Nat) : List Nat :=
  if s.contains x then s else s ++ [x]

/-- List embedding of `HashSet::remove`. -/
def idSetRemove (s : List Nat) (x : Nat) : List Nat :=
  s.erase x

/-- Embedding of `map.entry(k).or_default()` followed by a set mutation:
adjusts the set stored at `k`, materialising an empty set when absent. -/
def alAdjustSet (m : List (Nat × List Nat)) (k : Nat) (f : List Nat → List Nat) :
    List (Nat × List Nat) :=
  match m with
  | [] => [(k, f [])]
  | (k1, s) :: rest => if k1 = k then (k1, f s) :: rest else (k1, s) :: alAdjustSet rest k f

/-- `PWGraph` from `graph/mod.rs`: primary object map, the `sinks` set, the
four secondary indexes, and the user-supplied filters. -/
structure PWGraph where
  objects : List (Nat × PWObject)
  sinks : List Nat
  linksToPort : List (Nat × List Nat)
  linksFromPort : List (Nat × List Nat)
  nodeInputPorts : List (Nat × List Nat)
  nodeOutputPorts : List (Nat × List Nat)
  sinkWhitelist : List SinkFilter
  nodeBlacklist : List NodeFilter

/-- `PWGraph::new` from `graph/mod.rs`. -/
def PWGraph.new (sinkWhitelist : List SinkFilter) (nodeBlacklist : List NodeFilter) : PWGraph :=
  { objects := [], sinks := [], linksToPort := [], linksFromPort := []
    nodeInputPorts := [], nodeOutputPorts := []
    sinkWhitelist := sinkWhitelist, nodeBlacklist := nodeBlacklist }

/-- `PWGraph::insert` from `graph/mod.rs`. -/
def PWGraph.insert (g : PWGraph) (id : Nat) (obj : PWObject) : PWGraph :=
  let g1 :=
    match obj with
    | .node data =>
      match data.mediaClass with
      | some mediaClass =>
        if strContains mediaClass "Sink"
            && (g.sinkWhitelist.isEmpty || SinkFilter.matches_any g.sinkWhitelist data) then
          { g with sinks := idSetInsert g.sinks id }
        else g
      | none => g
    | .port data =>
      match data.nodeId, data.direction with
      | some nodeId, some direction =>
        match direction with
        | .input =>
          { g with nodeInputPorts := alAdjustSet g.nodeInputPorts nodeId (fun s => idSetInsert s id) }
        | .output =>
          { g with nodeOutputPorts := alAdjustSet g.nodeOutputPorts nodeId (fun s => idSetInsert s id) }
        | .other _ => g
      | _, _ => g
    | .link data =>
      let ga :=
        match data.outputPort with
        | some outputPort =>
          { g with linksFromPort := alAdjustSet g.linksFromPort outputPort (fun s => idSetInsert s id) }
        | none => g
      match data.inputPort with
      | some inputPort =>
        { ga with linksToPort := alAdjustSet ga.linksToPort inputPort (fun s => idSetInsert s id) }
      | none => ga
  { g1 with objects := alInsert g1.objects id obj }

/-- Modelled from the spec: the boolean result of the payload-level
`data.update(new_data)` is missing from the snapshot (the `graph/object.rs`
revision present returns unit while `graph/mod.rs` returns its value as
`was_updated : bool`); per the spec, update "Returns *true* iff any stored
field changed", so the flag is whether the merge changed the stored data. -/
def NodeData.updateWasUpdated (d new : NodeData) : Bool :=
  d.update new != d

/-- Modelled from the spec: see `NodeData.updateWasUpdated`. -/
def PortData.updateWasUpdated (d new : PortData) : Bool :=
  d.update new != d

/-- Modelled from the spec: see `NodeData.updateWasUpdated`. -/
def LinkData.updateWasUpdated (d new : LinkData) : Bool :=
  d.update new != d

/-- `PWGraph::update` from `graph/mod.rs`: absent object or kind mismatch
returns `false` with no change; otherwise secondary indexes are adjusted when
index-relevant fields change, the payload is merged field-wise, and the
change flag is returned. -/
def PWGraph.update (g : PWGraph) (id : Nat) (newData : PWObjectData) : PWGraph × Bool :=
  match alLookup g.objects id with
  | none => (g, false)
  | some obj =>
    match newData, obj with
    | .node newD, .node d =>
      let g1 :=
        if d.mediaClass ≠ newD.mediaClass then
          match newD.mediaClass with
          | some newMediaClass =>
            let ga :=
              match d.mediaClass with
              | some mediaClass =>
                if strContains mediaClass "Sink" then
                  { g with sinks := idSetRemove g.sinks id }
                else g
              | none => g
            if strContains newMediaClass "Sink"
                && (ga.sinkWhitelist.isEmpty || SinkFilter.matches_any ga.sinkWhitelist newD) then
              { ga with sinks := idSetInsert ga.sinks id }
            else ga
          | none => g
        else g
      ({ g1 with objects := alInsert g1.objects id (.node (d.update newD)) },
        d.updateWasUpdated newD)
    | .port newD, .port d =>
      let g1 :=
        if d.nodeId ≠ newD.nodeId || d.direction ≠ newD.direction then
          match newD.nodeId, newD.direction with
          | some newNodeId, some newDirection =>
            let ga :=
              match d.nodeId, d.direction with
              | some nodeId, some direction =>
                match direction with
                | .input =>
                  { g with nodeInputPorts :=
                      alAdjustSet g.nodeInputPorts nodeId (fun s => idSetRemove s id) }
                | .output =>
                  { g with nodeOutputPorts :=
                      alAdjustSet g.nodeOutputPorts nodeId (fun s => idSetRemove s id) }
                | .other _ => g
              | _, _ => g
            match newDirection with
            | .input =>
              { ga with nodeInputPorts :=
                  alAdjustSet ga.nodeInputPorts newNodeId (fun s => idSetInsert s id) }
            | .output =>
              { ga with nodeOutputPorts :=
                  alAdjustSet ga.nodeOutputPorts newNodeId (fun s => idSetInsert s id) }
            | .other _ => ga
          | _, _ => g
        else g
      ({ g1 with objects := alInsert g1.objects id (.port (d.update newD)) },
        d.updateWasUpdated newD)
    | .link newD, .link d =>
      let g1 :=
        if d.outputPort ≠ newD.outputPort then
          match newD.outputPort with
          | some newOutputPort =>
            let ga :=
              match d.outputPort with
              | some outputPort =>
                { g with linksFromPort :=
                    alAdjustSet g.linksFromPort outputPort (fun s => idSetRemove s id) }
              | none => g
            { ga with linksFromPort :=
                alAdjustSet ga.linksFromPort newOutputPort (fun s => idSetInsert s id) }
          | none => g
        else g
      let g2 :=
        if d.inputPort ≠ newD.inputPort then
          match newD.inputPort with
          | some newInputPort =>
            let ga :=
              match d.inputPort with
              | some inputPort =>
                { g1 with linksToPort :=
                    alAdjustSet g1.linksToPort inputPort (fun s => idSetRemove s id) }
              | none => g1
            { ga with linksToPort :=
                alAdjustSet ga.linksToPort newInputPort (fun s => idSetInsert s id) }
          | none => g1
        else g1
      ({ g2 with objects := alInsert g2.objects id (.link (d.update newD)) },
        d.updateWasUpdated newD)
    | _, _ => (g, false)

/-- `PWGraph::remove` from `graph/mod.rs`. -/
def PWGraph.remove (g : PWGraph) (id : Nat) : PWGraph × Option PWObject :=
  match alLookup g.objects id with
  | none => (g, none)
  | some obj =>
    let g0 := { g with objects := alRemoveKey g.objects id }
    let g1 :=
      match obj with
      | .node d =>
        match d.mediaClass with
        | some mediaClass =>
          if strContains mediaClass "Sink" then
            { g0 with sinks := idSetRemove g0.sinks id }
          else g0
        | none => g0
      | .port d =>
        match d.nodeId, d.direction with
        | some nodeId, some direction =>
          match direction with
          | .input =>
            { g0 with nodeInputPorts :=
                alAdjustSet g0.nodeInputPorts nodeId (fun s => idSetRemove s id) }
          | .output =>
            { g0 with nodeOutputPorts :=
                alAdjustSet g0.nodeOutputPorts nodeId (fun s => idSetRemove s id) }
          | .other _ => g0
        | _, _ => g0
      | .link d =>
        let ga :=
          match d.outputPort with
          | some outputPort =>
            { g0 with linksFromPort :=
                alAdjustSet g0.linksFromPort outputPort (fun s => idSetRemove s id) }
          | none => g0
        match d.inputPort with
        | some inputPort =>
          { ga with linksToPort :=
              alAdjustSet ga.linksToPort inputPort (fun s => idSetRemove s id) }
        | none => ga
    (g1, some obj)

/-- Embedding of `HashSet::insert` on pairs (phase 1 of `check_node_active`
collects `links_to_node : HashSet<(&Id, &Id)>`). -/
def pairSetInsert (s : List (Nat × Nat)) (x : Nat × Nat) : List (Nat × Nat) :=
  if s.contains x then s else s ++ [x]

/-- Inner step of phase 1 of `PWGraph::check_node_active` from
`graph/mod.rs`: one link of one input port's index entry; links that are not
`Link` objects, lack `active == Some(true)` or lack an `output_port`
contribute nothing, the others add their `(link, output_port)` pair. -/
def collectLinkStep (g : PWGraph) (acc : List (Nat × Nat)) (link : Nat) :
    List (Nat × Nat) :=
  match alLookup g.objects link with
  | some (.link data) =>
    match data.active with
    | some true =>
      match data.outputPort with
      | some outputPort => pairSetInsert acc (link, outputPort)
      | none => acc
    | some false => acc
    | none => acc
  | some _ => acc
  | none => acc

/-- Outer step of phase 1 of `PWGraph::check_node_active` from
`graph/mod.rs`: one input port; ids that are not `Port` objects or have no
links-by-input-port entry contribute nothing. -/
def collectPortStep (g : PWGraph) (acc : List (Nat × Nat)) (port : Nat) :
    List (Nat × Nat) :=
  match alLookup g.objects port with
  | some (.port _) =>
    match alLookup g.linksToPort port with
    | none => acc
    | some links => links.foldl (collectLinkStep g) acc
  | some _ => acc
  | none => acc

/-- Phase 1 of `PWGraph::check_node_active` from `graph/mod.rs`: walk the
node's input ports collecting the active `(link, output_port)` pairs. -/
def collectLinksToNode (g : PWGraph) (ports : List Nat) : List (Nat × Nat) :=
  ports.foldl (collectPortStep g) []

mutual

/-- `PWGraph::check_node_active` from `graph/mod.rs`.  The Rust function
recurses on the heap; here `fuel` bounds the recursion depth and
`getActiveSinks` supplies provably sufficient fuel.  Returns the result
together with the mutated `visited` set. -/
def checkNodeActive (g : PWGraph) (fuel : Nat) (id : Nat) (visited : List Nat) :
    Bool × List Nat :=
  match fuel with
  | 0 => (false, visited)
  | fuel + 1 =>
    let visited1 := idSetInsert visited id
    match alLookup g.objects id with
    | some (.node data) =>
      if NodeFilter.matches_any g.nodeBlacklist data then (false, visited1)
      else
        match alLookup g.nodeInputPorts id with
        | none => (true, visited1)
        | some ports =>
          if ports.isEmpty then (true, visited1)
          else
            let linksToNode := collectLinksToNode g ports
            if linksToNode.isEmpty then (false, visited1)
            else checkLinksToNode g fuel linksToNode visited1
    | some _ => (false, visited1)
    | none => (false, visited1)
  termination_by (fuel, 0, 0)

/-- Phase 2 loop of `check_node_active`: for each collected
`(link, output_port)` pair, look up the output port's `node_id` and recurse
on nodes not yet visited, returning `true` on the first active one; the
visited set threads through the iterations. -/
def checkLinksToNode (g : PWGraph) (fuel : Nat) (prs : List (Nat × Nat))
    (visited : List Nat) : Bool × List Nat :=
  match prs with
  | [] => (false, visited)
  | (_, outputPort) :: rest =>
    match alLookup g.objects outputPort with
    | some (.port data) =>
      match data.nodeId with
      | some nodeId =>
        if visited.contains nodeId then checkLinksToNode g fuel rest visited
        else
          let r := checkNodeActive g fuel nodeId visited
          if r.1 then (true, r.2) else checkLinksToNode g fuel rest r.2
      | none => checkLinksToNode g fuel rest visited
    | some _ => checkLinksToNode g fuel rest visited
    | none => checkLinksToNode g fuel rest visited
  termination_by (fuel, 1, prs.length)

end

/-- All node ids named as some port object's `node_id` — the only ids the
traversal can recurse into. -/
def portNodeIds (g : PWGraph) : List Nat :=
  g.objects.foldr (fun p acc => match p.2 with | .port d => d.nodeId.toList ++ acc | _ => acc) []

/-- Fuel that provably suffices for the traversal (claim C9). -/
def traversalFuel (g : PWGraph) : Nat :=
  (portNodeIds g).length + 1

/-- `PWGraph::get_active_sinks` from `graph/mod.rs`: every sink is probed by
a fresh traversal; the returned set is embedded as the sink list filtered to
the active ones. -/
def getActiveSinks (g : PWGraph) : List Nat :=
  g.sinks.filter (fun sink => (checkNodeActive g (traversalFuel g) sink []).1)

/-- State of `InhibitIdleState` from `inhibit_idle_state.rs`.  The timer
`Guard` option is embedded as the boolean `guardLive`
(`inhibit_idle_timout_callback_guard.is_some()`); `pw_inhibit`,
`manual_inhibit` and the `RwLock<bool>` effective value are plain booleans.
The configured `inhibit_idle_timout : Option<Duration>` is passed separately
as an `Option Nat`. -/
structure InhibitIdleState where
  guardLive : Bool
  pwInhibit : Bool
  manualInhibit : Bool
  isIdleInhibited : Bool
deriving DecidableEq, Repr

/-- `InhibitIdleState::new` from `inhibit_idle_state.rs`: no timer pending,
both inhibit sources false, effective state false. -/
def InhibitIdleState.new : InhibitIdleState :=
  { guardLive := false, pwInhibit := false, manualInhibit := false, isIdleInhibited := false }

/-- `InhibitIdleState::update_is_idle_inhibited` from `inhibit_idle_state.rs`:
returns the new stored effective value together with the list of
`InhibitIdle` emissions (empty or a singleton). -/
def updateIsIdleInhibited (stored newValue forceEmit : Bool) : Bool × List Bool :=
  if !forceEmit && stored == newValue then (stored, [])
  else (newValue, [newValue])

/-- `InhibitIdleState::reevaluate_effective_state` from
`inhibit_idle_state.rs`: `new_effective = pw_inhibit || manual_inhibit`. -/
def InhibitIdleState.reevaluateEffectiveState (s : InhibitIdleState) (forceEmit : Bool) :
    InhibitIdleState × List Bool :=
  let newEffective := s.pwInhibit || s.manualInhibit
  let r := updateIsIdleInhibited s.isIdleInhibited newEffective forceEmit
  ({ s with isIdleInhibited := r.1 }, r.2)

/-- `InhibitIdleState::set_manual_inhibit` from `inhibit_idle_state.rs`:
store the value and force a re-evaluation. -/
def InhibitIdleState.setManualInhibit (s : InhibitIdleState) (value : Bool) :
    InhibitIdleState × List Bool :=
  InhibitIdleState.reevaluateEffectiveState { s with manualInhibit := value } true

/-- `InhibitIdleState::handle_timeout` from `inhibit_idle_state.rs`: only
honored while the timer guard is live; a stale fire is a no-op. -/
def InhibitIdleState.handleTimeout (s : InhibitIdleState) : InhibitIdleState × List Bool :=
  if s.guardLive then
    InhibitIdleState.reevaluateEffectiveState
      { s with guardLive := false, pwInhibit := true } false
  else (s, [])

/-- `InhibitIdleState::set_is_idle_inhibited` from `inhibit_idle_state.rs`.
With a configured timeout and a `true` candidate: ignore if `pw_inhibit` is
already set or a timer is already pending, otherwise start the one-shot
timer (embedded as `guardLive := true`; expiry is delivered as a separate
`timerFired` event).  All other cases drop any pending timer without firing
it, store the candidate into `pw_inhibit` and re-evaluate. -/
def InhibitIdleState.setIsIdleInhibited (timeout : Option Nat) (s : InhibitIdleState)
    (isIdleInhibited : Bool) : InhibitIdleState × List Bool :=
  match timeout, isIdleInhibited with
  | some _, true =>
    if s.pwInhibit then (s, [])
    else if s.guardLive then (s, [])
    else ({ s with guardLive := true }, [])
  | _, _ =>
    InhibitIdleState.reevaluateEffectiveState
      { s with guardLive := false, pwInhibit := isIdleInhibited } false

/-- Events consumed by the state machine: an audio candidate from the
PipeWire worker, a timer expiry, and a manual-inhibit set delivered from the
D-Bus server through the main loop. -/
inductive IIEvent where
  | audioCandidate (b : Bool)
  | timerFired
  | manualSet (b : Bool)
deriving DecidableEq, Repr

/-- Whether an event is the manual-inhibit message (the only handler that
requests a forced emission). -/
def IIEvent.isManual : IIEvent → Bool
  | .manualSet _ => true
  | _ => false

/-- Dispatch one event to the corresponding `InhibitIdleState` handler. -/
def iiStep (timeout : Option Nat) (s : InhibitIdleState) : IIEvent → InhibitIdleState × List Bool
  | .audioCandidate b => s.setIsIdleInhibited timeout b
  | .timerFired => s.handleTimeout
  | .manualSet b => s.setManualInhibit b

/-- Run a list of events, collecting every emission annotated with whether
it was produced by a manual-set event. -/
def iiRun (timeout : Option Nat) (s : InhibitIdleState) :
    List IIEvent → InhibitIdleState × List (Bool × Bool)
  | [] => (s, [])
  | e :: evs =>
    let r1 := iiStep timeout s e
    let r2 := iiRun timeout r1.1 evs
    (r2.1, r1.2.map (fun v => (v, e.isManual)) ++ r2.2)

/-- Manual-inhibit state kept by `DBusServer` from `dbus_server.rs`. -/
structure DBusServer where
  manualInhibit : Bool
deriving DecidableEq, Repr

/-- `DBusServer::new` from `dbus_server.rs`. -/
def DBusServer.new : DBusServer :=
  { manualInhibit := false }

/-- `DBusServer::toggle_manual_inhibit` from `dbus_server.rs`: negate the
server's copy and send `Msg::ManualInhibit(new_val)` to the main loop;
returns the new server state and the message payload. -/
def DBusServer.toggleManualInhibit (d : DBusServer) : DBusServer × Bool :=
  ({ manualInhibit := !d.manualInhibit }, !d.manualInhibit)

/-- Modelled from the spec: the main-loop dispatch that delivers a
`ManualInhibit(value)` message to the state machine is in `main.rs`, whose
snapshot revision predates the message type; per spec §4.C rule 4 and §4.G
the toggle request reaches the machine as a manual-inhibit set, i.e.
`InhibitIdleState::set_manual_inhibit(value)`. -/
def mainDispatchManualInhibit (s : InhibitIdleState) (value : Bool) :
    InhibitIdleState × List Bool :=
  s.setManualInhibit value

/-- A D-Bus toggle request processed end to end: the server negates its
copy, the message travels through the main queue, and the machine applies
it. -/
def systemToggle (d : DBusServer) (s : InhibitIdleState) :
    (DBusServer × InhibitIdleState) × List Bool :=
  let r1 := d.toggleManualInhibit
  let r2 := mainDispatchManualInhibit s r1.2
  ((r1.1, r2.1), r2.2)

/-- `registry_global_link` from `pipewire_connection/mod.rs`: the `LinkData`
inserted for a newly announced link, as a function of the parsed announce
properties; `active` is hard-coded to `Some(false)`. -/
def registryGlobalLinkData (inputPort outputPort : Option Nat) : LinkData :=
  { inputPort := inputPort, outputPort := outputPort, active := some false }

/-- Link collection of claim C1 as literally stated: the candidate links of
a node are the link objects whose own `input_port` field is one of the
node's input ports (with `active == Some(true)` and a defined
`output_port`). -/
def claimCollectLinks (g : PWGraph) (ports : List Nat) : List (Nat × Nat) :=
  g.objects.foldl
    (fun acc p =>
      match p.2 with
      | .link d =>
        match d.inputPort with
        | some inputPort =>
          if ports.contains inputPort then
            match d.active, d.outputPort with
            | some true, some outputPort => pairSetInsert acc (p.1, outputPort)
            | _, _ => acc
          else acc
        | none => acc
      | _ => acc)
    []

mutual

/-- The recursive reachability predicate of claim C1 as literally stated:
like the implementation, but drawing a node's candidate links from the link
objects' own `input_port` fields instead of the links-by-input-port index. -/
def claimNodeActive (g : PWGraph) (fuel : Nat) (id : Nat) (visited : List Nat) :
    Bool × List Nat :=
  match fuel with
  | 0 => (false, visited)
  | fuel + 1 =>
    let visited1 := idSetInsert visited id
    match alLookup g.objects id with
    | some (.node data) =>
      if NodeFilter.matches_any g.nodeBlacklist data then (false, visited1)
      else
        match alLookup g.nodeInputPorts id with
        | none => (true, visited1)
        | some ports =>
          if ports.isEmpty then (true, visited1)
          else
            let linksToNode := claimCollectLinks g ports
            if linksToNode.isEmpty then (false, visited1)
            else claimLinksRec g fuel linksToNode visited1
    | some _ => (false, visited1)
    | none => (false, visited1)
  termination_by (fuel, 0, 0)

/-- Per-link step of the claim C1 predicate as stated: identical to the
implementation's phase 2 with the recursion going through
`claimNodeActive`. -/
def claimLinksRec (g : PWGraph) (fuel : Nat) (prs : List (Nat × Nat))
    (visited : List Nat) : Bool × List Nat :=
  match prs with
  | [] => (false, visited)
  | (_, outputPort) :: rest =>
    match alLookup g.objects outputPort with
    | some (.port data) =>
      match data.nodeId with
      | some nodeId =>
        if visited.contains nodeId then claimLinksRec g fuel rest visited
        else
          let r := claimNodeActive g fuel nodeId visited
          if r.1 then (true, r.2) else claimLinksRec g fuel rest r.2
      | none => claimLinksRec g fuel rest visited
    | some _ => claimLinksRec g fuel rest visited
    | none => claimLinksRec g fuel rest visited
  termination_by (fuel, 1, prs.length)

end

/-- The set of sinks satisfying the claim C1 predicate as stated. -/
def claimActiveSinks (g : PWGraph) : List Nat :=
  g.sinks.filter (fun sink => (claimNodeActive g (traversalFuel g) sink []).1)

mutual

/-- The recursive reachability predicate of claim C1 in its amended reading:
candidate links are drawn from the links-by-input-port index under each
input port whose object is present as a `Port`.  Written as a direct
single-pass recursion (no collection phase), to be proved extensionally
equal to the implementation's two-phase `checkNodeActive`. -/
def specNodeActive (g : PWGraph) (fuel : Nat) (id : Nat) (visited : List Nat) :
    Bool × List Nat :=
  match fuel with
  | 0 => (false, visited)
  | fuel + 1 =>
    let visited1 := idSetInsert visited id
    match alLookup g.objects id with
    | some (.node data) =>
      if NodeFilter.matches_any g.nodeBlacklist data then (false, visited1)
      else
        match alLookup g.nodeInputPorts id with
        | none => (true, visited1)
        | some ports =>
          if ports.isEmpty then (true, visited1)
          else specPortsActive g fuel ports visited1
    | some _ => (false, visited1)
    | none => (false, visited1)
  termination_by (fuel, 0, 0, 0)

/-- Iteration of the amended claim C1 predicate over a node's input ports:
ports whose object is missing or not a `Port`, or with no index entry,
contribute nothing. -/
def specPortsActive (g : PWGraph) (fuel : Nat) (ports : List Nat)
    (visited : List Nat) : Bool × List Nat :=
  match ports with
  | [] => (false, visited)
  | port :: rest =>
    match alLookup g.objects port with
    | some (.port _) =>
      match alLookup g.linksToPort port with
      | none => specPortsActive g fuel rest visited
      | some links =>
        let r := specLinksActive g fuel links visited
        if r.1 then (true, r.2) else specPortsActive g fuel rest r.2
    | some _ => specPortsActive g fuel rest visited
    | none => specPortsActive g fuel rest visited
  termination_by (fuel, 1, ports.length, 0)

/-- Iteration of the amended claim C1 predicate over the links indexed at
one input port: a link lacking `active == Some(true)`, a defined
`output_port`, an output-port `Port` object or its `node_id` contributes
nothing; an unvisited named node is tested recursively. -/
def specLinksActive (g : PWGraph) (fuel : Nat) (links : List Nat)
    (visited : List Nat) : Bool × List Nat :=
  match links with
  | [] => (false, visited)
  | link :: rest =>
    match alLookup g.objects link with
    | some (.link d) =>
      match d.active with
      | some true =>
        match d.outputPort with
        | some outputPort =>
          match alLookup g.objects outputPort with
          | some (.port pd) =>
            match pd.nodeId with
            | some nodeId =>
              if visited.contains nodeId then specLinksActive g fuel rest visited
              else
                let r := specNodeActive g fuel nodeId visited
                if r.1 then (true, r.2) else specLinksActive g fuel rest r.2
            | none => specLinksActive g fuel rest visited
          | some _ => specLinksActive g fuel rest visited
          | none => specLinksActive g fuel rest visited
        | none => specLinksActive g fuel rest visited
      | some false => specLinksActive g fuel rest visited
      | none => specLinksActive g fuel rest visited
    | some _ => specLinksActive g fuel rest visited
    | none => specLinksActive g fuel rest visited
  termination_by (fuel, 0, links.length, 1)

end

/-- The set of sinks satisfying the amended claim C1 predicate. -/
def specActiveSinks (g : PWGraph) : List Nat :=
  g.sinks.filter (fun sink => (specNodeActive g (traversalFuel g) sink []).1)

/-- One mutation of the graph, as driven by the PipeWire event handlers in
`pipewire_connection/mod.rs`: a registry announce (`insert`), an info delta
(`update`) or a global-remove (`remove`). -/
inductive GraphOp where
  | ins (id : Nat) (obj : PWObject)
  | upd (id : Nat) (data : PWObjectData)
  | rem (id : Nat)

/-- Apply one operation to the graph (dropping the reported results). -/
def applyOp (g : PWGraph) : GraphOp → PWGraph
  | .ins id obj => g.insert id obj
  | .upd id d => (g.update id d).1
  | .rem id => (g.remove id).1

/-- Apply a sequence of operations left to right. -/
def applyOps (g : PWGraph) : List GraphOp → PWGraph
  | [] => g
  | op :: ops => applyOps (applyOp g op) ops

/-- Every `ins` in the sequence targets an id with no live object — the
protocol guarantee the spec states for `insert` ("the audio server never
reuses live Ids"). -/
def freshOpsB (g : PWGraph) : List GraphOp → Bool
  | [] => true
  | op :: ops =>
    (match op with
     | .ins id _ => (alLookup g.objects id).isNone
     | _ => true)
      && freshOpsB (applyOp g op) ops

/-- Every `Port` update payload carries `node_id` and `direction` together
(both present or both absent), the pattern PipeWire port-info events
actually produce. -/
def portPayloadOk (ops : List GraphOp) : Bool :=
  ops.all fun op =>
    match op with
    | .upd _ (.port d) => d.nodeId.isSome == d.direction.isSome
    | _ => true

/-- The id set stored at a key of a secondary index (empty when absent). -/
def indexSet (m : List (Nat × List Nat)) (k : Nat) : List Nat :=
  (alLookup m k).getD []

/-- Whether an update payload has the same kind as a stored object. -/
def PWObjectData.kindMatches : PWObjectData → PWObject → Bool
  | .node _, .node _ => true
  | .port _, .port _ => true
  | .link _, .link _ => true
  | _, _ => false

/-- A `NodeData` with every field absent. -/
def NodeData.empty : NodeData :=
  ⟨none, none, none, none, none, none, none⟩

/-- Concrete graph refuting claim C1 as stated: built by graph operations
only.  Link 3 is announced with `input_port = 2` (indexed under port 2),
then a conflicting re-announce of id 3 replaces the object by a link whose
`input_port` field is absent but which is `active`; the links-by-input-port
index still lists it under port 2, so the implementation follows it while
the literal claim predicate (which reads the link's own `input_port` field)
does not. -/
def c1Graph : PWGraph :=
  applyOps (PWGraph.new [] [])
    [ .ins 1 (.node { NodeData.empty with mediaClass := some "Audio/Sink" })
    , .ins 2 (.port ⟨none, some 1, some .input, none⟩)
    , .ins 3 (.link ⟨some 2, some 20, some true⟩)
    , .ins 3 (.link ⟨none, some 20, some true⟩)
    , .ins 20 (.port ⟨none, some 5, some .output, none⟩)
    , .ins 5 (.node NodeData.empty) ]

/-- Concrete whitelist refuting claim C2: matches exactly the display name
"foo". -/
def c2Whitelist : List SinkFilter :=
  [⟨some (fun s => s == "foo")⟩]

/-- Concrete graph refuting claim C2: node 1 enters `sinks` at insert time
(display name "foo" matches the whitelist); a later update changes the
display name to "zzz" without touching `media_class`, so membership is not
re-evaluated although the node's current data no longer passes the
whitelist. -/
def c2Graph : PWGraph :=
  applyOps (PWGraph.new c2Whitelist [])
    [ .ins 1 (.node { NodeData.empty with name := some "foo", mediaClass := some "Audio/Sink" })
    , .upd 1 (.node { NodeData.empty with description := some "zzz" }) ]

/-- The current (merged) data of node 1 in `c2Graph`. -/
def c2NodeData : NodeData :=
  { NodeData.empty with
    name := some "foo", mediaClass := some "Audio/Sink", description := some "zzz" }

/-- Concrete graph refuting claim C3: port 2 is inserted under node 1, then
an update moves its `node_id` to 2 without supplying `direction`; the code
skips the index maintenance for such payloads, leaving the stale entry
under node 1 and never creating one under node 2. -/
def c3Graph : PWGraph :=
  applyOps (PWGraph.new [] [])
    [ .ins 2 (.port ⟨none, some 1, some .input, none⟩)
    , .upd 2 (.port ⟨none, some 2, none, none⟩) ]

/-- The index-removal prefix shared by the port branches of `PWGraph::update`
and `PWGraph::remove` (the `ga` of the source): drop the port from the index
slot named by its currently stored `node_id`/`direction`, when both are
present and the direction is input or output. -/
def portIdxRemoveOld (g : PWGraph) (id : Nat) (d : PortData) : PWGraph :=
  match d.nodeId, d.direction with
  | some nodeId, some direction =>
    match direction with
    | .input =>
      { g with nodeInputPorts := alAdjustSet g.nodeInputPorts nodeId (fun s => idSetRemove s id) }
    | .output =>
      { g with nodeOutputPorts := alAdjustSet g.nodeOutputPorts nodeId (fun s => idSetRemove s id) }
    | .other _ => g
  | _, _ => g

/-- The links-by-output-port removal prefix shared by the link branches of
`PWGraph::update` and `PWGraph::remove`: drop the link from the slot named by
its currently stored `output_port`, when present. -/
def linkFromRemoveOld (g : PWGraph) (id : Nat) (d : LinkData) : PWGraph :=
  match d.outputPort with
  | some outputPort =>
    { g with linksFromPort := alAdjustSet g.linksFromPort outputPort (fun s => idSetRemove s id) }
  | none => g

/-- The links-by-input-port removal prefix shared by the link branches of
`PWGraph::update` and `PWGraph::remove`. -/
def linkToRemoveOld (g : PWGraph) (id : Nat) (d : LinkData) : PWGraph :=
  match d.inputPort with
  | some inputPort =>
    { g with linksToPort := alAdjustSet g.linksToPort inputPort (fun s => idSetRemove s id) }
  | none => g

/-- The sinks-set invariant of claim C2, restricted to an empty sink
whitelist (the default configuration): membership in `sinks` is exactly
"the current merged `media_class` contains the substring Sink". -/
def c2Inv (g : PWGraph) : Prop :=
  g.sinkWhitelist = [] ∧ g.sinks.Nodup ∧
    ∀ n : Nat, n ∈ g.sinks ↔
      ∃ d : NodeData, alLookup g.objects n = some (.node d)
        ∧ ∃ mc : String, d.mediaClass = some mc ∧ strContains mc "Sink" = true

/-- Derivation of a links-by-input-port index entry from a primary map:
link `l` currently names `p` as its input port. -/
def linksToDeriv (objs : List (Nat × PWObject)) (p l : Nat) : Prop :=
  ∃ d : LinkData, alLookup objs l = some (.link d) ∧ d.inputPort = some p

/-- Derivation of a links-by-output-port index entry from a primary map. -/
def linksFromDeriv (objs : List (Nat × PWObject)) (p l : Nat) : Prop :=
  ∃ d : LinkData, alLookup objs l = some (.link d) ∧ d.outputPort = some p

/-- Derivation of a node-input-ports index entry from a primary map: port
`p` currently names `n` as its node and is an input port. -/
def inPortsDeriv (objs : List (Nat × PWObject)) (n p : Nat) : Prop :=
  ∃ d : PortData, alLookup objs p = some (.port d)
    ∧ d.nodeId = some n ∧ d.direction = some PWDirection.input

/-- Derivation of a node-output-ports index entry from a primary map. -/
def outPortsDeriv (objs : List (Nat × PWObject)) (n p : Nat) : Prop :=
  ∃ d : PortData, alLookup objs p = some (.port d)
    ∧ d.nodeId = some n ∧ d.direction = some PWDirection.output

/-- The secondary-index coherence invariant of claim C3: every stored index
set is duplicate-free and the four indexes hold exactly the entries
derivable from the primary map. -/
def c3Inv (g : PWGraph) : Prop :=
  (∀ k : Nat, (indexSet g.linksToPort k).Nodup)
    ∧ (∀ k : Nat, (indexSet g.linksFromPort k).Nodup)
    ∧ (∀ k : Nat, (indexSet g.nodeInputPorts k).Nodup)
    ∧ (∀ k : Nat, (indexSet g.nodeOutputPorts k).Nodup)
    ∧ (∀ p l : Nat, l ∈ indexSet g.linksToPort p ↔ linksToDeriv g.objects p l)
    ∧ (∀ p l : Nat, l ∈ indexSet g.linksFromPort p ↔ linksFromDeriv g.objects p l)
    ∧ (∀ n p : Nat, p ∈ indexSet g.nodeInputPorts n ↔ inPortsDeriv g.objects n p)
    ∧ (∀ n p : Nat, p ∈ indexSet g.nodeOutputPorts n ↔ outPortsDeriv g.objects n p)

/-- Number of traversal-candidate node ids not yet visited: the measure that
bounds the recursion depth of `check_node_active` (claim C9). -/
def remCount (g : PWGraph) (v : List Nat) : Nat :=
  ((portNodeIds g).filter (fun u => !v.contains u)).length

theorem contains_true_iff_mem {α : Type} [BEq α] [LawfulBEq α] {s : List α} {x : α} :
    s.contains x = true ↔ x ∈ s := by
  simp

theorem mem_idSetInsert {s : List Nat} {x a : Nat} :
    a ∈ idSetInsert s x ↔ a ∈ s ∨ a = x := by
  unfold idSetInsert
  split
  · next h =>
    rw [contains_true_iff_mem] at h
    constructor
    · exact Or.inl
    · rintro (ha | rfl)
      · exact ha
      · exact h
  · simp [List.mem_append]

theorem subset_idSetInsert (s : List Nat) (x : Nat) : s ⊆ idSetInsert s x := by
  intro a ha
  exact mem_idSetInsert.mpr (Or.inl ha)

theorem mem_idSetInsert_self (s : List Nat) (x : Nat) : x ∈ idSetInsert s x :=
  mem_idSetInsert.mpr (Or.inr rfl)

theorem node_update_of_is_empty {d nd : NodeData} (h : nd.is_empty = true) :
    d.update nd = d := by
  obtain ⟨n, a, de, ni, mc, mr, ms⟩ := nd
  simp only [NodeData.is_empty, Bool.and_eq_true, Option.isNone_iff_eq_none] at h
  obtain ⟨⟨⟨⟨⟨⟨h1, h2⟩, h3⟩, h4⟩, h5⟩, h6⟩, h7⟩ := h
  subst h1 h2 h3 h4 h5 h6 h7
  simp [NodeData.update]

theorem port_update_of_is_empty {d nd : PortData} (h : nd.is_empty = true) :
    d.update nd = d := by
  obtain ⟨n, ni, di, t⟩ := nd
  simp only [PortData.is_empty, Bool.and_eq_true, Option.isNone_iff_eq_none] at h
  obtain ⟨⟨⟨h1, h2⟩, h3⟩, h4⟩ := h
  subst h1 h2 h3 h4
  simp [PortData.update]

theorem link_update_of_is_empty {d nd : LinkData} (h : nd.is_empty = true) :
    d.update nd = d := by
  obtain ⟨i, o, a⟩ := nd
  simp only [LinkData.is_empty, Bool.and_eq_true, Option.isNone_iff_eq_none] at h
  obtain ⟨⟨h1, h2⟩, h3⟩ := h
  subst h1 h2 h3
  simp [LinkData.update]

/-- Claim C8: the display name used by filters is the first defined field in
the order `description`, then `nick`, then `name`; it never falls back to
`app_name`, so whenever `app_name` is defined and differs from the other
three name fields the display name cannot equal it. -/
theorem c8_display_name_order (d : NodeData) :
    (∀ v, d.description = some v → d.get_name = some v) ∧
    (d.description = none → ∀ v, d.nick = some v → d.get_name = some v) ∧
    (d.description = none → d.nick = none → d.get_name = d.name) ∧
    (∀ a, d.appName = some a → d.description ≠ some a → d.nick ≠ some a →
      d.name ≠ some a → d.get_name ≠ some a) := by
  refine ⟨?_, ?_, ?_, ?_⟩
  · intro v hv
    simp [NodeData.get_name, hv]
  · intro hd v hv
    simp [NodeData.get_name, hd, hv]
  · intro hd hn
    simp [NodeData.get_name, hd, hn]
  · intro a _ hd hn hm
    unfold NodeData.get_name
    cases hde : d.description with
    | some v => simpa [hde] using fun hv => hd (hde ▸ congrArg some hv) |>.elim
    | none =>
      cases hni : d.nick with
      | some v =>
        intro hcon
        exact hn (hni ▸ hcon)
      | none => exact hm

/-- Witness for claim C8 at a concrete node whose `app_name` differs from
its other name fields. -/
theorem c8_display_name_order_witness :
    (NodeData.get_name ⟨some "n", some "a", some "desc", some "k", none, none, none⟩
      = some "desc") ∧
    (NodeData.get_name ⟨some "n", some "a", some "desc", some "k", none, none, none⟩
      ≠ some "a") :=
  ⟨(c8_display_name_order ⟨some "n", some "a", some "desc", some "k", none, none, none⟩).1
      "desc" rfl,
   (c8_display_name_order ⟨some "n", some "a", some "desc", some "k", none, none, none⟩).2.2.2
      "a" rfl (by decide) (by decide) (by decide)⟩

/-- Claim C4: `PWGraph::update` returns `false` (no change) when the object
is absent, when the payload kind does not match the stored object's kind,
or when all supplied fields are empty; in the matching-kind case it returns
`true` exactly when merging the payload changes at least one stored field.
The boolean itself is spec-modelled (see `NodeData.updateWasUpdated`). -/
theorem c4_update_result (g : PWGraph) (id : Nat) (payload : PWObjectData) :
    (alLookup g.objects id = none → g.update id payload = (g, false)) ∧
    (∀ obj, alLookup g.objects id = some obj → payload.kindMatches obj = false →
      g.update id payload = (g, false)) ∧
    (payload.is_empty = true → (g.update id payload).2 = false) ∧
    (∀ d nd, alLookup g.objects id = some (.node d) → payload = .node nd →
      ((g.update id payload).2 = true ↔ d.update nd ≠ d)) ∧
    (∀ d nd, alLookup g.objects id = some (.port d) → payload = .port nd →
      ((g.update id payload).2 = true ↔ d.update nd ≠ d)) ∧
    (∀ d nd, alLookup g.objects id = some (.link d) → payload = .link nd →
      ((g.update id payload).2 = true ↔ d.update nd ≠ d)) := by
  refine ⟨?_, ?_, ?_, ?_, ?_, ?_⟩
  · intro h
    simp [PWGraph.update, h]
  · intro obj hobj hkind
    cases payload <;> cases obj <;>
      simp_all [PWGraph.update, PWObjectData.kindMatches]
  · intro hempty
    cases hl : alLookup g.objects id with
    | none => simp [PWGraph.update, hl]
    | some obj =>
      cases payload with
      | node nd =>
        cases obj <;>
          simp_all [PWGraph.update, PWObjectData.is_empty, NodeData.updateWasUpdated,
            node_update_of_is_empty hempty]
      | port nd =>
        cases obj <;>
          simp_all [PWGraph.update, PWObjectData.is_empty, PortData.updateWasUpdated,
            port_update_of_is_empty hempty]
      | link nd =>
        cases obj <;>
          simp_all [PWGraph.update, PWObjectData.is_empty, LinkData.updateWasUpdated,
            link_update_of_is_empty hempty]
  · intro d nd hl hp
    subst hp
    simp [PWGraph.update, hl, NodeData.updateWasUpdated, bne_iff_ne]
  · intro d nd hl hp
    subst hp
    simp [PWGraph.update, hl, PortData.updateWasUpdated, bne_iff_ne]
  · intro d nd hl hp
    subst hp
    simp [PWGraph.update, hl, LinkData.updateWasUpdated, bne_iff_ne]

/-- Witness for claim C4: updating an absent id leaves the empty graph
unchanged and reports no change. -/
theorem c4_update_result_witness :
    (PWGraph.new [] []).update 5 (.node NodeData.empty) = (PWGraph.new [] [], false) :=
  (c4_update_result (PWGraph.new [] []) 5 (.node NodeData.empty)).1 rfl

/-- Claim C5 (amended): the debouncing rules as implemented.  With no
configured `min_duration` an audio candidate is stored into `audio_inhibit`
immediately; with a configured duration a `true` candidate is ignored when a
timer is already pending *or when `audio_inhibit` is already set*, and
otherwise starts the one-shot timer silently; a `false` candidate cancels
any pending timer without firing and clears `audio_inhibit`; a timer expiry
is honored only while the guard is live.  The trace candidate=true then
candidate=false before expiry produces no emission at all. -/
theorem c5_debounce_rules (t : Nat) (s : InhibitIdleState) :
    (∀ b, (iiStep none s (.audioCandidate b)).1.pwInhibit = b ∧
      (iiStep none s (.audioCandidate b)).1.guardLive = false) ∧
    (s.guardLive = true → iiStep (some t) s (.audioCandidate true) = (s, [])) ∧
    (s.pwInhibit = true → iiStep (some t) s (.audioCandidate true) = (s, [])) ∧
    (s.guardLive = false → s.pwInhibit = false →
      iiStep (some t) s (.audioCandidate true) = ({ s with guardLive := true }, [])) ∧
    ((iiStep (some t) s (.audioCandidate false)).1.guardLive = false ∧
      (iiStep (some t) s (.audioCandidate false)).1.pwInhibit = false) ∧
    (s.guardLive = true → (iiStep (some t) s .timerFired).1.pwInhibit = true ∧
      (iiStep (some t) s .timerFired).1.guardLive = false) ∧
    (s.guardLive = false → iiStep (some t) s .timerFired = (s, [])) ∧
    (iiRun (some t) InhibitIdleState.new
      [.audioCandidate true, .audioCandidate false]).2 = [] := by
  obtain ⟨gl, pw, mi, eff⟩ := s
  refine ⟨?_, ?_, ?_, ?_, ?_, ?_, ?_, ?_⟩ <;>
    cases gl <;> cases pw <;>
      simp_all [iiStep, iiRun, InhibitIdleState.setIsIdleInhibited,
        InhibitIdleState.handleTimeout, InhibitIdleState.reevaluateEffectiveState,
        updateIsIdleInhibited, InhibitIdleState.new]

/-- Witness for claim C5 at the initial state with a five-second
duration. -/
theorem c5_debounce_rules_witness :
    iiStep (some 5) InhibitIdleState.new (.audioCandidate true)
      = ({ InhibitIdleState.new with guardLive := true }, []) :=
  (c5_debounce_rules 5 InhibitIdleState.new).2.2.2.1 rfl rfl

/-- Counterexample to claim C5 as stated: after candidate=true and the
timer expiry, `audio_inhibit` is set and no timer is pending; the stated
rules then demand that a further candidate=true start a new one-shot timer,
but the implementation ignores the event entirely because `audio_inhibit`
is already set (`set_is_idle_inhibited` returns early on `pw_inhibit`). -/
theorem c5_counterexample :
    (iiRun (some 5) InhibitIdleState.new
        [.audioCandidate true, .timerFired]).1.guardLive = false ∧
    ((iiRun (some 5) InhibitIdleState.new
        [.audioCandidate true, .timerFired]).1).pwInhibit = true ∧
    iiStep (some 5)
        (iiRun (some 5) InhibitIdleState.new [.audioCandidate true, .timerFired]).1
        (.audioCandidate true)
      = ((iiRun (some 5) InhibitIdleState.new [.audioCandidate true, .timerFired]).1,
          []) := by
  refine ⟨rfl, rfl, rfl⟩

theorem iiStep_emission_facts (t : Option Nat) (s : InhibitIdleState) (e : IIEvent) :
    ((iiStep t s e).2 = [] ∧ (iiStep t s e).1.isIdleInhibited = s.isIdleInhibited) ∨
    (∃ v, (iiStep t s e).2 = [v] ∧ (iiStep t s e).1.isIdleInhibited = v ∧
      (e.isManual = false → v ≠ s.isIdleInhibited)) := by
  obtain ⟨gl, pw, mi, eff⟩ := s
  cases e with
  | audioCandidate b =>
    cases t <;> cases b <;> cases gl <;> cases pw <;> cases mi <;> cases eff <;>
      simp [iiStep, InhibitIdleState.setIsIdleInhibited,
        InhibitIdleState.reevaluateEffectiveState, updateIsIdleInhibited, IIEvent.isManual]
  | timerFired =>
    cases gl <;> cases pw <;> cases mi <;> cases eff <;>
      simp [iiStep, InhibitIdleState.handleTimeout,
        InhibitIdleState.reevaluateEffectiveState, updateIsIdleInhibited, IIEvent.isManual]
  | manualSet b =>
    cases b <;> cases pw <;> cases mi <;> cases eff <;>
      simp [iiStep, InhibitIdleState.setManualInhibit,
        InhibitIdleState.reevaluateEffectiveState, updateIsIdleInhibited, IIEvent.isManual]

theorem iiRun_chain_aux (t : Option Nat) :
    ∀ (evs : List IIEvent) (s : InhibitIdleState),
      List.Chain' (fun x y : Bool × Bool => x.1 = y.1 → y.2 = true) (iiRun t s evs).2 ∧
      (∀ p, (iiRun t s evs).2.head? = some p → p.2 = false → p.1 ≠ s.isIdleInhibited) ∧
      ((iiRun t s evs).2 = [] →
        (iiRun t s evs).1.isIdleInhibited = s.isIdleInhibited) ∧
      (∀ p, (iiRun t s evs).2.getLast? = some p →
        p.1 = (iiRun t s evs).1.isIdleInhibited) := by
  intro evs
  induction evs with
  | nil => simp [iiRun]
  | cons e evs ih =>
    intro s
    obtain ⟨hC, hH, hE, hL⟩ := ih (iiStep t s e).1
    rcases iiStep_emission_facts t s e with ⟨h0, hsame⟩ | ⟨v, hv, hstate, hdiff⟩
    · simp only [iiRun, h0, List.map_nil, List.nil_append]
      exact ⟨hC, fun p hp hpf => hsame ▸ hH p hp hpf, fun h => (hE h).trans hsame, hL⟩
    · simp only [iiRun, hv, List.map_cons, List.map_nil, List.singleton_append]
      refine ⟨?_, ?_, ?_, ?_⟩
      · rw [List.chain'_cons']
        refine ⟨?_, hC⟩
        intro q hq hqv
        by_contra hq2
        have hfalse : q.2 = false := by simpa using hq2
        have hq1 : v = q.1 := by simpa using hqv
        exact hH q hq hfalse (hq1 ▸ hstate.symm)
      · intro p hp hpf
        simp only [List.head?_cons, Option.some_inj] at hp
        subst hp
        simp only at hpf
        simpa using hdiff hpf
      · intro h
        exact absurd h (List.cons_ne_nil _ _)
      · intro p hp
        cases hrest : (iiRun t (iiStep t s e).1 evs).2 with
        | nil =>
          rw [hrest] at hp
          simp only [List.getLast?_singleton, Option.some_inj] at hp
          subst hp
          simp only
          rw [hE hrest, hstate]
        | cons q qs =>
          refine hL p ?_
          rw [hrest] at hp
          rw [hrest]
          exact hp

/-- Claim C6: emissions of the effective inhibit state are edge-triggered —
in every trace started from the initial state, two consecutive emissions
never carry equal values unless the second one was produced by the
manual-inhibit handler (the only one that requests a forced emission). -/
theorem c6_edge_triggered_emissions (timeout : Option Nat) (evs : List IIEvent) :
    List.Chain' (fun x y : Bool × Bool => x.1 = y.1 → y.2 = true)
      (iiRun timeout InhibitIdleState.new evs).2 :=
  (iiRun_chain_aux timeout evs InhibitIdleState.new).1

/-- Claim C7: a manual toggle negates `manual_inhibit` and always forces an
emission of the (possibly unchanged) effective state; from the initial
state a first toggle emits `true` and a second toggle emits `false`. -/
theorem c7_manual_toggle (d : DBusServer) (s : InhibitIdleState)
    (hsync : d.manualInhibit = s.manualInhibit) :
    ((systemToggle d s).1.2.manualInhibit = !s.manualInhibit ∧
      (systemToggle d s).1.1.manualInhibit = !s.manualInhibit ∧
      (systemToggle d s).2 = [s.pwInhibit || !s.manualInhibit]) ∧
    (systemToggle DBusServer.new InhibitIdleState.new).2 = [true] ∧
    (systemToggle (systemToggle DBusServer.new InhibitIdleState.new).1.1
        (systemToggle DBusServer.new InhibitIdleState.new).1.2).2 = [false] := by
  refine ⟨⟨?_, ?_, ?_⟩, rfl, rfl⟩ <;>
    simp [systemToggle, DBusServer.toggleManualInhibit, mainDispatchManualInhibit,
      InhibitIdleState.setManualInhibit, InhibitIdleState.reevaluateEffectiveState,
      updateIsIdleInhibited, hsync]

/-- Witness for claim C7 at the initial server and machine states. -/
theorem c7_manual_toggle_witness :
    (systemToggle DBusServer.new InhibitIdleState.new).1.2.manualInhibit = true ∧
    (systemToggle DBusServer.new InhibitIdleState.new).2 = [true] := by
  have h := c7_manual_toggle DBusServer.new InhibitIdleState.new rfl
  exact ⟨by rw [h.1.1]; rfl, h.2.1⟩

theorem alInsert_lookup {α : Type} (m : List (Nat × α)) (k : Nat) (v : α) (x : Nat) :
    alLookup (alInsert m k v) x = if k = x then some v else alLookup m x := by
  induction m with
  | nil => simp [alInsert, alLookup]
  | cons p rest ih =>
    obtain ⟨k1, v1⟩ := p
    by_cases h : k1 = k
    · subst h
      by_cases hx : k1 = x <;> simp [alInsert, alLookup, hx]
    · simp only [alInsert, if_neg h, alLookup]
      by_cases hx : k1 = x
      · subst hx
        rw [if_pos rfl, if_pos rfl, if_neg (fun hk : k = k1 => h hk.symm)]
      · rw [if_neg hx, if_neg hx, ih]

theorem alAdjustSet_lookup (m : List (Nat × List Nat)) (k : Nat)
    (f : List Nat → List Nat) (x : Nat) :
    alLookup (alAdjustSet m k f) x =
      if k = x then some (f ((alLookup m k).getD [])) else alLookup m x := by
  induction m with
  | nil =>
    by_cases hx : k = x <;> simp [alAdjustSet, alLookup, hx]
  | cons p rest ih =>
    obtain ⟨k1, s⟩ := p
    by_cases h : k1 = k
    · subst h
      by_cases hx : k1 = x <;> simp [alAdjustSet, alLookup, hx]
    · simp only [alAdjustSet, if_neg h, alLookup]
      by_cases hx : k1 = x
      · subst hx
        rw [if_pos rfl, if_pos rfl, if_neg (fun hk : k = k1 => h hk.symm)]
      · rw [if_neg hx, if_neg hx, ih]

theorem alRemoveKey_lookup {α : Type} (m : List (Nat × α)) (k : Nat) (x : Nat) :
    alLookup (alRemoveKey m k) x = if k = x then none else alLookup m x := by
  induction m with
  | nil => by_cases hx : k = x <;> simp [alRemoveKey, alLookup, hx]
  | cons p rest ih =>
    obtain ⟨k1, v1⟩ := p
    by_cases h : k1 = k
    · subst h
      have hdrop : alRemoveKey ((k1, v1) :: rest) k1 = alRemoveKey rest k1 := by
        simp [alRemoveKey]
      rw [hdrop, ih]
      by_cases hx : k1 = x <;> simp [alLookup, hx]
    · have hkeep : alRemoveKey ((k1, v1) :: rest) k = (k1, v1) :: alRemoveKey rest k := by
        simp [alRemoveKey, h]
      rw [hkeep]
      by_cases hx : k1 = x
      · subst hx
        simp only [alLookup, if_pos rfl]
        rw [if_neg (fun hk : k = k1 => h hk.symm)]
        simp [alLookup]
      · simp only [alLookup, if_neg hx, ih]

theorem checkNodeActive_zero (g : PWGraph) (id : Nat) (v : List Nat) :
    checkNodeActive g 0 id v = (false, v) := by
  rw [checkNodeActive]

theorem checkNodeActive_succ (g : PWGraph) (fuel id : Nat) (v : List Nat) :
    checkNodeActive g (fuel + 1) id v =
      (let visited1 := idSetInsert v id
       match alLookup g.objects id with
       | some (.node data) =>
         if NodeFilter.matches_any g.nodeBlacklist data then (false, visited1)
         else
           match alLookup g.nodeInputPorts id with
           | none => (true, visited1)
           | some ports =>
             if ports.isEmpty then (true, visited1)
             else
               let linksToNode := collectLinksToNode g ports
               if linksToNode.isEmpty then (false, visited1)
               else checkLinksToNode g fuel linksToNode visited1
       | some _ => (false, visited1)
       | none => (false, visited1)) := by
  rw [checkNodeActive]

theorem checkLinksToNode_nil (g : PWGraph) (fuel : Nat) (v : List Nat) :
    checkLinksToNode g fuel [] v = (false, v) := by
  rw [checkLinksToNode]

theorem checkLinksToNode_cons (g : PWGraph) (fuel : Nat) (l op : Nat)
    (rest : List (Nat × Nat)) (v : List Nat) :
    checkLinksToNode g fuel ((l, op) :: rest) v =
      (match alLookup g.objects op with
       | some (.port data) =>
         match data.nodeId with
         | some nodeId =>
           if v.contains nodeId then checkLinksToNode g fuel rest v
           else
             let r := checkNodeActive g fuel nodeId v
             if r.1 then (true, r.2) else checkLinksToNode g fuel rest r.2
         | none => checkLinksToNode g fuel rest v
       | some _ => checkLinksToNode g fuel rest v
       | none => checkLinksToNode g fuel rest v) := by
  rw [checkLinksToNode]

theorem insert_link_fields (g : PWGraph) (id : Nat) (ld : LinkData) :
    (g.insert id (.link ld)).objects = alInsert g.objects id (.link ld) ∧
    (g.insert id (.link ld)).sinks = g.sinks ∧
    (g.insert id (.link ld)).nodeInputPorts = g.nodeInputPorts ∧
    (g.insert id (.link ld)).nodeOutputPorts = g.nodeOutputPorts ∧
    (g.insert id (.link ld)).nodeBlacklist = g.nodeBlacklist ∧
    (g.insert id (.link ld)).sinkWhitelist = g.sinkWhitelist ∧
    (g.insert id (.link ld)).linksToPort =
      (match ld.inputPort with
       | some p => alAdjustSet g.linksToPort p (fun s => idSetInsert s id)
       | none => g.linksToPort) := by
  obtain ⟨ip, op, act⟩ := ld
  cases ip <;> cases op <;> simp [PWGraph.insert]

theorem collectLinkStep_insert_link (g : PWGraph) (l0 : Nat) (ld : LinkData)
    (hfresh : alLookup g.objects l0 = none) (hact : ld.active = some false)
    (acc : List (Nat × Nat)) (link : Nat) :
    collectLinkStep (g.insert l0 (.link ld)) acc link = collectLinkStep g acc link := by
  unfold collectLinkStep
  rw [(insert_link_fields g l0 ld).1, alInsert_lookup]
  by_cases h : l0 = link
  · subst h
    rw [if_pos rfl, hfresh]
    simp only [hact]
  · rw [if_neg h]

theorem collectFold_insert_link (g : PWGraph) (l0 : Nat) (ld : LinkData)
    (hfresh : alLookup g.objects l0 = none) (hact : ld.active = some false)
    (links : List Nat) (acc : List (Nat × Nat)) :
    links.foldl (collectLinkStep (g.insert l0 (.link ld))) acc
      = links.foldl (collectLinkStep g) acc := by
  exact List.foldl_ext _ _ acc fun a b _ => collectLinkStep_insert_link g l0 ld hfresh hact a b

theorem collectPortStep_insert_link (g : PWGraph) (l0 : Nat) (ld : LinkData)
    (hfresh : alLookup g.objects l0 = none) (hact : ld.active = some false)
    (acc : List (Nat × Nat)) (port : Nat) :
    collectPortStep (g.insert l0 (.link ld)) acc port = collectPortStep g acc port := by
  unfold collectPortStep
  rw [(insert_link_fields g l0 ld).1, alInsert_lookup,
    (insert_link_fields g l0 ld).2.2.2.2.2.2]
  by_cases h : l0 = port
  · subst h
    rw [if_pos rfl, hfresh]
  · rw [if_neg h]
    cases hobj : alLookup g.objects port with
    | none => rfl
    | some obj =>
      cases obj with
      | node d => rfl
      | link d => rfl
      | port d =>
        cases hip : ld.inputPort with
        | none =>
          cases hgl : alLookup g.linksToPort port with
          | none => rfl
          | some links => exact collectFold_insert_link g l0 ld hfresh hact links acc
        | some p =>
          show (match alLookup (alAdjustSet g.linksToPort p fun s => idSetInsert s l0) port with
                | none => acc
                | some links =>
                  List.foldl (collectLinkStep (g.insert l0 (.link ld))) acc links) = _
          rw [alAdjustSet_lookup]
          by_cases hp : p = port
          · subst hp
            rw [if_pos rfl]
            cases hgl : alLookup g.linksToPort p with
            | none =>
              show List.foldl _ acc (idSetInsert [] l0) = acc
              have h1 : idSetInsert [] l0 = [l0] := rfl
              rw [h1]
              show collectLinkStep (g.insert l0 (.link ld)) acc l0 = acc
              unfold collectLinkStep
              rw [(insert_link_fields g l0 ld).1, alInsert_lookup, if_pos rfl]
              simp only [hact]
            | some links =>
              show List.foldl _ acc (idSetInsert links l0) = List.foldl _ acc links
              unfold idSetInsert
              by_cases hmem : links.contains l0
              · rw [if_pos hmem]
                exact collectFold_insert_link g l0 ld hfresh hact links acc
              · rw [if_neg hmem, List.foldl_append,
                  collectFold_insert_link g l0 ld hfresh hact links acc]
                show collectLinkStep (g.insert l0 (.link ld)) _ l0 = _
                unfold collectLinkStep
                rw [(insert_link_fields g l0 ld).1, alInsert_lookup, if_pos rfl]
                simp only [hact]
          · rw [if_neg hp]
            cases hgl : alLookup g.linksToPort port with
            | none => rfl
            | some links => exact collectFold_insert_link g l0 ld hfresh hact links acc

theorem collectLinksToNode_insert_link (g : PWGraph) (l0 : Nat) (ld : LinkData)
    (hfresh : alLookup g.objects l0 = none) (hact : ld.active = some false)
    (ports : List Nat) :
    collectLinksToNode (g.insert l0 (.link ld)) ports = collectLinksToNode g ports := by
  unfold collectLinksToNode
  exact List.foldl_ext _ _ [] fun a b _ => collectPortStep_insert_link g l0 ld hfresh hact a b

theorem alInsert_of_fresh {α : Type} (m : List (Nat × α)) (k : Nat) (v : α)
    (h : alLookup m k = none) : alInsert m k v = m ++ [(k, v)] := by
  induction m with
  | nil => rfl
  | cons p rest ih =>
    obtain ⟨k1, v1⟩ := p
    by_cases hk : k1 = k
    · subst hk
      rw [alLookup, if_pos rfl] at h
      exact absurd h (by simp)
    · rw [alLookup, if_neg hk] at h
      simp only [alInsert, if_neg hk, List.cons_append, List.cons.injEq, true_and]
      exact ih h

theorem portNodeIds_insert_link (g : PWGraph) (l0 : Nat) (ld : LinkData)
    (hfresh : alLookup g.objects l0 = none) :
    portNodeIds (g.insert l0 (.link ld)) = portNodeIds g := by
  unfold portNodeIds
  rw [(insert_link_fields g l0 ld).1, alInsert_of_fresh _ _ _ hfresh, List.foldr_append]
  exact rfl

theorem checkLinksToNode_cons_none (g : PWGraph) (fuel l op : Nat)
    (rest : List (Nat × Nat)) (v : List Nat)
    (hop : alLookup g.objects op = none) :
    checkLinksToNode g fuel ((l, op) :: rest) v = checkLinksToNode g fuel rest v := by
  rw [checkLinksToNode_cons, hop]

theorem checkLinksToNode_cons_node (g : PWGraph) (fuel l op : Nat)
    (rest : List (Nat × Nat)) (v : List Nat) (d : NodeData)
    (hop : alLookup g.objects op = some (.node d)) :
    checkLinksToNode g fuel ((l, op) :: rest) v = checkLinksToNode g fuel rest v := by
  rw [checkLinksToNode_cons, hop]

theorem checkLinksToNode_cons_link (g : PWGraph) (fuel l op : Nat)
    (rest : List (Nat × Nat)) (v : List Nat) (d : LinkData)
    (hop : alLookup g.objects op = some (.link d)) :
    checkLinksToNode g fuel ((l, op) :: rest) v = checkLinksToNode g fuel rest v := by
  rw [checkLinksToNode_cons, hop]

theorem checkLinksToNode_cons_port (g : PWGraph) (fuel l op : Nat)
    (rest : List (Nat × Nat)) (v : List Nat) (d : PortData)
    (hop : alLookup g.objects op = some (.port d)) :
    checkLinksToNode g fuel ((l, op) :: rest) v =
      (match d.nodeId with
       | some nodeId =>
         if v.contains nodeId = true then checkLinksToNode g fuel rest v
         else
           if (checkNodeActive g fuel nodeId v).1 = true then
             (true, (checkNodeActive g fuel nodeId v).2)
           else checkLinksToNode g fuel rest (checkNodeActive g fuel nodeId v).2
       | none => checkLinksToNode g fuel rest v) := by
  rw [checkLinksToNode_cons, hop]

theorem checkLinksToNode_cons_port_none (g : PWGraph) (fuel l op : Nat)
    (rest : List (Nat × Nat)) (v : List Nat) (d : PortData)
    (hop : alLookup g.objects op = some (.port d)) (hnid : d.nodeId = none) :
    checkLinksToNode g fuel ((l, op) :: rest) v = checkLinksToNode g fuel rest v := by
  rw [checkLinksToNode_cons_port g fuel l op rest v d hop, hnid]

theorem checkLinksToNode_cons_port_some (g : PWGraph) (fuel l op : Nat)
    (rest : List (Nat × Nat)) (v : List Nat) (d : PortData) (u : Nat)
    (hop : alLookup g.objects op = some (.port d)) (hnid : d.nodeId = some u) :
    checkLinksToNode g fuel ((l, op) :: rest) v =
      (if v.contains u = true then checkLinksToNode g fuel rest v
       else
         if (checkNodeActive g fuel u v).1 = true then
           (true, (checkNodeActive g fuel u v).2)
         else checkLinksToNode g fuel rest (checkNodeActive g fuel u v).2) := by
  rw [checkLinksToNode_cons_port g fuel l op rest v d hop, hnid]

theorem checkLinksToNode_insert_link (g : PWGraph) (l0 : Nat) (ld : LinkData)
    (hfresh : alLookup g.objects l0 = none) (hact : ld.active = some false)
    (fuel : Nat)
    (hnode : ∀ id v, checkNodeActive (g.insert l0 (.link ld)) fuel id v
      = checkNodeActive g fuel id v) :
    ∀ (prs : List (Nat × Nat)) (v : List Nat),
      checkLinksToNode (g.insert l0 (.link ld)) fuel prs v
        = checkLinksToNode g fuel prs v := by
  intro prs
  induction prs with
  | nil => intro v; rw [checkLinksToNode_nil, checkLinksToNode_nil]
  | cons pr rest ih =>
    intro v
    obtain ⟨l, op⟩ := pr
    by_cases h : l0 = op
    · subst h
      have hop1 : alLookup (g.insert l0 (.link ld)).objects l0 = some (.link ld) := by
        rw [(insert_link_fields g l0 ld).1, alInsert_lookup, if_pos rfl]
      rw [checkLinksToNode_cons_link _ fuel l l0 rest v ld hop1,
        checkLinksToNode_cons_none g fuel l l0 rest v hfresh]
      exact ih v
    · have heq : alLookup (g.insert l0 (.link ld)).objects op = alLookup g.objects op := by
        rw [(insert_link_fields g l0 ld).1, alInsert_lookup, if_neg h]
      cases hop : alLookup g.objects op with
      | none =>
        rw [checkLinksToNode_cons_none _ fuel l op rest v (heq.trans hop),
          checkLinksToNode_cons_none g fuel l op rest v hop]
        exact ih v
      | some obj =>
        cases obj with
        | node d =>
          rw [checkLinksToNode_cons_node _ fuel l op rest v d (heq.trans hop),
            checkLinksToNode_cons_node g fuel l op rest v d hop]
          exact ih v
        | link d =>
          rw [checkLinksToNode_cons_link _ fuel l op rest v d (heq.trans hop),
            checkLinksToNode_cons_link g fuel l op rest v d hop]
          exact ih v
        | port d =>
          cases hnid : d.nodeId with
          | none =>
            rw [checkLinksToNode_cons_port_none _ fuel l op rest v d (heq.trans hop) hnid,
              checkLinksToNode_cons_port_none g fuel l op rest v d hop hnid]
            exact ih v
          | some u =>
            rw [checkLinksToNode_cons_port_some _ fuel l op rest v d u (heq.trans hop) hnid,
              checkLinksToNode_cons_port_some g fuel l op rest v d u hop hnid]
            by_cases hv : v.contains u = true
            · rw [if_pos hv, if_pos hv]
              exact ih v
            · rw [if_neg hv, if_neg hv, hnode]
              by_cases hr : (checkNodeActive g fuel u v).1 = true
              · rw [if_pos hr, if_pos hr]
              · rw [if_neg hr, if_neg hr]
                exact ih _

theorem checkNodeActive_succ_none (g : PWGraph) (fuel id : Nat) (v : List Nat)
    (hobj : alLookup g.objects id = none) :
    checkNodeActive g (fuel + 1) id v = (false, idSetInsert v id) := by
  rw [checkNodeActive_succ, hobj]

theorem checkNodeActive_succ_port (g : PWGraph) (fuel id : Nat) (v : List Nat)
    (d : PortData) (hobj : alLookup g.objects id = some (.port d)) :
    checkNodeActive g (fuel + 1) id v = (false, idSetInsert v id) := by
  rw [checkNodeActive_succ, hobj]

theorem checkNodeActive_succ_link (g : PWGraph) (fuel id : Nat) (v : List Nat)
    (d : LinkData) (hobj : alLookup g.objects id = some (.link d)) :
    checkNodeActive g (fuel + 1) id v = (false, idSetInsert v id) := by
  rw [checkNodeActive_succ, hobj]

theorem checkNodeActive_succ_node (g : PWGraph) (fuel id : Nat) (v : List Nat)
    (d : NodeData) (hobj : alLookup g.objects id = some (.node d)) :
    checkNodeActive g (fuel + 1) id v =
      (if NodeFilter.matches_any g.nodeBlacklist d = true then (false, idSetInsert v id)
       else
         match alLookup g.nodeInputPorts id with
         | none => (true, idSetInsert v id)
         | some ports =>
           if ports.isEmpty = true then (true, idSetInsert v id)
           else
             if (collectLinksToNode g ports).isEmpty = true then (false, idSetInsert v id)
             else checkLinksToNode g fuel (collectLinksToNode g ports) (idSetInsert v id)) := by
  rw [checkNodeActive_succ, hobj]

theorem checkNodeActive_insert_link (g : PWGraph) (l0 : Nat) (ld : LinkData)
    (hfresh : alLookup g.objects l0 = none) (hact : ld.active = some false) :
    ∀ (fuel id : Nat) (v : List Nat),
      checkNodeActive (g.insert l0 (.link ld)) fuel id v = checkNodeActive g fuel id v := by
  intro fuel
  induction fuel with
  | zero => intro id v; rw [checkNodeActive_zero, checkNodeActive_zero]
  | succ fuel ih =>
    intro id v
    by_cases h : l0 = id
    · subst h
      have hobj1 : alLookup (g.insert l0 (.link ld)).objects l0 = some (.link ld) := by
        rw [(insert_link_fields g l0 ld).1, alInsert_lookup, if_pos rfl]
      rw [checkNodeActive_succ_link _ fuel l0 v ld hobj1,
        checkNodeActive_succ_none g fuel l0 v hfresh]
    · have heq : alLookup (g.insert l0 (.link ld)).objects id = alLookup g.objects id := by
        rw [(insert_link_fields g l0 ld).1, alInsert_lookup, if_neg h]
      cases hobj : alLookup g.objects id with
      | none =>
        rw [checkNodeActive_succ_none _ fuel id v (heq.trans hobj),
          checkNodeActive_succ_none g fuel id v hobj]
      | some obj =>
        cases obj with
        | port d =>
          rw [checkNodeActive_succ_port _ fuel id v d (heq.trans hobj),
            checkNodeActive_succ_port g fuel id v d hobj]
        | link d =>
          rw [checkNodeActive_succ_link _ fuel id v d (heq.trans hobj),
            checkNodeActive_succ_link g fuel id v d hobj]
        | node d =>
          rw [checkNodeActive_succ_node _ fuel id v d (heq.trans hobj),
            checkNodeActive_succ_node g fuel id v d hobj,
            (insert_link_fields g l0 ld).2.2.2.2.1,
            (insert_link_fields g l0 ld).2.2.1]
          by_cases hb : NodeFilter.matches_any g.nodeBlacklist d = true
          · rw [if_pos hb, if_pos hb]
          · rw [if_neg hb, if_neg hb]
            cases hports : alLookup g.nodeInputPorts id with
            | none => rfl
            | some ports =>
              have hcol : collectLinksToNode (g.insert l0 (.link ld)) ports
                  = collectLinksToNode g ports :=
                collectLinksToNode_insert_link g l0 ld hfresh hact ports
              have key :
                  (if ports.isEmpty = true then (true, idSetInsert v id)
                   else
                     if (collectLinksToNode (g.insert l0 (.link ld)) ports).isEmpty = true then
                       (false, idSetInsert v id)
                     else
                       checkLinksToNode (g.insert l0 (.link ld)) fuel
                         (collectLinksToNode (g.insert l0 (.link ld)) ports)
                         (idSetInsert v id))
                  = (if ports.isEmpty = true then (true, idSetInsert v id)
                     else
                       if (collectLinksToNode g ports).isEmpty = true then
                         (false, idSetInsert v id)
                       else
                         checkLinksToNode g fuel (collectLinksToNode g ports)
                           (idSetInsert v id)) := by
                rw [hcol]
                by_cases hpe : ports.isEmpty = true
                · rw [if_pos hpe, if_pos hpe]
                · rw [if_neg hpe, if_neg hpe]
                  by_cases hce : (collectLinksToNode g ports).isEmpty = true
                  · rw [if_pos hce, if_pos hce]
                  · rw [if_neg hce, if_neg hce]
                    exact checkLinksToNode_insert_link g l0 ld hfresh hact fuel ih
                      (collectLinksToNode g ports) (idSetInsert v id)
              exact key

/-- Claim C10: the registry handler for a newly announced link always
stores `active = Some(false)` regardless of the announce properties, and
inserting such a link at a fresh id never changes the set of active sinks —
in particular it can never by itself turn an inactive sink active. -/
theorem c10_new_link_inactive (g : PWGraph) (id : Nat) (inp outp : Option Nat)
    (hfresh : alLookup g.objects id = none) :
    (registryGlobalLinkData inp outp).active = some false ∧
    getActiveSinks (g.insert id (.link (registryGlobalLinkData inp outp)))
      = getActiveSinks g := by
  refine ⟨rfl, ?_⟩
  have hfuel : traversalFuel (g.insert id (.link (registryGlobalLinkData inp outp)))
      = traversalFuel g := by
    unfold traversalFuel
    rw [portNodeIds_insert_link g id _ hfresh]
  unfold getActiveSinks
  rw [hfuel, (insert_link_fields g id (registryGlobalLinkData inp outp)).2.1]
  exact List.filter_congr fun s _ => by
    rw [checkNodeActive_insert_link g id _ hfresh rfl]

/-- Witness for claim C10: a fresh link announced into the spec's scenario-1
graph with an inactive stored state leaves the active-sink set unchanged. -/
theorem c10_new_link_inactive_witness :
    (registryGlobalLinkData (some 2) (some 20)).active = some false ∧
    getActiveSinks (c1Graph.insert 99 (.link (registryGlobalLinkData (some 2) (some 20))))
      = getActiveSinks c1Graph :=
  c10_new_link_inactive c1Graph 99 (some 2) (some 20) rfl

theorem checkNodeActive_succ_node_blacklisted (g : PWGraph) (fuel id : Nat)
    (v : List Nat) (d : NodeData) (hobj : alLookup g.objects id = some (.node d))
    (hb : NodeFilter.matches_any g.nodeBlacklist d = true) :
    checkNodeActive g (fuel + 1) id v = (false, idSetInsert v id) := by
  rw [checkNodeActive_succ_node g fuel id v d hobj, hb, if_pos rfl]

theorem checkNodeActive_succ_node_noports (g : PWGraph) (fuel id : Nat)
    (v : List Nat) (d : NodeData) (hobj : alLookup g.objects id = some (.node d))
    (hb : NodeFilter.matches_any g.nodeBlacklist d = false)
    (hports : alLookup g.nodeInputPorts id = none) :
    checkNodeActive g (fuel + 1) id v = (true, idSetInsert v id) := by
  rw [checkNodeActive_succ_node g fuel id v d hobj, hb, hports,
    if_neg Bool.false_ne_true]

theorem checkNodeActive_succ_node_ports (g : PWGraph) (fuel id : Nat)
    (v : List Nat) (d : NodeData) (ports : List Nat)
    (hobj : alLookup g.objects id = some (.node d))
    (hb : NodeFilter.matches_any g.nodeBlacklist d = false)
    (hports : alLookup g.nodeInputPorts id = some ports) :
    checkNodeActive g (fuel + 1) id v =
      (if ports.isEmpty = true then (true, idSetInsert v id)
       else
         if (collectLinksToNode g ports).isEmpty = true then (false, idSetInsert v id)
         else checkLinksToNode g fuel (collectLinksToNode g ports) (idSetInsert v id)) := by
  rw [checkNodeActive_succ_node g fuel id v d hobj, hb, hports,
    if_neg Bool.false_ne_true]

theorem checkLinksToNode_visited_mono (g : PWGraph) (fuel : Nat)
    (hn : ∀ id v, v ⊆ (checkNodeActive g fuel id v).2) :
    ∀ (prs : List (Nat × Nat)) (v : List Nat), v ⊆ (checkLinksToNode g fuel prs v).2 := by
  intro prs
  induction prs with
  | nil => intro v; rw [checkLinksToNode_nil]; exact fun a ha => ha
  | cons pr rest ih =>
    intro v
    obtain ⟨l, op⟩ := pr
    cases hop : alLookup g.objects op with
    | none => rw [checkLinksToNode_cons_none g fuel l op rest v hop]; exact ih v
    | some obj =>
      cases obj with
      | node d => rw [checkLinksToNode_cons_node g fuel l op rest v d hop]; exact ih v
      | link d => rw [checkLinksToNode_cons_link g fuel l op rest v d hop]; exact ih v
      | port d =>
        cases hnid : d.nodeId with
        | none =>
          rw [checkLinksToNode_cons_port_none g fuel l op rest v d hop hnid]
          exact ih v
        | some u =>
          rw [checkLinksToNode_cons_port_some g fuel l op rest v d u hop hnid]
          by_cases hv : v.contains u = true
          · rw [if_pos hv]; exact ih v
          · rw [if_neg hv]
            by_cases hr : (checkNodeActive g fuel u v).1 = true
            · rw [if_pos hr]; exact hn u v
            · rw [if_neg hr]
              exact fun a ha => ih _ (hn u v ha)

theorem checkNodeActive_visited_mono (g : PWGraph) :
    ∀ (fuel id : Nat) (v : List Nat), v ⊆ (checkNodeActive g fuel id v).2 := by
  intro fuel
  induction fuel with
  | zero => intro id v; rw [checkNodeActive_zero]; exact fun a ha => ha
  | succ fuel ih =>
    intro id v
    cases hobj : alLookup g.objects id with
    | none => rw [checkNodeActive_succ_none g fuel id v hobj]; exact subset_idSetInsert v id
    | some obj =>
      cases obj with
      | port d =>
        rw [checkNodeActive_succ_port g fuel id v d hobj]; exact subset_idSetInsert v id
      | link d =>
        rw [checkNodeActive_succ_link g fuel id v d hobj]; exact subset_idSetInsert v id
      | node d =>
        by_cases hb : NodeFilter.matches_any g.nodeBlacklist d = true
        · rw [checkNodeActive_succ_node_blacklisted g fuel id v d hobj hb]
          exact subset_idSetInsert v id
        · have hb2 : NodeFilter.matches_any g.nodeBlacklist d = false :=
            Bool.not_eq_true _ ▸ hb
          cases hports : alLookup g.nodeInputPorts id with
          | none =>
            rw [checkNodeActive_succ_node_noports g fuel id v d hobj hb2 hports]
            exact subset_idSetInsert v id
          | some ports =>
            rw [checkNodeActive_succ_node_ports g fuel id v d ports hobj hb2 hports]
            by_cases hpe : ports.isEmpty = true
            · rw [if_pos hpe]; exact subset_idSetInsert v id
            · rw [if_neg hpe]
              by_cases hce : (collectLinksToNode g ports).isEmpty = true
              · rw [if_pos hce]; exact subset_idSetInsert v id
              · rw [if_neg hce]
                exact fun a ha =>
                  checkLinksToNode_visited_mono g fuel ih _ _ (subset_idSetInsert v id ha)

theorem filter_length_mono {α : Type} (l : List α) (p q : α → Bool)
    (h : ∀ a, p a = true → q a = true) :
    (l.filter p).length ≤ (l.filter q).length := by
  induction l with
  | nil => simp
  | cons a rest ih =>
    rw [List.filter_cons, List.filter_cons]
    by_cases hp : p a = true
    · rw [if_pos hp, if_pos (h a hp)]
      simpa using ih
    · rw [if_neg hp]
      by_cases hq : q a = true
      · rw [if_pos hq]
        exact le_trans ih (Nat.le_succ _)
      · rw [if_neg hq]
        exact ih

theorem filter_length_strict {α : Type} (l : List α) (p q : α → Bool) (u : α)
    (hu : u ∈ l) (hpu : p u = true) (hqu : q u = false)
    (h : ∀ a, q a = true → p a = true) :
    (l.filter q).length < (l.filter p).length := by
  induction l with
  | nil => cases hu
  | cons a rest ih =>
    rw [List.filter_cons, List.filter_cons]
    rcases List.mem_cons.mp hu with rfl | hmem
    · rw [if_pos hpu, if_neg (by simp [hqu])]
      exact Nat.lt_succ_of_le (filter_length_mono rest q p h)
    · by_cases hqa : q a = true
      · rw [if_pos hqa, if_pos (h a hqa)]
        simpa using ih hmem
      · rw [if_neg hqa]
        by_cases hpa : p a = true
        · rw [if_pos hpa]
          exact lt_of_lt_of_le (ih hmem) (Nat.le_succ _)
        · rw [if_neg hpa]
          exact ih hmem

theorem remCount_mono (g : PWGraph) {v w : List Nat} (h : v ⊆ w) :
    remCount g w ≤ remCount g v := by
  refine filter_length_mono _ _ _ fun a ha => ?_
  rw [Bool.not_eq_true'] at ha ⊢
  cases hv : v.contains a with
  | false => rfl
  | true =>
    rw [contains_true_iff_mem.mpr (h (contains_true_iff_mem.mp hv))] at ha
    cases ha

theorem remCount_insert_lt (g : PWGraph) (v : List Nat) (u : Nat)
    (hu : u ∈ portNodeIds g) (hv : v.contains u = false) :
    remCount g (idSetInsert v u) < remCount g v := by
  refine filter_length_strict _ _ _ u hu (by rw [Bool.not_eq_true']; exact hv) ?_
    fun a ha => ?_
  · show (!(idSetInsert v u).contains u) = false
    rw [contains_true_iff_mem.mpr (mem_idSetInsert_self v u)]
    rfl
  · rw [Bool.not_eq_true'] at ha ⊢
    cases hva : v.contains a with
    | false => rfl
    | true =>
      rw [contains_true_iff_mem.mpr
        (subset_idSetInsert v u (contains_true_iff_mem.mp hva))] at ha
      cases ha

theorem alLookup_mem {α : Type} (m : List (Nat × α)) (k : Nat) (v : α)
    (h : alLookup m k = some v) : (k, v) ∈ m := by
  induction m with
  | nil => cases h
  | cons p rest ih =>
    obtain ⟨k1, v1⟩ := p
    rw [alLookup] at h
    by_cases hk : k1 = k
    · rw [if_pos hk] at h
      obtain rfl := Option.some_inj.mp h
      exact hk ▸ List.mem_cons_self _ _
    · rw [if_neg hk] at h
      exact List.mem_cons_of_mem _ (ih h)

theorem mem_portNodeIds (g : PWGraph) (k u : Nat) (d : PortData)
    (hmem : (k, PWObject.port d) ∈ g.objects) (hnid : d.nodeId = some u) :
    u ∈ portNodeIds g := by
  unfold portNodeIds
  revert hmem
  generalize g.objects = l
  intro hmem
  induction l with
  | nil => cases hmem
  | cons p rest ih =>
    rcases List.mem_cons.mp hmem with heq | hmem2
    · rw [← heq, List.foldr_cons]
      simp [hnid]
    · obtain ⟨k1, o⟩ := p
      rw [List.foldr_cons]
      cases o with
      | node d1 => exact ih hmem2
      | link d1 => exact ih hmem2
      | port d1 =>
        exact List.mem_append_right _ (ih hmem2)

theorem checkLinksToNode_step_stable (g : PWGraph) (fuel : Nat)
    (hSN : ∀ id v, remCount g (idSetInsert v id) < fuel →
      checkNodeActive g (fuel + 1) id v = checkNodeActive g fuel id v) :
    ∀ (prs : List (Nat × Nat)) (v : List Nat), remCount g v ≤ fuel →
      checkLinksToNode g (fuel + 1) prs v = checkLinksToNode g fuel prs v := by
  intro prs
  induction prs with
  | nil => intro v _; rw [checkLinksToNode_nil, checkLinksToNode_nil]
  | cons pr rest ih =>
    intro v hv
    obtain ⟨l, op⟩ := pr
    cases hop : alLookup g.objects op with
    | none =>
      rw [checkLinksToNode_cons_none g (fuel + 1) l op rest v hop,
        checkLinksToNode_cons_none g fuel l op rest v hop]
      exact ih v hv
    | some obj =>
      cases obj with
      | node d =>
        rw [checkLinksToNode_cons_node g (fuel + 1) l op rest v d hop,
          checkLinksToNode_cons_node g fuel l op rest v d hop]
        exact ih v hv
      | link d =>
        rw [checkLinksToNode_cons_link g (fuel + 1) l op rest v d hop,
          checkLinksToNode_cons_link g fuel l op rest v d hop]
        exact ih v hv
      | port d =>
        cases hnid : d.nodeId with
        | none =>
          rw [checkLinksToNode_cons_port_none g (fuel + 1) l op rest v d hop hnid,
            checkLinksToNode_cons_port_none g fuel l op rest v d hop hnid]
          exact ih v hv
        | some u =>
          rw [checkLinksToNode_cons_port_some g (fuel + 1) l op rest v d u hop hnid,
            checkLinksToNode_cons_port_some g fuel l op rest v d u hop hnid]
          by_cases hcv : v.contains u = true
          · rw [if_pos hcv, if_pos hcv]
            exact ih v hv
          · have hcf : v.contains u = false := by simpa using hcv
            have humem : u ∈ portNodeIds g :=
              mem_portNodeIds g op u d (alLookup_mem _ _ _ hop) hnid
            have hlt : remCount g (idSetInsert v u) < remCount g v :=
              remCount_insert_lt g v u humem hcf
            have hnode_eq : checkNodeActive g (fuel + 1) u v = checkNodeActive g fuel u v :=
              hSN u v (lt_of_lt_of_le hlt hv)
            rw [if_neg hcv, if_neg hcv, hnode_eq]
            by_cases hr : (checkNodeActive g fuel u v).1 = true
            · rw [if_pos hr, if_pos hr]
            · rw [if_neg hr, if_neg hr]
              exact ih _ (le_trans
                (remCount_mono g (checkNodeActive_visited_mono g fuel u v)) hv)

theorem checkNodeActive_step_stable (g : PWGraph) :
    ∀ (fuel id : Nat) (v : List Nat), remCount g (idSetInsert v id) < fuel →
      checkNodeActive g (fuel + 1) id v = checkNodeActive g fuel id v := by
  intro fuel
  induction fuel with
  | zero => intro id v h; exact absurd h (Nat.not_lt_zero _)
  | succ fuel ih =>
    intro id v h
    cases hobj : alLookup g.objects id with
    | none =>
      rw [checkNodeActive_succ_none g (fuel + 1) id v hobj,
        checkNodeActive_succ_none g fuel id v hobj]
    | some obj =>
      cases obj with
      | port d =>
        rw [checkNodeActive_succ_port g (fuel + 1) id v d hobj,
          checkNodeActive_succ_port g fuel id v d hobj]
      | link d =>
        rw [checkNodeActive_succ_link g (fuel + 1) id v d hobj,
          checkNodeActive_succ_link g fuel id v d hobj]
      | node d =>
        by_cases hb : NodeFilter.matches_any g.nodeBlacklist d = true
        · rw [checkNodeActive_succ_node_blacklisted g (fuel + 1) id v d hobj hb,
            checkNodeActive_succ_node_blacklisted g fuel id v d hobj hb]
        · have hb2 : NodeFilter.matches_any g.nodeBlacklist d = false := by simpa using hb
          cases hports : alLookup g.nodeInputPorts id with
          | none =>
            rw [checkNodeActive_succ_node_noports g (fuel + 1) id v d hobj hb2 hports,
              checkNodeActive_succ_node_noports g fuel id v d hobj hb2 hports]
          | some ports =>
            rw [checkNodeActive_succ_node_ports g (fuel + 1) id v d ports hobj hb2 hports,
              checkNodeActive_succ_node_ports g fuel id v d ports hobj hb2 hports]
            by_cases hpe : ports.isEmpty = true
            · rw [if_pos hpe, if_pos hpe]
            · rw [if_neg hpe, if_neg hpe]
              by_cases hce : (collectLinksToNode g ports).isEmpty = true
              · rw [if_pos hce, if_pos hce]
              · rw [if_neg hce, if_neg hce]
                exact checkLinksToNode_step_stable g fuel ih _ _ (Nat.lt_succ_iff.mp h)

theorem checkNodeActive_fuel_stable (g : PWGraph) (fuel : Nat)
    (h : traversalFuel g ≤ fuel) (id : Nat) (v : List Nat) :
    checkNodeActive g fuel id v = checkNodeActive g (traversalFuel g) id v := by
  induction fuel, h using Nat.le_induction with
  | base => rfl
  | succ fuel hge ih =>
    rw [← ih]
    refine checkNodeActive_step_stable g fuel id v ?_
    calc remCount g (idSetInsert v id) ≤ (portNodeIds g).length :=
        List.length_filter_le _ _
      _ < traversalFuel g := Nat.lt_succ_self _
      _ ≤ fuel := hge

/-- Claim C9: the active-sink traversal terminates on every finite graph,
cyclic link structures included — the fuelled embedding of
`check_node_active` stabilises once the fuel reaches the number of
traversal-candidate node ids plus one (each recursion step inserts the
current node into the visited set and only recurses into unvisited nodes),
so `get_active_sinks` computed at any larger recursion budget is
unchanged. -/
theorem c9_traversal_terminates (g : PWGraph) (fuel : Nat)
    (h : traversalFuel g ≤ fuel) :
    (∀ sink visited,
      checkNodeActive g fuel sink visited
        = checkNodeActive g (traversalFuel g) sink visited) ∧
    getActiveSinks g = g.sinks.filter (fun s => (checkNodeActive g fuel s []).1) := by
  constructor
  · intro sink visited
    exact checkNodeActive_fuel_stable g fuel h sink visited
  · unfold getActiveSinks
    exact (List.filter_congr fun s _ => by
      rw [checkNodeActive_fuel_stable g fuel h s []]).symm

/-- Witness for claim C9 on a concrete cyclic-capable graph with a recursion
budget far above the bound. -/
theorem c9_traversal_terminates_witness :
    traversalFuel c1Graph ≤ 10 ∧
    getActiveSinks c1Graph
      = c1Graph.sinks.filter (fun s => (checkNodeActive c1Graph 10 s []).1) :=
  ⟨by decide, (c9_traversal_terminates c1Graph 10 (by decide)).2⟩

theorem specNodeActive_zero (g : PWGraph) (id : Nat) (v : List Nat) :
    specNodeActive g 0 id v = (false, v) := by
  rw [specNodeActive]

theorem specNodeActive_succ (g : PWGraph) (fuel id : Nat) (v : List Nat) :
    specNodeActive g (fuel + 1) id v =
      (let visited1 := idSetInsert v id
       match alLookup g.objects id with
       | some (.node data) =>
         if NodeFilter.matches_any g.nodeBlacklist data then (false, visited1)
         else
           match alLookup g.nodeInputPorts id with
           | none => (true, visited1)
           | some ports =>
             if ports.isEmpty then (true, visited1)
             else specPortsActive g fuel ports visited1
       | some _ => (false, visited1)
       | none => (false, visited1)) := by
  rw [specNodeActive]

theorem specNodeActive_succ_none (g : PWGraph) (fuel id : Nat) (v : List Nat)
    (hobj : alLookup g.objects id = none) :
    specNodeActive g (fuel + 1) id v = (false, idSetInsert v id) := by
  rw [specNodeActive_succ, hobj]

theorem specNodeActive_succ_port (g : PWGraph) (fuel id : Nat) (v : List Nat)
    (d : PortData) (hobj : alLookup g.objects id = some (.port d)) :
    specNodeActive g (fuel + 1) id v = (false, idSetInsert v id) := by
  rw [specNodeActive_succ, hobj]

theorem specNodeActive_succ_link (g : PWGraph) (fuel id : Nat) (v : List Nat)
    (d : LinkData) (hobj : alLookup g.objects id = some (.link d)) :
    specNodeActive g (fuel + 1) id v = (false, idSetInsert v id) := by
  rw [specNodeActive_succ, hobj]

theorem specNodeActive_succ_node (g : PWGraph) (fuel id : Nat) (v : List Nat)
    (d : NodeData) (hobj : alLookup g.objects id = some (.node d)) :
    specNodeActive g (fuel + 1) id v =
      (if NodeFilter.matches_any g.nodeBlacklist d = true then (false, idSetInsert v id)
       else
         match alLookup g.nodeInputPorts id with
         | none => (true, idSetInsert v id)
         | some ports =>
           if ports.isEmpty = true then (true, idSetInsert v id)
           else specPortsActive g fuel ports (idSetInsert v id)) := by
  rw [specNodeActive_succ, hobj]

theorem specNodeActive_succ_node_blacklisted (g : PWGraph) (fuel id : Nat)
    (v : List Nat) (d : NodeData) (hobj : alLookup g.objects id = some (.node d))
    (hb : NodeFilter.matches_any g.nodeBlacklist d = true) :
    specNodeActive g (fuel + 1) id v = (false, idSetInsert v id) := by
  rw [specNodeActive_succ_node g fuel id v d hobj, hb, if_pos rfl]

theorem specNodeActive_succ_node_noports (g : PWGraph) (fuel id : Nat)
    (v : List Nat) (d : NodeData) (hobj : alLookup g.objects id = some (.node d))
    (hb : NodeFilter.matches_any g.nodeBlacklist d = false)
    (hports : alLookup g.nodeInputPorts id = none) :
    specNodeActive g (fuel + 1) id v = (true, idSetInsert v id) := by
  rw [specNodeActive_succ_node g fuel id v d hobj, hb, hports,
    if_neg Bool.false_ne_true]

theorem specNodeActive_succ_node_ports (g : PWGraph) (fuel id : Nat)
    (v : List Nat) (d : NodeData) (ports : List Nat)
    (hobj : alLookup g.objects id = some (.node d))
    (hb : NodeFilter.matches_any g.nodeBlacklist d = false)
    (hports : alLookup g.nodeInputPorts id = some ports) :
    specNodeActive g (fuel + 1) id v =
      (if ports.isEmpty = true then (true, idSetInsert v id)
       else specPortsActive g fuel ports (idSetInsert v id)) := by
  rw [specNodeActive_succ_node g fuel id v d hobj, hb, hports,
    if_neg Bool.false_ne_true]

theorem specPortsActive_nil (g : PWGraph) (fuel : Nat) (v : List Nat) :
    specPortsActive g fuel [] v = (false, v) := by
  rw [specPortsActive]

theorem specPortsActive_cons (g : PWGraph) (fuel port : Nat) (rest : List Nat)
    (v : List Nat) :
    specPortsActive g fuel (port :: rest) v =
      (match alLookup g.objects port with
       | some (.port _) =>
         match alLookup g.linksToPort port with
         | none => specPortsActive g fuel rest v
         | some links =>
           let r := specLinksActive g fuel links v
           if r.1 then (true, r.2) else specPortsActive g fuel rest r.2
       | some _ => specPortsActive g fuel rest v
       | none => specPortsActive g fuel rest v) := by
  rw [specPortsActive]

theorem specLinksActive_nil (g : PWGraph) (fuel : Nat) (v : List Nat) :
    specLinksActive g fuel [] v = (false, v) := by
  rw [specLinksActive]

theorem specLinksActive_cons (g : PWGraph) (fuel link : Nat) (rest : List Nat)
    (v : List Nat) :
    specLinksActive g fuel (link :: rest) v =
      (match alLookup g.objects link with
       | some (.link d) =>
         match d.active with
         | some true =>
           match d.outputPort with
           | some outputPort =>
             match alLookup g.objects outputPort with
             | some (.port pd) =>
               match pd.nodeId with
               | some nodeId =>
                 if v.contains nodeId then specLinksActive g fuel rest v
                 else
                   let r := specNodeActive g fuel nodeId v
                   if r.1 then (true, r.2) else specLinksActive g fuel rest r.2
               | none => specLinksActive g fuel rest v
             | some _ => specLinksActive g fuel rest v
             | none => specLinksActive g fuel rest v
           | none => specLinksActive g fuel rest v
         | some false => specLinksActive g fuel rest v
         | none => specLinksActive g fuel rest v
       | some _ => specLinksActive g fuel rest v
       | none => specLinksActive g fuel rest v) := by
  rw [specLinksActive]

theorem specPortsActive_cons_none (g : PWGraph) (fuel port : Nat) (rest : List Nat)
    (v : List Nat) (hobj : alLookup g.objects port = none) :
    specPortsActive g fuel (port :: rest) v = specPortsActive g fuel rest v := by
  rw [specPortsActive_cons, hobj]

theorem specPortsActive_cons_node (g : PWGraph) (fuel port : Nat) (rest : List Nat)
    (v : List Nat) (d : NodeData) (hobj : alLookup g.objects port = some (.node d)) :
    specPortsActive g fuel (port :: rest) v = specPortsActive g fuel rest v := by
  rw [specPortsActive_cons, hobj]

theorem specPortsActive_cons_link (g : PWGraph) (fuel port : Nat) (rest : List Nat)
    (v : List Nat) (d : LinkData) (hobj : alLookup g.objects port = some (.link d)) :
    specPortsActive g fuel (port :: rest) v = specPortsActive g fuel rest v := by
  rw [specPortsActive_cons, hobj]

theorem specPortsActive_cons_port (g : PWGraph) (fuel port : Nat) (rest : List Nat)
    (v : List Nat) (d : PortData) (hobj : alLookup g.objects port = some (.port d)) :
    specPortsActive g fuel (port :: rest) v =
      (match alLookup g.linksToPort port with
       | none => specPortsActive g fuel rest v
       | some links =>
         if (specLinksActive g fuel links v).1 = true then
           (true, (specLinksActive g fuel links v).2)
         else specPortsActive g fuel rest (specLinksActive g fuel links v).2) := by
  rw [specPortsActive_cons, hobj]

theorem specPortsActive_cons_port_nolinks (g : PWGraph) (fuel port : Nat)
    (rest : List Nat) (v : List Nat) (d : PortData)
    (hobj : alLookup g.objects port = some (.port d))
    (hlp : alLookup g.linksToPort port = none) :
    specPortsActive g fuel (port :: rest) v = specPortsActive g fuel rest v := by
  rw [specPortsActive_cons_port g fuel port rest v d hobj, hlp]

theorem specPortsActive_cons_port_links (g : PWGraph) (fuel port : Nat)
    (rest : List Nat) (v : List Nat) (d : PortData) (links : List Nat)
    (hobj : alLookup g.objects port = some (.port d))
    (hlp : alLookup g.linksToPort port = some links) :
    specPortsActive g fuel (port :: rest) v =
      (if (specLinksActive g fuel links v).1 = true then
        (true, (specLinksActive g fuel links v).2)
       else specPortsActive g fuel rest (specLinksActive g fuel links v).2) := by
  rw [specPortsActive_cons_port g fuel port rest v d hobj, hlp]

theorem specLinksActive_cons_objnone (g : PWGraph) (fuel link : Nat)
    (rest : List Nat) (v : List Nat) (hobj : alLookup g.objects link = none) :
    specLinksActive g fuel (link :: rest) v = specLinksActive g fuel rest v := by
  rw [specLinksActive_cons, hobj]

theorem specLinksActive_cons_objnode (g : PWGraph) (fuel link : Nat)
    (rest : List Nat) (v : List Nat) (d : NodeData)
    (hobj : alLookup g.objects link = some (.node d)) :
    specLinksActive g fuel (link :: rest) v = specLinksActive g fuel rest v := by
  rw [specLinksActive_cons, hobj]

theorem specLinksActive_cons_objport (g : PWGraph) (fuel link : Nat)
    (rest : List Nat) (v : List Nat) (d : PortData)
    (hobj : alLookup g.objects link = some (.port d)) :
    specLinksActive g fuel (link :: rest) v = specLinksActive g fuel rest v := by
  rw [specLinksActive_cons, hobj]

theorem specLinksActive_cons_objlink (g : PWGraph) (fuel link : Nat)
    (rest : List Nat) (v : List Nat) (d : LinkData)
    (hobj : alLookup g.objects link = some (.link d)) :
    specLinksActive g fuel (link :: rest) v =
      (match d.active with
       | some true =>
         match d.outputPort with
         | some outputPort =>
           match alLookup g.objects outputPort with
           | some (.port pd) =>
             match pd.nodeId with
             | some nodeId =>
               if v.contains nodeId then specLinksActive g fuel rest v
               else
                 let r := specNodeActive g fuel nodeId v
                 if r.1 then (true, r.2) else specLinksActive g fuel rest r.2
             | none => specLinksActive g fuel rest v
           | some _ => specLinksActive g fuel rest v
           | none => specLinksActive g fuel rest v
         | none => specLinksActive g fuel rest v
       | some false => specLinksActive g fuel rest v
       | none => specLinksActive g fuel rest v) := by
  rw [specLinksActive_cons, hobj]

theorem specLinksActive_cons_noactive (g : PWGraph) (fuel link : Nat)
    (rest : List Nat) (v : List Nat) (d : LinkData)
    (hobj : alLookup g.objects link = some (.link d)) (hact : d.active = none) :
    specLinksActive g fuel (link :: rest) v = specLinksActive g fuel rest v := by
  rw [specLinksActive_cons_objlink g fuel link rest v d hobj, hact]

theorem specLinksActive_cons_inactive (g : PWGraph) (fuel link : Nat)
    (rest : List Nat) (v : List Nat) (d : LinkData)
    (hobj : alLookup g.objects link = some (.link d)) (hact : d.active = some false) :
    specLinksActive g fuel (link :: rest) v = specLinksActive g fuel rest v := by
  rw [specLinksActive_cons_objlink g fuel link rest v d hobj, hact]

theorem specLinksActive_cons_active (g : PWGraph) (fuel link : Nat)
    (rest : List Nat) (v : List Nat) (d : LinkData)
    (hobj : alLookup g.objects link = some (.link d)) (hact : d.active = some true) :
    specLinksActive g fuel (link :: rest) v =
      (match d.outputPort with
       | some outputPort =>
         match alLookup g.objects outputPort with
         | some (.port pd) =>
           match pd.nodeId with
           | some nodeId =>
             if v.contains nodeId then specLinksActive g fuel rest v
             else
               let r := specNodeActive g fuel nodeId v
               if r.1 then (true, r.2) else specLinksActive g fuel rest r.2
           | none => specLinksActive g fuel rest v
         | some _ => specLinksActive g fuel rest v
         | none => specLinksActive g fuel rest v
       | none => specLinksActive g fuel rest v) := by
  rw [specLinksActive_cons_objlink g fuel link rest v d hobj, hact]

theorem specLinksActive_cons_nooutput (g : PWGraph) (fuel link : Nat)
    (rest : List Nat) (v : List Nat) (d : LinkData)
    (hobj : alLookup g.objects link = some (.link d)) (hact : d.active = some true)
    (hout : d.outputPort = none) :
    specLinksActive g fuel (link :: rest) v = specLinksActive g fuel rest v := by
  rw [specLinksActive_cons_active g fuel link rest v d hobj hact, hout]

theorem specLinksActive_cons_output (g : PWGraph) (fuel link : Nat)
    (rest : List Nat) (v : List Nat) (d : LinkData) (op : Nat)
    (hobj : alLookup g.objects link = some (.link d)) (hact : d.active = some true)
    (hout : d.outputPort = some op) :
    specLinksActive g fuel (link :: rest) v =
      (match alLookup g.objects op with
       | some (.port pd) =>
         match pd.nodeId with
         | some nodeId =>
           if v.contains nodeId then specLinksActive g fuel rest v
           else
             let r := specNodeActive g fuel nodeId v
             if r.1 then (true, r.2) else specLinksActive g fuel rest r.2
         | none => specLinksActive g fuel rest v
       | some _ => specLinksActive g fuel rest v
       | none => specLinksActive g fuel rest v) := by
  rw [specLinksActive_cons_active g fuel link rest v d hobj hact, hout]

theorem specLinksActive_cons_opnone (g : PWGraph) (fuel link : Nat)
    (rest : List Nat) (v : List Nat) (d : LinkData) (op : Nat)
    (hobj : alLookup g.objects link = some (.link d)) (hact : d.active = some true)
    (hout : d.outputPort = some op) (hop : alLookup g.objects op = none) :
    specLinksActive g fuel (link :: rest) v = specLinksActive g fuel rest v := by
  rw [specLinksActive_cons_output g fuel link rest v d op hobj hact hout, hop]

theorem specLinksActive_cons_opnode (g : PWGraph) (fuel link : Nat)
    (rest : List Nat) (v : List Nat) (d : LinkData) (op : Nat) (nd : NodeData)
    (hobj : alLookup g.objects link = some (.link d)) (hact : d.active = some true)
    (hout : d.outputPort = some op) (hop : alLookup g.objects op = some (.node nd)) :
    specLinksActive g fuel (link :: rest) v = specLinksActive g fuel rest v := by
  rw [specLinksActive_cons_output g fuel link rest v d op hobj hact hout, hop]

theorem specLinksActive_cons_oplink (g : PWGraph) (fuel link : Nat)
    (rest : List Nat) (v : List Nat) (d : LinkData) (op : Nat) (ld2 : LinkData)
    (hobj : alLookup g.objects link = some (.link d)) (hact : d.active = some true)
    (hout : d.outputPort = some op) (hop : alLookup g.objects op = some (.link ld2)) :
    specLinksActive g fuel (link :: rest) v = specLinksActive g fuel rest v := by
  rw [specLinksActive_cons_output g fuel link rest v d op hobj hact hout, hop]

theorem specLinksActive_cons_opport (g : PWGraph) (fuel link : Nat)
    (rest : List Nat) (v : List Nat) (d : LinkData) (op : Nat) (pd : PortData)
    (hobj : alLookup g.objects link = some (.link d)) (hact : d.active = some true)
    (hout : d.outputPort = some op) (hop : alLookup g.objects op = some (.port pd)) :
    specLinksActive g fuel (link :: rest) v =
      (match pd.nodeId with
       | some nodeId =>
         if v.contains nodeId then specLinksActive g fuel rest v
         else
           let r := specNodeActive g fuel nodeId v
           if r.1 then (true, r.2) else specLinksActive g fuel rest r.2
       | none => specLinksActive g fuel rest v) := by
  rw [specLinksActive_cons_output g fuel link rest v d op hobj hact hout, hop]

theorem specLinksActive_cons_opnonid (g : PWGraph) (fuel link : Nat)
    (rest : List Nat) (v : List Nat) (d : LinkData) (op : Nat) (pd : PortData)
    (hobj : alLookup g.objects link = some (.link d)) (hact : d.active = some true)
    (hout : d.outputPort = some op) (hop : alLookup g.objects op = some (.port pd))
    (hnid : pd.nodeId = none) :
    specLinksActive g fuel (link :: rest) v = specLinksActive g fuel rest v := by
  rw [specLinksActive_cons_opport g fuel link rest v d op pd hobj hact hout hop, hnid]

theorem specLinksActive_cons_valid (g : PWGraph) (fuel link : Nat)
    (rest : List Nat) (v : List Nat) (d : LinkData) (op : Nat) (pd : PortData)
    (u : Nat) (hobj : alLookup g.objects link = some (.link d))
    (hact : d.active = some true) (hout : d.outputPort = some op)
    (hop : alLookup g.objects op = some (.port pd)) (hnid : pd.nodeId = some u) :
    specLinksActive g fuel (link :: rest) v =
      (if v.contains u = true then specLinksActive g fuel rest v
       else
         if (specNodeActive g fuel u v).1 = true then
           (true, (specNodeActive g fuel u v).2)
         else specLinksActive g fuel rest (specNodeActive g fuel u v).2) := by
  rw [specLinksActive_cons_opport g fuel link rest v d op pd hobj hact hout hop, hnid]

theorem checkLinksToNode_append (g : PWGraph) (fuel : Nat) :
    ∀ (prs1 prs2 : List (Nat × Nat)) (v : List Nat),
      checkLinksToNode g fuel (prs1 ++ prs2) v =
        if (checkLinksToNode g fuel prs1 v).1 = true then checkLinksToNode g fuel prs1 v
        else checkLinksToNode g fuel prs2 (checkLinksToNode g fuel prs1 v).2 := by
  intro prs1
  induction prs1 with
  | nil =>
    intro prs2 v
    rw [List.nil_append, checkLinksToNode_nil]
    simp
  | cons pr rest ih =>
    intro prs2 v
    obtain ⟨l, op⟩ := pr
    rw [List.cons_append]
    cases hop : alLookup g.objects op with
    | none =>
      rw [checkLinksToNode_cons_none g fuel l op (rest ++ prs2) v hop,
        checkLinksToNode_cons_none g fuel l op rest v hop]
      exact ih prs2 v
    | some obj =>
      cases obj with
      | node d =>
        rw [checkLinksToNode_cons_node g fuel l op (rest ++ prs2) v d hop,
          checkLinksToNode_cons_node g fuel l op rest v d hop]
        exact ih prs2 v
      | link d =>
        rw [checkLinksToNode_cons_link g fuel l op (rest ++ prs2) v d hop,
          checkLinksToNode_cons_link g fuel l op rest v d hop]
        exact ih prs2 v
      | port d =>
        cases hnid : d.nodeId with
        | none =>
          rw [checkLinksToNode_cons_port_none g fuel l op (rest ++ prs2) v d hop hnid,
            checkLinksToNode_cons_port_none g fuel l op rest v d hop hnid]
          exact ih prs2 v
        | some u =>
          rw [checkLinksToNode_cons_port_some g fuel l op (rest ++ prs2) v d u hop hnid,
            checkLinksToNode_cons_port_some g fuel l op rest v d u hop hnid]
          by_cases hv : v.contains u = true
          · rw [if_pos hv, if_pos hv]
            exact ih prs2 v
          · rw [if_neg hv, if_neg hv]
            by_cases hr : (checkNodeActive g fuel u v).1 = true
            · rw [if_pos hr, if_pos hr, if_pos rfl]
            · rw [if_neg hr, if_neg hr]
              exact ih prs2 _

theorem checkNodeActive_mem_self (g : PWGraph) (fuel id : Nat) (v : List Nat) :
    id ∈ (checkNodeActive g (fuel + 1) id v).2 := by
  cases hobj : alLookup g.objects id with
  | none =>
    rw [checkNodeActive_succ_none g fuel id v hobj]
    exact mem_idSetInsert_self v id
  | some obj =>
    cases obj with
    | port d =>
      rw [checkNodeActive_succ_port g fuel id v d hobj]
      exact mem_idSetInsert_self v id
    | link d =>
      rw [checkNodeActive_succ_link g fuel id v d hobj]
      exact mem_idSetInsert_self v id
    | node d =>
      by_cases hb : NodeFilter.matches_any g.nodeBlacklist d = true
      · rw [checkNodeActive_succ_node_blacklisted g fuel id v d hobj hb]
        exact mem_idSetInsert_self v id
      · have hb2 : NodeFilter.matches_any g.nodeBlacklist d = false := by simpa using hb
        cases hports : alLookup g.nodeInputPorts id with
        | none =>
          rw [checkNodeActive_succ_node_noports g fuel id v d hobj hb2 hports]
          exact mem_idSetInsert_self v id
        | some ports =>
          rw [checkNodeActive_succ_node_ports g fuel id v d ports hobj hb2 hports]
          by_cases hpe : ports.isEmpty = true
          · rw [if_pos hpe]; exact mem_idSetInsert_self v id
          · rw [if_neg hpe]
            by_cases hce : (collectLinksToNode g ports).isEmpty = true
            · rw [if_pos hce]; exact mem_idSetInsert_self v id
            · rw [if_neg hce]
              exact checkLinksToNode_visited_mono g fuel
                (checkNodeActive_visited_mono g fuel) _ _
                (mem_idSetInsert_self v id)

theorem checkLinksToNode_singleton_skip (g : PWGraph) (fuel l op : Nat)
    (w : List Nat)
    (hskip : ∀ pd : PortData, alLookup g.objects op = some (.port pd) →
      pd.nodeId = none) :
    checkLinksToNode g fuel [(l, op)] w = (false, w) := by
  cases hop : alLookup g.objects op with
  | none =>
    rw [checkLinksToNode_cons_none g fuel l op [] w hop, checkLinksToNode_nil]
  | some obj =>
    cases obj with
    | node d =>
      rw [checkLinksToNode_cons_node g fuel l op [] w d hop, checkLinksToNode_nil]
    | link d =>
      rw [checkLinksToNode_cons_link g fuel l op [] w d hop, checkLinksToNode_nil]
    | port d =>
      rw [checkLinksToNode_cons_port_none g fuel l op [] w d hop (hskip d hop),
        checkLinksToNode_nil]

theorem checkLinksToNode_singleton_visited (g : PWGraph) (fuel l op : Nat)
    (w : List Nat) (d : PortData) (u : Nat)
    (hop : alLookup g.objects op = some (.port d)) (hnid : d.nodeId = some u)
    (hw : w.contains u = true) :
    checkLinksToNode g fuel [(l, op)] w = (false, w) := by
  rw [checkLinksToNode_cons_port_some g fuel l op [] w d u hop hnid, if_pos hw,
    checkLinksToNode_nil]

theorem checkLinksToNode_zero_singleton (g : PWGraph) (l op : Nat) (w : List Nat) :
    checkLinksToNode g 0 [(l, op)] w = (false, w) := by
  cases hop : alLookup g.objects op with
  | none => rw [checkLinksToNode_cons_none g 0 l op [] w hop, checkLinksToNode_nil]
  | some obj =>
    cases obj with
    | node d =>
      rw [checkLinksToNode_cons_node g 0 l op [] w d hop, checkLinksToNode_nil]
    | link d =>
      rw [checkLinksToNode_cons_link g 0 l op [] w d hop, checkLinksToNode_nil]
    | port d =>
      cases hnid : d.nodeId with
      | none =>
        rw [checkLinksToNode_cons_port_none g 0 l op [] w d hop hnid,
          checkLinksToNode_nil]
      | some u =>
        rw [checkLinksToNode_cons_port_some g 0 l op [] w d u hop hnid]
        by_cases hw : w.contains u = true
        · rw [if_pos hw, checkLinksToNode_nil]
        · rw [if_neg hw, checkNodeActive_zero]
          simp [checkLinksToNode_nil]

theorem checkLinksToNode_mem_inert (g : PWGraph) (fuel : Nat) :
    ∀ (prs : List (Nat × Nat)) (v : List Nat) (x : Nat × Nat), x ∈ prs →
      (checkLinksToNode g fuel prs v).1 = false →
      checkLinksToNode g fuel [x] (checkLinksToNode g fuel prs v).2
        = (false, (checkLinksToNode g fuel prs v).2) := by
  intro prs
  induction prs with
  | nil => intro v x hx; cases hx
  | cons pr rest ih =>
    intro v x hx hfalse
    obtain ⟨l, op⟩ := pr
    cases hop : alLookup g.objects op with
    | none =>
      rw [checkLinksToNode_cons_none g fuel l op rest v hop] at hfalse ⊢
      rcases List.mem_cons.mp hx with rfl | hx2
      · exact checkLinksToNode_singleton_skip g fuel l op _ fun pd hpd => by
          rw [hop] at hpd; cases hpd
      · exact ih v x hx2 hfalse
    | some obj =>
      cases obj with
      | node d =>
        rw [checkLinksToNode_cons_node g fuel l op rest v d hop] at hfalse ⊢
        rcases List.mem_cons.mp hx with rfl | hx2
        · exact checkLinksToNode_singleton_skip g fuel l op _ fun pd hpd => by
            rw [hop] at hpd; cases hpd
        · exact ih v x hx2 hfalse
      | link d =>
        rw [checkLinksToNode_cons_link g fuel l op rest v d hop] at hfalse ⊢
        rcases List.mem_cons.mp hx with rfl | hx2
        · exact checkLinksToNode_singleton_skip g fuel l op _ fun pd hpd => by
            rw [hop] at hpd; cases hpd
        · exact ih v x hx2 hfalse
      | port d =>
        cases hnid : d.nodeId with
        | none =>
          rw [checkLinksToNode_cons_port_none g fuel l op rest v d hop hnid]
            at hfalse ⊢
          rcases List.mem_cons.mp hx with rfl | hx2
          · refine checkLinksToNode_singleton_skip g fuel l op _ fun pd hpd => ?_
            rw [hop] at hpd
            have hd : d = pd := by
              injection Option.some_inj.mp hpd with h
            rw [← hd]
            exact hnid
          · exact ih v x hx2 hfalse
        | some u =>
          rw [checkLinksToNode_cons_port_some g fuel l op rest v d u hop hnid]
            at hfalse ⊢
          by_cases hv : v.contains u = true
          · rw [if_pos hv] at hfalse ⊢
            rcases List.mem_cons.mp hx with rfl | hx2
            · refine checkLinksToNode_singleton_visited g fuel l op _ d u hop hnid ?_
              exact contains_true_iff_mem.mpr
                (checkLinksToNode_visited_mono g fuel
                  (checkNodeActive_visited_mono g fuel) rest v
                  (contains_true_iff_mem.mp hv))
            · exact ih v x hx2 hfalse
          · rw [if_neg hv] at hfalse ⊢
            by_cases hr : (checkNodeActive g fuel u v).1 = true
            · rw [if_pos hr] at hfalse
              cases hfalse
            · rw [if_neg hr] at hfalse ⊢
              rcases List.mem_cons.mp hx with rfl | hx2
              · cases fuel with
                | zero => exact checkLinksToNode_zero_singleton g l op _
                | succ m =>
                  refine checkLinksToNode_singleton_visited g (m + 1) l op _ d u
                    hop hnid ?_
                  exact contains_true_iff_mem.mpr
                    (checkLinksToNode_visited_mono g (m + 1)
                      (checkNodeActive_visited_mono g (m + 1)) rest _
                      (checkNodeActive_mem_self g m u v))
              · exact ih _ x hx2 hfalse

theorem specLinksActive_single_corr (g : PWGraph) (fuel : Nat)
    (hE1 : ∀ id v, specNodeActive g fuel id v = checkNodeActive g fuel id v)
    (link : Nat) (rest : List Nat) (w : List Nat) (d : LinkData) (op : Nat)
    (hobj : alLookup g.objects link = some (.link d)) (hact : d.active = some true)
    (hout : d.outputPort = some op) :
    specLinksActive g fuel (link :: rest) w =
      (if (checkLinksToNode g fuel [(link, op)] w).1 = true then
        (true, (checkLinksToNode g fuel [(link, op)] w).2)
       else specLinksActive g fuel rest (checkLinksToNode g fuel [(link, op)] w).2) := by
  cases hop : alLookup g.objects op with
  | none =>
    rw [specLinksActive_cons_opnone g fuel link rest w d op hobj hact hout hop,
      checkLinksToNode_cons_none g fuel link op [] w hop, checkLinksToNode_nil]
    simp
  | some obj =>
    cases obj with
    | node nd =>
      rw [specLinksActive_cons_opnode g fuel link rest w d op nd hobj hact hout hop,
        checkLinksToNode_cons_node g fuel link op [] w nd hop, checkLinksToNode_nil]
      simp
    | link ld2 =>
      rw [specLinksActive_cons_oplink g fuel link rest w d op ld2 hobj hact hout hop,
        checkLinksToNode_cons_link g fuel link op [] w ld2 hop, checkLinksToNode_nil]
      simp
    | port pd =>
      cases hnid : pd.nodeId with
      | none =>
        rw [specLinksActive_cons_opnonid g fuel link rest w d op pd hobj hact hout
          hop hnid,
          checkLinksToNode_cons_port_none g fuel link op [] w pd hop hnid,
          checkLinksToNode_nil]
        simp
      | some u =>
        rw [specLinksActive_cons_valid g fuel link rest w d op pd u hobj hact hout
          hop hnid,
          checkLinksToNode_cons_port_some g fuel link op [] w pd u hop hnid]
        by_cases hw : w.contains u = true
        · rw [if_pos hw, if_pos hw, checkLinksToNode_nil]
          simp
        · rw [if_neg hw, if_neg hw, hE1]
          by_cases hr : (checkNodeActive g fuel u w).1 = true
          · rw [if_pos hr, if_pos hr, if_pos rfl]
          · rw [if_neg hr, if_neg hr, checkLinksToNode_nil]
            simp

theorem collectLinkStep_objnone (g : PWGraph) (acc : List (Nat × Nat)) (link : Nat)
    (hobj : alLookup g.objects link = none) :
    collectLinkStep g acc link = acc := by
  unfold collectLinkStep
  rw [hobj]

theorem collectLinkStep_objnode (g : PWGraph) (acc : List (Nat × Nat)) (link : Nat)
    (d : NodeData) (hobj : alLookup g.objects link = some (.node d)) :
    collectLinkStep g acc link = acc := by
  unfold collectLinkStep
  rw [hobj]

theorem collectLinkStep_objport (g : PWGraph) (acc : List (Nat × Nat)) (link : Nat)
    (d : PortData) (hobj : alLookup g.objects link = some (.port d)) :
    collectLinkStep g acc link = acc := by
  unfold collectLinkStep
  rw [hobj]

theorem collectLinkStep_objlink (g : PWGraph) (acc : List (Nat × Nat)) (link : Nat)
    (d : LinkData) (hobj : alLookup g.objects link = some (.link d)) :
    collectLinkStep g acc link =
      (match d.active with
       | some true =>
         match d.outputPort with
         | some outputPort => pairSetInsert acc (link, outputPort)
         | none => acc
       | some false => acc
       | none => acc) := by
  unfold collectLinkStep
  rw [hobj]

theorem collectLinkStep_noactive (g : PWGraph) (acc : List (Nat × Nat)) (link : Nat)
    (d : LinkData) (hobj : alLookup g.objects link = some (.link d))
    (hact : d.active = none) :
    collectLinkStep g acc link = acc := by
  rw [collectLinkStep_objlink g acc link d hobj, hact]

theorem collectLinkStep_inactive (g : PWGraph) (acc : List (Nat × Nat)) (link : Nat)
    (d : LinkData) (hobj : alLookup g.objects link = some (.link d))
    (hact : d.active = some false) :
    collectLinkStep g acc link = acc := by
  rw [collectLinkStep_objlink g acc link d hobj, hact]

theorem collectLinkStep_nooutput (g : PWGraph) (acc : List (Nat × Nat)) (link : Nat)
    (d : LinkData) (hobj : alLookup g.objects link = some (.link d))
    (hact : d.active = some true) (hout : d.outputPort = none) :
    collectLinkStep g acc link = acc := by
  rw [collectLinkStep_objlink g acc link d hobj, hact, hout]

theorem collectLinkStep_valid (g : PWGraph) (acc : List (Nat × Nat)) (link : Nat)
    (d : LinkData) (op : Nat) (hobj : alLookup g.objects link = some (.link d))
    (hact : d.active = some true) (hout : d.outputPort = some op) :
    collectLinkStep g acc link = pairSetInsert acc (link, op) := by
  rw [collectLinkStep_objlink g acc link d hobj, hact, hout]

theorem specLinks_foldl_corr (g : PWGraph) (fuel : Nat)
    (hE1 : ∀ id v, specNodeActive g fuel id v = checkNodeActive g fuel id v) :
    ∀ (links : List Nat) (acc : List (Nat × Nat)) (v : List Nat),
      checkLinksToNode g fuel (links.foldl (collectLinkStep g) acc) v =
        (if (checkLinksToNode g fuel acc v).1 = true then checkLinksToNode g fuel acc v
         else specLinksActive g fuel links (checkLinksToNode g fuel acc v).2) := by
  intro links
  induction links with
  | nil =>
    intro acc v
    rw [List.foldl_nil, specLinksActive_nil]
    rcases hR : checkLinksToNode g fuel acc v with ⟨b, w⟩
    cases b <;> simp
  | cons link rest ih =>
    intro acc v
    rw [List.foldl_cons]
    cases hobj : alLookup g.objects link with
    | none =>
      rw [collectLinkStep_objnone g acc link hobj, ih acc v,
        specLinksActive_cons_objnone g fuel link rest _ hobj]
    | some obj =>
      cases obj with
      | node d =>
        rw [collectLinkStep_objnode g acc link d hobj, ih acc v,
          specLinksActive_cons_objnode g fuel link rest _ d hobj]
      | port d =>
        rw [collectLinkStep_objport g acc link d hobj, ih acc v,
          specLinksActive_cons_objport g fuel link rest _ d hobj]
      | link d =>
        cases hact2 : d.active with
        | none =>
          rw [collectLinkStep_noactive g acc link d hobj hact2, ih acc v,
            specLinksActive_cons_noactive g fuel link rest _ d hobj hact2]
        | some b =>
          cases b with
          | false =>
            rw [collectLinkStep_inactive g acc link d hobj hact2, ih acc v,
              specLinksActive_cons_inactive g fuel link rest _ d hobj hact2]
          | true =>
            cases hout : d.outputPort with
            | none =>
              rw [collectLinkStep_nooutput g acc link d hobj hact2 hout, ih acc v,
                specLinksActive_cons_nooutput g fuel link rest _ d hobj hact2 hout]
            | some op =>
              rw [collectLinkStep_valid g acc link d op hobj hact2 hout]
              by_cases hmem : acc.contains (link, op) = true
              · have hins : pairSetInsert acc (link, op) = acc := by
                  unfold pairSetInsert
                  rw [if_pos hmem]
                rw [hins, ih acc v]
                by_cases hr : (checkLinksToNode g fuel acc v).1 = true
                · rw [if_pos hr, if_pos hr]
                · rw [if_neg hr, if_neg hr,
                    specLinksActive_single_corr g fuel hE1 link rest _ d op hobj
                      hact2 hout,
                    checkLinksToNode_mem_inert g fuel acc v (link, op)
                      (contains_true_iff_mem.mp hmem) (by simpa using hr)]
                  simp
              · have hins : pairSetInsert acc (link, op) = acc ++ [(link, op)] := by
                  unfold pairSetInsert
                  rw [if_neg hmem]
                rw [hins, ih (acc ++ [(link, op)]) v,
                  checkLinksToNode_append g fuel acc [(link, op)] v]
                by_cases hr : (checkLinksToNode g fuel acc v).1 = true
                · rw [if_pos hr]
                  rw [if_pos hr, if_pos hr]
                · rw [if_neg hr]
                  rw [if_neg hr]
                  rw [specLinksActive_single_corr g fuel hE1 link rest _ d op hobj
                      hact2 hout]
                  rcases hS : checkLinksToNode g fuel [(link, op)]
                      (checkLinksToNode g fuel acc v).2 with ⟨b2, w2⟩
                  cases b2 <;> simp

theorem collectPortStep_objnone (g : PWGraph) (acc : List (Nat × Nat)) (port : Nat)
    (hobj : alLookup g.objects port = none) :
    collectPortStep g acc port = acc := by
  unfold collectPortStep
  rw [hobj]

theorem collectPortStep_objnode (g : PWGraph) (acc : List (Nat × Nat)) (port : Nat)
    (d : NodeData) (hobj : alLookup g.objects port = some (.node d)) :
    collectPortStep g acc port = acc := by
  unfold collectPortStep
  rw [hobj]

theorem collectPortStep_objlink (g : PWGraph) (acc : List (Nat × Nat)) (port : Nat)
    (d : LinkData) (hobj : alLookup g.objects port = some (.link d)) :
    collectPortStep g acc port = acc := by
  unfold collectPortStep
  rw [hobj]

theorem collectPortStep_objport (g : PWGraph) (acc : List (Nat × Nat)) (port : Nat)
    (d : PortData) (hobj : alLookup g.objects port = some (.port d)) :
    collectPortStep g acc port =
      (match alLookup g.linksToPort port with
       | none => acc
       | some links => links.foldl (collectLinkStep g) acc) := by
  unfold collectPortStep
  rw [hobj]

theorem collectPortStep_nolinks (g : PWGraph) (acc : List (Nat × Nat)) (port : Nat)
    (d : PortData) (hobj : alLookup g.objects port = some (.port d))
    (hlp : alLookup g.linksToPort port = none) :
    collectPortStep g acc port = acc := by
  rw [collectPortStep_objport g acc port d hobj, hlp]

theorem collectPortStep_links (g : PWGraph) (acc : List (Nat × Nat)) (port : Nat)
    (d : PortData) (links : List Nat)
    (hobj : alLookup g.objects port = some (.port d))
    (hlp : alLookup g.linksToPort port = some links) :
    collectPortStep g acc port = links.foldl (collectLinkStep g) acc := by
  rw [collectPortStep_objport g acc port d hobj, hlp]

theorem specPorts_foldl_corr (g : PWGraph) (fuel : Nat)
    (hE1 : ∀ id v, specNodeActive g fuel id v = checkNodeActive g fuel id v) :
    ∀ (ports : List Nat) (acc : List (Nat × Nat)) (v : List Nat),
      checkLinksToNode g fuel (ports.foldl (collectPortStep g) acc) v =
        (if (checkLinksToNode g fuel acc v).1 = true then checkLinksToNode g fuel acc v
         else specPortsActive g fuel ports (checkLinksToNode g fuel acc v).2) := by
  intro ports
  induction ports with
  | nil =>
    intro acc v
    rw [List.foldl_nil, specPortsActive_nil]
    rcases hR : checkLinksToNode g fuel acc v with ⟨b, w⟩
    cases b <;> simp
  | cons port rest ih =>
    intro acc v
    rw [List.foldl_cons]
    cases hobj : alLookup g.objects port with
    | none =>
      rw [collectPortStep_objnone g acc port hobj, ih acc v,
        specPortsActive_cons_none g fuel port rest _ hobj]
    | some obj =>
      cases obj with
      | node d =>
        rw [collectPortStep_objnode g acc port d hobj, ih acc v,
          specPortsActive_cons_node g fuel port rest _ d hobj]
      | link d =>
        rw [collectPortStep_objlink g acc port d hobj, ih acc v,
          specPortsActive_cons_link g fuel port rest _ d hobj]
      | port d =>
        cases hlp : alLookup g.linksToPort port with
        | none =>
          rw [collectPortStep_nolinks g acc port d hobj hlp, ih acc v,
            specPortsActive_cons_port_nolinks g fuel port rest _ d hobj hlp]
        | some links =>
          rw [collectPortStep_links g acc port d links hobj hlp,
            ih (links.foldl (collectLinkStep g) acc) v,
            specLinks_foldl_corr g fuel hE1 links acc v,
            specPortsActive_cons_port_links g fuel port rest _ d links hobj hlp]
          by_cases hr : (checkLinksToNode g fuel acc v).1 = true
          · simp [hr]
          · simp only [hr, if_false]
            rcases hSL : specLinksActive g fuel links
                (checkLinksToNode g fuel acc v).2 with ⟨b2, w2⟩
            cases b2 <;> simp

theorem specNodeActive_eq_checkNodeActive (g : PWGraph) :
    ∀ (fuel id : Nat) (v : List Nat),
      specNodeActive g fuel id v = checkNodeActive g fuel id v := by
  intro fuel
  induction fuel with
  | zero => intro id v; rw [specNodeActive_zero, checkNodeActive_zero]
  | succ fuel ih =>
    intro id v
    cases hobj : alLookup g.objects id with
    | none =>
      rw [specNodeActive_succ_none g fuel id v hobj,
        checkNodeActive_succ_none g fuel id v hobj]
    | some obj =>
      cases obj with
      | port d =>
        rw [specNodeActive_succ_port g fuel id v d hobj,
          checkNodeActive_succ_port g fuel id v d hobj]
      | link d =>
        rw [specNodeActive_succ_link g fuel id v d hobj,
          checkNodeActive_succ_link g fuel id v d hobj]
      | node d =>
        by_cases hb : NodeFilter.matches_any g.nodeBlacklist d = true
        · rw [specNodeActive_succ_node_blacklisted g fuel id v d hobj hb,
            checkNodeActive_succ_node_blacklisted g fuel id v d hobj hb]
        · have hb2 : NodeFilter.matches_any g.nodeBlacklist d = false := by simpa using hb
          cases hports : alLookup g.nodeInputPorts id with
          | none =>
            rw [specNodeActive_succ_node_noports g fuel id v d hobj hb2 hports,
              checkNodeActive_succ_node_noports g fuel id v d hobj hb2 hports]
          | some ports =>
            rw [specNodeActive_succ_node_ports g fuel id v d ports hobj hb2 hports,
              checkNodeActive_succ_node_ports g fuel id v d ports hobj hb2 hports]
            by_cases hpe : ports.isEmpty = true
            · rw [if_pos hpe, if_pos hpe]
            · rw [if_neg hpe, if_neg hpe]
              have hsp : checkLinksToNode g fuel (collectLinksToNode g ports)
                  (idSetInsert v id)
                  = specPortsActive g fuel ports (idSetInsert v id) := by
                have hc := specPorts_foldl_corr g fuel ih ports [] (idSetInsert v id)
                rw [checkLinksToNode_nil] at hc
                unfold collectLinksToNode
                simpa using hc
              by_cases hce : (collectLinksToNode g ports).isEmpty = true
              · rw [if_pos hce]
                have hnil : collectLinksToNode g ports = [] := by
                  simpa [List.isEmpty_iff] using hce
                rw [hnil, checkLinksToNode_nil] at hsp
                exact hsp.symm
              · rw [if_neg hce]
                exact hsp.symm

/-- Claim C1 (amended): `get_active_sinks` returns exactly the set of sink
ids satisfying the recursive reachability predicate, where a node's
candidate links are the ones registered under its input ports in the
links-by-input-port index (with the input port's object present as a
`Port`); a sink is active iff it does not match the node blacklist and
either has no input ports or some indexed link with `active == Some(true)`
and a defined `output_port` leads, through the output port's `node_id`, to
an unvisited recursively active node; branches with missing port/node
metadata or without `active == Some(true)` contribute nothing. -/
theorem c1_active_sinks_spec (g : PWGraph) :
    getActiveSinks g = specActiveSinks g := by
  unfold getActiveSinks specActiveSinks
  exact (List.filter_congr fun s _ => by
    rw [specNodeActive_eq_checkNodeActive g]).symm

theorem claimNodeActive_succ (g : PWGraph) (fuel id : Nat) (v : List Nat) :
    claimNodeActive g (fuel + 1) id v =
      (let visited1 := idSetInsert v id
       match alLookup g.objects id with
       | some (.node data) =>
         if NodeFilter.matches_any g.nodeBlacklist data then (false, visited1)
         else
           match alLookup g.nodeInputPorts id with
           | none => (true, visited1)
           | some ports =>
             if ports.isEmpty then (true, visited1)
             else
               let linksToNode := claimCollectLinks g ports
               if linksToNode.isEmpty then (false, visited1)
               else claimLinksRec g fuel linksToNode visited1
       | some _ => (false, visited1)
       | none => (false, visited1)) := by
  rw [claimNodeActive]

theorem claimNodeActive_succ_node (g : PWGraph) (fuel id : Nat) (v : List Nat)
    (d : NodeData) (hobj : alLookup g.objects id = some (.node d)) :
    claimNodeActive g (fuel + 1) id v =
      (if NodeFilter.matches_any g.nodeBlacklist d = true then (false, idSetInsert v id)
       else
         match alLookup g.nodeInputPorts id with
         | none => (true, idSetInsert v id)
         | some ports =>
           if ports.isEmpty = true then (true, idSetInsert v id)
           else
             if (claimCollectLinks g ports).isEmpty = true then (false, idSetInsert v id)
             else claimLinksRec g fuel (claimCollectLinks g ports) (idSetInsert v id)) := by
  rw [claimNodeActive_succ, hobj]

theorem claimNodeActive_succ_node_ports (g : PWGraph) (fuel id : Nat)
    (v : List Nat) (d : NodeData) (ports : List Nat)
    (hobj : alLookup g.objects id = some (.node d))
    (hb : NodeFilter.matches_any g.nodeBlacklist d = false)
    (hports : alLookup g.nodeInputPorts id = some ports) :
    claimNodeActive g (fuel + 1) id v =
      (if ports.isEmpty = true then (true, idSetInsert v id)
       else
         if (claimCollectLinks g ports).isEmpty = true then (false, idSetInsert v id)
         else claimLinksRec g fuel (claimCollectLinks g ports) (idSetInsert v id)) := by
  rw [claimNodeActive_succ_node g fuel id v d hobj, hb, hports,
    if_neg Bool.false_ne_true]

/-- Counterexample to claim C1 as stated: in `c1Graph` (built by graph
operations only) link 3 is listed in the links-by-input-port index under
port 2 although its own `input_port` field is absent; the implementation
follows the index and reports sink 1 active, while the predicate as worded
(quantifying over links by their `input_port` field) reports no active
sink. -/
theorem c1_counterexample :
    getActiveSinks c1Graph = [1] ∧ claimActiveSinks c1Graph = [] := by
  have hobj1 : alLookup c1Graph.objects 1
      = some (.node { NodeData.empty with mediaClass := some "Audio/Sink" }) := rfl
  have hports1 : alLookup c1Graph.nodeInputPorts 1 = some [2] := rfl
  have hop20 : alLookup c1Graph.objects 20
      = some (.port ⟨none, some 5, some .output, none⟩) := rfl
  have hobj5 : alLookup c1Graph.objects 5 = some (.node NodeData.empty) := rfl
  have hports5 : alLookup c1Graph.nodeInputPorts 5 = none := rfl
  have h5 : checkNodeActive c1Graph 2 5 [1] = (true, [1, 5]) := by
    rw [show (2 : Nat) = 1 + 1 from rfl,
      checkNodeActive_succ_node_noports c1Graph 1 5 [1] NodeData.empty hobj5 rfl
        hports5]
    rfl
  have hchk : checkNodeActive c1Graph (2 + 1) 1 [] = (true, [1, 5]) := by
    rw [checkNodeActive_succ_node_ports c1Graph 2 1 []
      { NodeData.empty with mediaClass := some "Audio/Sink" } [2] hobj1 rfl hports1]
    rw [if_neg (by decide : ¬([2] : List Nat).isEmpty = true)]
    rw [show collectLinksToNode c1Graph [2] = [(3, 20)] from rfl]
    rw [if_neg (by decide : ¬([(3, 20)] : List (Nat × Nat)).isEmpty = true)]
    rw [show idSetInsert [] 1 = [1] from rfl]
    rw [checkLinksToNode_cons_port_some c1Graph 2 3 20 [] [1]
      ⟨none, some 5, some .output, none⟩ 5 hop20 rfl]
    rw [if_neg (by decide : ¬([1] : List Nat).contains 5 = true), h5]
    rw [if_pos rfl]
  have hclm : claimNodeActive c1Graph (2 + 1) 1 [] = (false, [1]) := by
    rw [claimNodeActive_succ_node_ports c1Graph 2 1 []
      { NodeData.empty with mediaClass := some "Audio/Sink" } [2] hobj1 rfl hports1]
    rw [if_neg (by decide : ¬([2] : List Nat).isEmpty = true)]
    rw [show claimCollectLinks c1Graph [2] = [] from rfl]
    rw [if_pos (by decide : ([] : List (Nat × Nat)).isEmpty = true)]
    rfl
  constructor
  · unfold getActiveSinks
    rw [show traversalFuel c1Graph = 2 + 1 from rfl,
      show c1Graph.sinks = [1] from rfl]
    simp [List.filter_cons, hchk]
  · unfold claimActiveSinks
    rw [show traversalFuel c1Graph = 2 + 1 from rfl,
      show c1Graph.sinks = [1] from rfl]
    simp [List.filter_cons, hclm]

theorem idSetInsert_nodup {s : List Nat} (h : s.Nodup) (x : Nat) :
    (idSetInsert s x).Nodup := by
  unfold idSetInsert
  split
  · exact h
  · next hc =>
    have hx : x ∉ s := fun hm => hc (contains_true_iff_mem.mpr hm)
    simp [List.nodup_append, h, hx]

theorem idSetRemove_nodup {s : List Nat} (h : s.Nodup) (x : Nat) :
    (idSetRemove s x).Nodup :=
  h.erase x

theorem mem_idSetRemove {s : List Nat} (h : s.Nodup) {x a : Nat} :
    a ∈ idSetRemove s x ↔ a ∈ s ∧ a ≠ x := by
  unfold idSetRemove
  rw [h.mem_erase_iff]
  exact and_comm

theorem indexSet_adjust (m : List (Nat × List Nat)) (k : Nat)
    (f : List Nat → List Nat) (x : Nat) :
    indexSet (alAdjustSet m k f) x = if k = x then f (indexSet m k) else indexSet m x := by
  unfold indexSet
  rw [alAdjustSet_lookup]
  by_cases h : k = x
  · rw [if_pos h, if_pos h]
    rfl
  · rw [if_neg h, if_neg h]

theorem mem_indexSet_adjust_ins (m : List (Nat × List Nat)) (k0 v k x : Nat) :
    x ∈ indexSet (alAdjustSet m k0 (fun s => idSetInsert s v)) k
      ↔ (x ∈ indexSet m k ∨ (k0 = k ∧ x = v)) := by
  rw [indexSet_adjust]
  split
  · next h =>
    subst h
    rw [mem_idSetInsert]
    simp
  · next h =>
    simp [h]

theorem mem_indexSet_adjust_rem (m : List (Nat × List Nat)) (k0 v k x : Nat)
    (hnd : (indexSet m k0).Nodup) :
    x ∈ indexSet (alAdjustSet m k0 (fun s => idSetRemove s v)) k
      ↔ (x ∈ indexSet m k ∧ ¬(k0 = k ∧ x = v)) := by
  rw [indexSet_adjust]
  split
  · next h =>
    subst h
    rw [mem_idSetRemove hnd]
    simp
  · next h =>
    simp [h]

theorem indexSet_adjust_ins_nodup {m : List (Nat × List Nat)}
    (h : ∀ k, (indexSet m k).Nodup) (k0 v : Nat) :
    ∀ x, (indexSet (alAdjustSet m k0 (fun s => idSetInsert s v)) x).Nodup := by
  intro x
  rw [indexSet_adjust]
  split
  · exact idSetInsert_nodup (h k0) v
  · exact h x

theorem indexSet_adjust_rem_nodup {m : List (Nat × List Nat)}
    (h : ∀ k, (indexSet m k).Nodup) (k0 v : Nat) :
    ∀ x, (indexSet (alAdjustSet m k0 (fun s => idSetRemove s v)) x).Nodup := by
  intro x
  rw [indexSet_adjust]
  split
  · exact idSetRemove_nodup (h k0) v
  · exact h x

theorem insert_objects (g : PWGraph) (id : Nat) (obj : PWObject) :
    (g.insert id obj).objects = alInsert g.objects id obj := by
  cases obj <;>
    (unfold PWGraph.insert; dsimp only; congr 1; repeat first | rfl | split)

theorem insert_sinkWhitelist (g : PWGraph) (id : Nat) (obj : PWObject) :
    (g.insert id obj).sinkWhitelist = g.sinkWhitelist := by
  cases obj <;>
    (unfold PWGraph.insert; dsimp only; repeat first | rfl | split)

theorem insert_node_sinks_some (g : PWGraph) (id : Nat) (d : NodeData) (mc : String)
    (hmc : d.mediaClass = some mc) :
    (g.insert id (.node d)).sinks =
      if (strContains mc "Sink"
          && (g.sinkWhitelist.isEmpty || SinkFilter.matches_any g.sinkWhitelist d)) = true
      then idSetInsert g.sinks id else g.sinks := by
  unfold PWGraph.insert
  dsimp only
  rw [hmc]
  dsimp only
  split <;> rfl

theorem insert_node_sinks_none (g : PWGraph) (id : Nat) (d : NodeData)
    (hmc : d.mediaClass = none) :
    (g.insert id (.node d)).sinks = g.sinks := by
  unfold PWGraph.insert
  dsimp only
  rw [hmc]

theorem insert_port_sinks (g : PWGraph) (id : Nat) (d : PortData) :
    (g.insert id (.port d)).sinks = g.sinks := by
  unfold PWGraph.insert
  dsimp only
  repeat first | rfl | split

theorem insert_node_idx (g : PWGraph) (id : Nat) (d : NodeData) :
    (g.insert id (.node d)).linksToPort = g.linksToPort ∧
    (g.insert id (.node d)).linksFromPort = g.linksFromPort ∧
    (g.insert id (.node d)).nodeInputPorts = g.nodeInputPorts ∧
    (g.insert id (.node d)).nodeOutputPorts = g.nodeOutputPorts := by
  unfold PWGraph.insert
  dsimp only
  refine ⟨?_, ?_, ?_, ?_⟩ <;> repeat first | rfl | split

theorem insert_port_idx (g : PWGraph) (id : Nat) (d : PortData) :
    (g.insert id (.port d)).linksToPort = g.linksToPort ∧
    (g.insert id (.port d)).linksFromPort = g.linksFromPort ∧
    (g.insert id (.port d)).nodeInputPorts =
      (match d.nodeId, d.direction with
       | some n, some .input => alAdjustSet g.nodeInputPorts n (fun s => idSetInsert s id)
       | _, _ => g.nodeInputPorts) ∧
    (g.insert id (.port d)).nodeOutputPorts =
      (match d.nodeId, d.direction with
       | some n, some .output => alAdjustSet g.nodeOutputPorts n (fun s => idSetInsert s id)
       | _, _ => g.nodeOutputPorts) := by
  obtain ⟨nm, nid, dir, t⟩ := d
  cases nid <;> rcases dir with _ | dv <;> (try cases dv) <;> simp [PWGraph.insert]

theorem insert_link_idx (g : PWGraph) (id : Nat) (d : LinkData) :
    (g.insert id (.link d)).linksToPort =
      (match d.inputPort with
       | some p => alAdjustSet g.linksToPort p (fun s => idSetInsert s id)
       | none => g.linksToPort) ∧
    (g.insert id (.link d)).linksFromPort =
      (match d.outputPort with
       | some p => alAdjustSet g.linksFromPort p (fun s => idSetInsert s id)
       | none => g.linksFromPort) ∧
    (g.insert id (.link d)).nodeInputPorts = g.nodeInputPorts ∧
    (g.insert id (.link d)).nodeOutputPorts = g.nodeOutputPorts := by
  obtain ⟨ip, op, act⟩ := d
  cases ip <;> cases op <;> simp [PWGraph.insert]

theorem update_absent (g : PWGraph) (id : Nat) (p : PWObjectData)
    (h : alLookup g.objects id = none) : g.update id p = (g, false) := by
  unfold PWGraph.update
  rw [h]

theorem update_mismatch (g : PWGraph) (id : Nat) (p : PWObjectData) (obj : PWObject)
    (hobj : alLookup g.objects id = some obj)
    (hkm : p.kindMatches obj = false) : g.update id p = (g, false) := by
  unfold PWGraph.update
  rw [hobj]
  cases p <;> cases obj <;> first | rfl | (simp [PWObjectData.kindMatches] at hkm)

theorem update_node_objects (g : PWGraph) (id : Nat) (d nd : NodeData)
    (hobj : alLookup g.objects id = some (.node d)) :
    ((g.update id (.node nd)).1).objects = alInsert g.objects id (.node (d.update nd)) := by
  unfold PWGraph.update
  rw [hobj]
  dsimp only
  congr 1
  repeat first | rfl | split

theorem update_node_idx (g : PWGraph) (id : Nat) (d nd : NodeData)
    (hobj : alLookup g.objects id = some (.node d)) :
    ((g.update id (.node nd)).1).linksToPort = g.linksToPort ∧
    ((g.update id (.node nd)).1).linksFromPort = g.linksFromPort ∧
    ((g.update id (.node nd)).1).nodeInputPorts = g.nodeInputPorts ∧
    ((g.update id (.node nd)).1).nodeOutputPorts = g.nodeOutputPorts ∧
    ((g.update id (.node nd)).1).sinkWhitelist = g.sinkWhitelist := by
  unfold PWGraph.update
  rw [hobj]
  dsimp only
  refine ⟨?_, ?_, ?_, ?_, ?_⟩ <;> repeat first | rfl | split

theorem update_port_objects (g : PWGraph) (id : Nat) (d nd : PortData)
    (hobj : alLookup g.objects id = some (.port d)) :
    ((g.update id (.port nd)).1).objects = alInsert g.objects id (.port (d.update nd)) := by
  unfold PWGraph.update
  rw [hobj]
  dsimp only
  congr 1
  repeat first | rfl | split

theorem update_port_others (g : PWGraph) (id : Nat) (d nd : PortData)
    (hobj : alLookup g.objects id = some (.port d)) :
    ((g.update id (.port nd)).1).sinks = g.sinks ∧
    ((g.update id (.port nd)).1).linksToPort = g.linksToPort ∧
    ((g.update id (.port nd)).1).linksFromPort = g.linksFromPort ∧
    ((g.update id (.port nd)).1).sinkWhitelist = g.sinkWhitelist := by
  unfold PWGraph.update
  rw [hobj]
  dsimp only
  refine ⟨?_, ?_, ?_, ?_⟩ <;> repeat first | rfl | split

theorem update_link_objects (g : PWGraph) (id : Nat) (d nd : LinkData)
    (hobj : alLookup g.objects id = some (.link d)) :
    ((g.update id (.link nd)).1).objects = alInsert g.objects id (.link (d.update nd)) := by
  unfold PWGraph.update
  rw [hobj]
  dsimp only
  congr 1
  repeat first | rfl | split

theorem update_link_others (g : PWGraph) (id : Nat) (d nd : LinkData)
    (hobj : alLookup g.objects id = some (.link d)) :
    ((g.update id (.link nd)).1).sinks = g.sinks ∧
    ((g.update id (.link nd)).1).nodeInputPorts = g.nodeInputPorts ∧
    ((g.update id (.link nd)).1).nodeOutputPorts = g.nodeOutputPorts ∧
    ((g.update id (.link nd)).1).sinkWhitelist = g.sinkWhitelist := by
  unfold PWGraph.update
  rw [hobj]
  dsimp only
  refine ⟨?_, ?_, ?_, ?_⟩ <;> repeat first | rfl | split

theorem update_node_sinks_same (g : PWGraph) (id : Nat) (d nd : NodeData)
    (hobj : alLookup g.objects id = some (.node d))
    (hmc : d.mediaClass = nd.mediaClass) :
    ((g.update id (.node nd)).1).sinks = g.sinks := by
  unfold PWGraph.update
  rw [hobj]
  dsimp only
  rw [if_neg (not_not_intro hmc)]

theorem update_node_sinks_newnone (g : PWGraph) (id : Nat) (d nd : NodeData)
    (hobj : alLookup g.objects id = some (.node d))
    (hnew : nd.mediaClass = none) :
    ((g.update id (.node nd)).1).sinks = g.sinks := by
  unfold PWGraph.update
  rw [hobj]
  dsimp only
  rw [hnew]
  repeat first | rfl | split

theorem update_node_sinks_chg_oldsink (g : PWGraph) (id : Nat) (d nd : NodeData)
    (newMc mc : String)
    (hobj : alLookup g.objects id = some (.node d))
    (hne : d.mediaClass ≠ nd.mediaClass)
    (hnew : nd.mediaClass = some newMc)
    (hold : d.mediaClass = some mc)
    (hs : strContains mc "Sink" = true) :
    ((g.update id (.node nd)).1).sinks =
      if (strContains newMc "Sink"
          && (g.sinkWhitelist.isEmpty || SinkFilter.matches_any g.sinkWhitelist nd)) = true
      then idSetInsert (idSetRemove g.sinks id) id else idSetRemove g.sinks id := by
  unfold PWGraph.update
  rw [hobj]
  dsimp only
  rw [if_pos hne, hnew]
  dsimp only
  rw [hold]
  dsimp only
  rw [if_pos hs]
  dsimp only
  split <;> rfl

theorem update_node_sinks_chg_oldnosink (g : PWGraph) (id : Nat) (d nd : NodeData)
    (newMc mc : String)
    (hobj : alLookup g.objects id = some (.node d))
    (hne : d.mediaClass ≠ nd.mediaClass)
    (hnew : nd.mediaClass = some newMc)
    (hold : d.mediaClass = some mc)
    (hs : strContains mc "Sink" = false) :
    ((g.update id (.node nd)).1).sinks =
      if (strContains newMc "Sink"
          && (g.sinkWhitelist.isEmpty || SinkFilter.matches_any g.sinkWhitelist nd)) = true
      then idSetInsert g.sinks id else g.sinks := by
  unfold PWGraph.update
  rw [hobj]
  dsimp only
  rw [if_pos hne, hnew]
  dsimp only
  rw [hold]
  dsimp only
  rw [if_neg (show ¬(strContains mc "Sink" = true) by simp [hs])]
  split <;> rfl

theorem update_node_sinks_chg_oldnone (g : PWGraph) (id : Nat) (d nd : NodeData)
    (newMc : String)
    (hobj : alLookup g.objects id = some (.node d))
    (hne : d.mediaClass ≠ nd.mediaClass)
    (hnew : nd.mediaClass = some newMc)
    (hold : d.mediaClass = none) :
    ((g.update id (.node nd)).1).sinks =
      if (strContains newMc "Sink"
          && (g.sinkWhitelist.isEmpty || SinkFilter.matches_any g.sinkWhitelist nd)) = true
      then idSetInsert g.sinks id else g.sinks := by
  unfold PWGraph.update
  rw [hobj]
  dsimp only
  rw [if_pos hne, hnew]
  dsimp only
  rw [hold]
  dsimp only
  split <;> rfl

theorem update_port_idx_none (g : PWGraph) (id : Nat) (d nd : PortData)
    (hobj : alLookup g.objects id = some (.port d))
    (h1 : nd.nodeId = none) (h2 : nd.direction = none) :
    ((g.update id (.port nd)).1).nodeInputPorts = g.nodeInputPorts ∧
    ((g.update id (.port nd)).1).nodeOutputPorts = g.nodeOutputPorts := by
  unfold PWGraph.update
  rw [hobj]
  dsimp only
  rw [h1, h2]
  constructor <;> repeat first | rfl | split

theorem update_port_idx_same (g : PWGraph) (id : Nat) (d nd : PortData)
    (hobj : alLookup g.objects id = some (.port d))
    (h1 : d.nodeId = nd.nodeId) (h2 : d.direction = nd.direction) :
    ((g.update id (.port nd)).1).nodeInputPorts = g.nodeInputPorts ∧
    ((g.update id (.port nd)).1).nodeOutputPorts = g.nodeOutputPorts := by
  unfold PWGraph.update
  rw [hobj]
  dsimp only
  rw [if_neg (by simp [h1, h2])]
  exact ⟨rfl, rfl⟩

theorem update_port_idx_diff (g : PWGraph) (id : Nat) (d nd : PortData) (nn : Nat)
    (dv : PWDirection)
    (hobj : alLookup g.objects id = some (.port d))
    (h : d.nodeId ≠ nd.nodeId ∨ d.direction ≠ nd.direction)
    (hnn : nd.nodeId = some nn) (hdir : nd.direction = some dv) :
    ((g.update id (.port nd)).1).nodeInputPorts =
      (match dv with
       | .input => alAdjustSet (portIdxRemoveOld g id d).nodeInputPorts nn
           (fun s => idSetInsert s id)
       | _ => (portIdxRemoveOld g id d).nodeInputPorts) ∧
    ((g.update id (.port nd)).1).nodeOutputPorts =
      (match dv with
       | .output => alAdjustSet (portIdxRemoveOld g id d).nodeOutputPorts nn
           (fun s => idSetInsert s id)
       | _ => (portIdxRemoveOld g id d).nodeOutputPorts) := by
  obtain ⟨nm2, nid2, dir2, t2⟩ := nd
  have hnn2 : nid2 = some nn := hnn
  have hdir2 : dir2 = some dv := hdir
  subst hnn2
  subst hdir2
  have h3 : d.nodeId ≠ some nn ∨ d.direction ≠ some dv := h
  unfold PWGraph.update portIdxRemoveOld
  rw [hobj]
  dsimp only
  rw [if_pos (by rcases h3 with h3 | h3 <;> simp [h3])]
  cases dv <;> constructor <;> repeat first | rfl | split

theorem portIdxRemoveOld_input (g : PWGraph) (id : Nat) (d : PortData) (n : Nat)
    (h1 : d.nodeId = some n) (h2 : d.direction = some PWDirection.input) :
    portIdxRemoveOld g id d =
      { g with nodeInputPorts := alAdjustSet g.nodeInputPorts n (fun s => idSetRemove s id) } := by
  unfold portIdxRemoveOld
  rw [h1, h2]

theorem portIdxRemoveOld_output (g : PWGraph) (id : Nat) (d : PortData) (n : Nat)
    (h1 : d.nodeId = some n) (h2 : d.direction = some PWDirection.output) :
    portIdxRemoveOld g id d =
      { g with nodeOutputPorts := alAdjustSet g.nodeOutputPorts n (fun s => idSetRemove s id) } := by
  unfold portIdxRemoveOld
  rw [h1, h2]

theorem portIdxRemoveOld_other (g : PWGraph) (id : Nat) (d : PortData) (n raw : Nat)
    (h1 : d.nodeId = some n) (h2 : d.direction = some (PWDirection.other raw)) :
    portIdxRemoveOld g id d = g := by
  unfold portIdxRemoveOld
  rw [h1, h2]

theorem portIdxRemoveOld_noid (g : PWGraph) (id : Nat) (d : PortData)
    (h1 : d.nodeId = none) :
    portIdxRemoveOld g id d = g := by
  unfold portIdxRemoveOld
  rw [h1]

theorem portIdxRemoveOld_nodir (g : PWGraph) (id : Nat) (d : PortData)
    (h2 : d.direction = none) :
    portIdxRemoveOld g id d = g := by
  unfold portIdxRemoveOld
  rw [h2]
  split <;> simp_all

theorem linkFromRemoveOld_some (g : PWGraph) (id : Nat) (d : LinkData) (op : Nat)
    (hold : d.outputPort = some op) :
    linkFromRemoveOld g id d =
      { g with linksFromPort := alAdjustSet g.linksFromPort op (fun s => idSetRemove s id) } := by
  unfold linkFromRemoveOld
  rw [hold]

theorem linkFromRemoveOld_none (g : PWGraph) (id : Nat) (d : LinkData)
    (hold : d.outputPort = none) :
    linkFromRemoveOld g id d = g := by
  unfold linkFromRemoveOld
  rw [hold]

theorem linkToRemoveOld_some (g : PWGraph) (id : Nat) (d : LinkData) (ip : Nat)
    (hold : d.inputPort = some ip) :
    linkToRemoveOld g id d =
      { g with linksToPort := alAdjustSet g.linksToPort ip (fun s => idSetRemove s id) } := by
  unfold linkToRemoveOld
  rw [hold]

theorem linkToRemoveOld_none (g : PWGraph) (id : Nat) (d : LinkData)
    (hold : d.inputPort = none) :
    linkToRemoveOld g id d = g := by
  unfold linkToRemoveOld
  rw [hold]

theorem update_link_fromIdx_same (g : PWGraph) (id : Nat) (d nd : LinkData)
    (hobj : alLookup g.objects id = some (.link d))
    (h : d.outputPort = nd.outputPort) :
    ((g.update id (.link nd)).1).linksFromPort = g.linksFromPort := by
  unfold PWGraph.update
  rw [hobj]
  dsimp only
  rw [if_neg (not_not_intro h)]
  repeat first | rfl | split

theorem update_link_fromIdx_newnone (g : PWGraph) (id : Nat) (d nd : LinkData)
    (hobj : alLookup g.objects id = some (.link d))
    (hnew : nd.outputPort = none) :
    ((g.update id (.link nd)).1).linksFromPort = g.linksFromPort := by
  obtain ⟨ip2, op2, act2⟩ := nd
  have hnew2 : op2 = none := hnew
  subst hnew2
  unfold PWGraph.update
  rw [hobj]
  dsimp only
  repeat first | rfl | split

theorem update_link_fromIdx_diff (g : PWGraph) (id : Nat) (d nd : LinkData) (np : Nat)
    (hobj : alLookup g.objects id = some (.link d))
    (hne : d.outputPort ≠ nd.outputPort)
    (hnew : nd.outputPort = some np) :
    ((g.update id (.link nd)).1).linksFromPort =
      alAdjustSet (linkFromRemoveOld g id d).linksFromPort np (fun s => idSetInsert s id) := by
  obtain ⟨ip2, op2, act2⟩ := nd
  have hnew2 : op2 = some np := hnew
  subst hnew2
  have hne2 : d.outputPort ≠ some np := hne
  unfold PWGraph.update linkFromRemoveOld
  rw [hobj]
  dsimp only
  rw [if_pos hne2]
  repeat first | rfl | split

theorem update_link_toIdx_same (g : PWGraph) (id : Nat) (d nd : LinkData)
    (hobj : alLookup g.objects id = some (.link d))
    (h : d.inputPort = nd.inputPort) :
    ((g.update id (.link nd)).1).linksToPort = g.linksToPort := by
  unfold PWGraph.update
  rw [hobj]
  dsimp only
  rw [if_neg (not_not_intro h)]
  repeat first | rfl | split

theorem update_link_toIdx_newnone (g : PWGraph) (id : Nat) (d nd : LinkData)
    (hobj : alLookup g.objects id = some (.link d))
    (hnew : nd.inputPort = none) :
    ((g.update id (.link nd)).1).linksToPort = g.linksToPort := by
  obtain ⟨ip2, op2, act2⟩ := nd
  have hnew2 : ip2 = none := hnew
  subst hnew2
  unfold PWGraph.update
  rw [hobj]
  dsimp only
  repeat first | rfl | split

theorem update_link_toIdx_diff (g : PWGraph) (id : Nat) (d nd : LinkData) (np : Nat)
    (hobj : alLookup g.objects id = some (.link d))
    (hne : d.inputPort ≠ nd.inputPort)
    (hnew : nd.inputPort = some np) :
    ((g.update id (.link nd)).1).linksToPort =
      alAdjustSet (linkToRemoveOld g id d).linksToPort np (fun s => idSetInsert s id) := by
  obtain ⟨ip2, op2, act2⟩ := nd
  have hnew2 : ip2 = some np := hnew
  subst hnew2
  have hne2 : d.inputPort ≠ some np := hne
  unfold PWGraph.update linkToRemoveOld
  rw [hobj]
  dsimp only
  rw [if_pos hne2]
  repeat first | rfl | split

theorem remove_absent (g : PWGraph) (id : Nat)
    (h : alLookup g.objects id = none) : g.remove id = (g, none) := by
  unfold PWGraph.remove
  rw [h]

theorem remove_objects (g : PWGraph) (id : Nat) (obj : PWObject)
    (hobj : alLookup g.objects id = some obj) :
    ((g.remove id).1).objects = alRemoveKey g.objects id := by
  unfold PWGraph.remove
  rw [hobj]
  dsimp only
  cases obj <;> (dsimp only; repeat first | rfl | split)

theorem remove_sinkWhitelist (g : PWGraph) (id : Nat) (obj : PWObject)
    (hobj : alLookup g.objects id = some obj) :
    ((g.remove id).1).sinkWhitelist = g.sinkWhitelist := by
  unfold PWGraph.remove
  rw [hobj]
  dsimp only
  cases obj <;> (dsimp only; repeat first | rfl | split)

theorem remove_node_sinks_sink (g : PWGraph) (id : Nat) (d : NodeData) (mc : String)
    (hobj : alLookup g.objects id = some (.node d))
    (hmc : d.mediaClass = some mc) (hs : strContains mc "Sink" = true) :
    ((g.remove id).1).sinks = idSetRemove g.sinks id := by
  unfold PWGraph.remove
  rw [hobj]
  dsimp only
  rw [hmc]
  dsimp only
  rw [if_pos hs]

theorem remove_node_sinks_nosink (g : PWGraph) (id : Nat) (d : NodeData) (mc : String)
    (hobj : alLookup g.objects id = some (.node d))
    (hmc : d.mediaClass = some mc) (hs : strContains mc "Sink" = false) :
    ((g.remove id).1).sinks = g.sinks := by
  unfold PWGraph.remove
  rw [hobj]
  dsimp only
  rw [hmc]
  dsimp only
  rw [if_neg (show ¬(strContains mc "Sink" = true) by simp [hs])]

theorem remove_node_sinks_none (g : PWGraph) (id : Nat) (d : NodeData)
    (hobj : alLookup g.objects id = some (.node d))
    (hmc : d.mediaClass = none) :
    ((g.remove id).1).sinks = g.sinks := by
  unfold PWGraph.remove
  rw [hobj]
  dsimp only
  rw [hmc]

theorem remove_port_sinks (g : PWGraph) (id : Nat) (d : PortData)
    (hobj : alLookup g.objects id = some (.port d)) :
    ((g.remove id).1).sinks = g.sinks := by
  unfold PWGraph.remove
  rw [hobj]
  dsimp only
  repeat first | rfl | split

theorem remove_link_sinks (g : PWGraph) (id : Nat) (d : LinkData)
    (hobj : alLookup g.objects id = some (.link d)) :
    ((g.remove id).1).sinks = g.sinks := by
  unfold PWGraph.remove
  rw [hobj]
  dsimp only
  repeat first | rfl | split

theorem remove_node_idx (g : PWGraph) (id : Nat) (d : NodeData)
    (hobj : alLookup g.objects id = some (.node d)) :
    ((g.remove id).1).linksToPort = g.linksToPort ∧
    ((g.remove id).1).linksFromPort = g.linksFromPort ∧
    ((g.remove id).1).nodeInputPorts = g.nodeInputPorts ∧
    ((g.remove id).1).nodeOutputPorts = g.nodeOutputPorts := by
  unfold PWGraph.remove
  rw [hobj]
  dsimp only
  refine ⟨?_, ?_, ?_, ?_⟩ <;> repeat first | rfl | split

theorem remove_port_idx (g : PWGraph) (id : Nat) (d : PortData)
    (hobj : alLookup g.objects id = some (.port d)) :
    ((g.remove id).1).linksToPort = g.linksToPort ∧
    ((g.remove id).1).linksFromPort = g.linksFromPort ∧
    ((g.remove id).1).nodeInputPorts = (portIdxRemoveOld g id d).nodeInputPorts ∧
    ((g.remove id).1).nodeOutputPorts = (portIdxRemoveOld g id d).nodeOutputPorts := by
  unfold PWGraph.remove portIdxRemoveOld
  rw [hobj]
  dsimp only
  refine ⟨?_, ?_, ?_, ?_⟩ <;> repeat first | rfl | split

theorem remove_node_sinks_or (g : PWGraph) (id : Nat) (d : NodeData)
    (hobj : alLookup g.objects id = some (.node d)) :
    ((g.remove id).1).sinks = idSetRemove g.sinks id ∨
      ((g.remove id).1).sinks = g.sinks := by
  cases hmc : d.mediaClass with
  | none => exact Or.inr (remove_node_sinks_none g id d hobj hmc)
  | some mc =>
    cases hs : strContains mc "Sink" with
    | true => exact Or.inl (remove_node_sinks_sink g id d mc hobj hmc hs)
    | false => exact Or.inr (remove_node_sinks_nosink g id d mc hobj hmc hs)

theorem remove_link_idx (g : PWGraph) (id : Nat) (d : LinkData)
    (hobj : alLookup g.objects id = some (.link d)) :
    ((g.remove id).1).nodeInputPorts = g.nodeInputPorts ∧
    ((g.remove id).1).nodeOutputPorts = g.nodeOutputPorts ∧
    ((g.remove id).1).linksFromPort = (linkFromRemoveOld g id d).linksFromPort ∧
    ((g.remove id).1).linksToPort = (linkToRemoveOld g id d).linksToPort := by
  unfold PWGraph.remove linkFromRemoveOld linkToRemoveOld
  rw [hobj]
  dsimp only
  refine ⟨?_, ?_, ?_, ?_⟩ <;> repeat first | rfl | split

theorem c2Inv_insert (g : PWGraph) (id : Nat) (obj : PWObject)
    (hinv : c2Inv g) (hfresh : alLookup g.objects id = none) :
    c2Inv (g.insert id obj) := by
  obtain ⟨hwl, hnd, hiff⟩ := hinv
  have hnot : id ∉ g.sinks := by
    intro hmem
    rcases (hiff id).mp hmem with ⟨d0, hl, _⟩
    rw [hfresh] at hl
    cases hl
  refine ⟨by rw [insert_sinkWhitelist]; exact hwl, ?_, ?_⟩
  · cases obj with
    | node d =>
      cases hmc : d.mediaClass with
      | none =>
        rw [insert_node_sinks_none g id d hmc]
        exact hnd
      | some mc =>
        rw [insert_node_sinks_some g id d mc hmc]
        split
        · exact idSetInsert_nodup hnd id
        · exact hnd
    | port d =>
      rw [insert_port_sinks]
      exact hnd
    | link d =>
      rw [(insert_link_fields g id d).2.1]
      exact hnd
  · intro n
    rw [insert_objects, alInsert_lookup]
    by_cases hn : id = n
    · subst hn
      rw [if_pos rfl]
      cases obj with
      | node d =>
        cases hmc : d.mediaClass with
        | none =>
          rw [insert_node_sinks_none g id d hmc]
          simp [hmc, hnot]
        | some mc =>
          rw [insert_node_sinks_some g id d mc hmc]
          by_cases hs : strContains mc "Sink" = true
          · rw [if_pos (by simp [hwl, hs])]
            simp [mem_idSetInsert, hmc, hs]
          · rw [if_neg (by simp [hwl]; simpa using hs)]
            have hs' : strContains mc "Sink" = false := by
              revert hs
              cases strContains mc "Sink" <;> simp
            simp [hmc, hs', hnot]
      | port d =>
        rw [insert_port_sinks]
        simp [hnot]
      | link d =>
        rw [(insert_link_fields g id d).2.1]
        simp [hnot]
    · rw [if_neg hn]
      have hn2 : ¬ n = id := fun h => hn h.symm
      cases obj with
      | node d =>
        cases hmc : d.mediaClass with
        | none =>
          rw [insert_node_sinks_none g id d hmc]
          exact hiff n
        | some mc =>
          rw [insert_node_sinks_some g id d mc hmc]
          split
          · rw [mem_idSetInsert]
            simp only [hn2, or_false]
            exact hiff n
          · exact hiff n
      | port d =>
        rw [insert_port_sinks]
        exact hiff n
      | link d =>
        rw [(insert_link_fields g id d).2.1]
        exact hiff n

theorem NodeData.update_mediaClass_some (d nd : NodeData) (v : String)
    (h : nd.mediaClass = some v) : (d.update nd).mediaClass = some v := by
  simp [NodeData.update, h]

theorem NodeData.update_mediaClass_none (d nd : NodeData)
    (h : nd.mediaClass = none) : (d.update nd).mediaClass = d.mediaClass := by
  simp [NodeData.update, h]

theorem c2Inv_update (g : PWGraph) (id : Nat) (p : PWObjectData) (hinv : c2Inv g) :
    c2Inv ((g.update id p).1) := by
  obtain ⟨hwl, hnd, hiff⟩ := hinv
  cases hl : alLookup g.objects id with
  | none =>
    rw [update_absent g id p hl]
    exact ⟨hwl, hnd, hiff⟩
  | some obj =>
    have hwlE : g.sinkWhitelist.isEmpty = true := by rw [hwl]; rfl
    cases p with
    | port nd =>
      cases obj with
      | node d =>
        rw [update_mismatch g id (.port nd) (.node d) hl rfl]
        exact ⟨hwl, hnd, hiff⟩
      | link d =>
        rw [update_mismatch g id (.port nd) (.link d) hl rfl]
        exact ⟨hwl, hnd, hiff⟩
      | port d =>
        obtain ⟨hsk, _, _, hw⟩ := update_port_others g id d nd hl
        refine ⟨by rw [hw]; exact hwl, by rw [hsk]; exact hnd, ?_⟩
        intro n
        rw [update_port_objects g id d nd hl, alInsert_lookup, hsk]
        by_cases hn : id = n
        · subst hn
          rw [if_pos rfl]
          have hnotid : id ∉ g.sinks := by
            intro hm
            rcases (hiff id).mp hm with ⟨d0, hd0, _⟩
            rw [hl] at hd0
            cases hd0
          simp [hnotid]
        · rw [if_neg hn]
          exact hiff n
    | link nd =>
      cases obj with
      | node d =>
        rw [update_mismatch g id (.link nd) (.node d) hl rfl]
        exact ⟨hwl, hnd, hiff⟩
      | port d =>
        rw [update_mismatch g id (.link nd) (.port d) hl rfl]
        exact ⟨hwl, hnd, hiff⟩
      | link d =>
        obtain ⟨hsk, _, _, hw⟩ := update_link_others g id d nd hl
        refine ⟨by rw [hw]; exact hwl, by rw [hsk]; exact hnd, ?_⟩
        intro n
        rw [update_link_objects g id d nd hl, alInsert_lookup, hsk]
        by_cases hn : id = n
        · subst hn
          rw [if_pos rfl]
          have hnotid : id ∉ g.sinks := by
            intro hm
            rcases (hiff id).mp hm with ⟨d0, hd0, _⟩
            rw [hl] at hd0
            cases hd0
          simp [hnotid]
        · rw [if_neg hn]
          exact hiff n
    | node nd =>
      cases obj with
      | port d =>
        rw [update_mismatch g id (.node nd) (.port d) hl rfl]
        exact ⟨hwl, hnd, hiff⟩
      | link d =>
        rw [update_mismatch g id (.node nd) (.link d) hl rfl]
        exact ⟨hwl, hnd, hiff⟩
      | node d =>
        have hobjs := update_node_objects g id d nd hl
        have hw := (update_node_idx g id d nd hl).2.2.2.2
        refine ⟨by rw [hw]; exact hwl, ?_, ?_⟩
        · -- Nodup of the new sinks
          cases hnm : nd.mediaClass with
          | none =>
            rw [update_node_sinks_newnone g id d nd hl hnm]
            exact hnd
          | some newMc =>
            by_cases heq : d.mediaClass = nd.mediaClass
            · rw [update_node_sinks_same g id d nd hl heq]
              exact hnd
            · cases hold : d.mediaClass with
              | none =>
                rw [update_node_sinks_chg_oldnone g id d nd newMc hl heq hnm hold]
                split
                · exact idSetInsert_nodup hnd id
                · exact hnd
              | some mc =>
                cases hs0 : strContains mc "Sink" with
                | true =>
                  rw [update_node_sinks_chg_oldsink g id d nd newMc mc hl heq hnm hold hs0]
                  split
                  · exact idSetInsert_nodup (idSetRemove_nodup hnd id) id
                  · exact idSetRemove_nodup hnd id
                | false =>
                  rw [update_node_sinks_chg_oldnosink g id d nd newMc mc hl heq hnm hold hs0]
                  split
                  · exact idSetInsert_nodup hnd id
                  · exact hnd
        · intro n
          rw [hobjs, alInsert_lookup]
          cases hnm : nd.mediaClass with
          | none =>
            have hmu := NodeData.update_mediaClass_none d nd hnm
            rw [update_node_sinks_newnone g id d nd hl hnm]
            by_cases hn : id = n
            · subst hn
              rw [if_pos rfl, hiff id]
              simp [hl, hmu]
            · rw [if_neg hn]
              exact hiff n
          | some newMc =>
            have hmu := NodeData.update_mediaClass_some d nd newMc hnm
            by_cases heq : d.mediaClass = nd.mediaClass
            · rw [update_node_sinks_same g id d nd hl heq]
              by_cases hn : id = n
              · subst hn
                rw [if_pos rfl, hiff id]
                simp [hl, hmu, heq.trans hnm]
              · rw [if_neg hn]
                exact hiff n
            · cases hold : d.mediaClass with
              | none =>
                rw [update_node_sinks_chg_oldnone g id d nd newMc hl heq hnm hold]
                by_cases hn : id = n
                · subst hn
                  rw [if_pos rfl]
                  have hnotid : id ∉ g.sinks := by
                    intro hm
                    rcases (hiff id).mp hm with ⟨d0, hd0, mc0, hmc0, _⟩
                    rw [hl] at hd0
                    injection hd0 with hd0
                    injection hd0 with hd0
                    rw [← hd0, hold] at hmc0
                    cases hmc0
                  by_cases hs : strContains newMc "Sink" = true
                  · rw [if_pos (by simp [hwlE, hs])]
                    simp [mem_idSetInsert, hmu, hs]
                  · rw [if_neg (by simp [hwlE]; simpa using hs)]
                    simp [hnotid, hmu]
                    simpa using hs
                · rw [if_neg hn]
                  have hn2 : ¬ n = id := fun h => hn h.symm
                  split
                  · rw [mem_idSetInsert]
                    simp only [hn2, or_false]
                    exact hiff n
                  · exact hiff n
              | some mc =>
                have hch : ∀ x : Bool, strContains mc "Sink" = x →
                    (id ∈ g.sinks ↔ x = true) := by
                  intro x hx
                  rw [hiff id]
                  simp [hl, hold, hx]
                cases hs0 : strContains mc "Sink" with
                | true =>
                  rw [update_node_sinks_chg_oldsink g id d nd newMc mc hl heq hnm hold hs0]
                  by_cases hn : id = n
                  · subst hn
                    rw [if_pos rfl]
                    by_cases hs : strContains newMc "Sink" = true
                    · rw [if_pos (by simp [hwlE, hs])]
                      simp [mem_idSetInsert, hmu, hs]
                    · rw [if_neg (by simp [hwlE]; simpa using hs)]
                      rw [mem_idSetRemove hnd]
                      simp [hmu]
                      simpa using hs
                  · rw [if_neg hn]
                    have hn2 : ¬ n = id := fun h => hn h.symm
                    split
                    · rw [mem_idSetInsert, mem_idSetRemove hnd]
                      simp only [hn2, or_false, ne_eq, not_false_iff, and_true]
                      exact hiff n
                    · rw [mem_idSetRemove hnd]
                      simp only [hn2, ne_eq, not_false_iff, and_true]
                      exact hiff n
                | false =>
                  rw [update_node_sinks_chg_oldnosink g id d nd newMc mc hl heq hnm hold hs0]
                  by_cases hn : id = n
                  · subst hn
                    rw [if_pos rfl]
                    have hnotid : id ∉ g.sinks := by
                      intro hm
                      exact absurd ((hch false hs0).mp hm) (by simp)
                    by_cases hs : strContains newMc "Sink" = true
                    · rw [if_pos (by simp [hwlE, hs])]
                      simp [mem_idSetInsert, hmu, hs]
                    · rw [if_neg (by simp [hwlE]; simpa using hs)]
                      simp [hnotid, hmu]
                      simpa using hs
                  · rw [if_neg hn]
                    have hn2 : ¬ n = id := fun h => hn h.symm
                    split
                    · rw [mem_idSetInsert]
                      simp only [hn2, or_false]
                      exact hiff n
                    · exact hiff n

theorem c2Inv_remove (g : PWGraph) (id : Nat) (hinv : c2Inv g) :
    c2Inv ((g.remove id).1) := by
  obtain ⟨hwl, hnd, hiff⟩ := hinv
  cases hl : alLookup g.objects id with
  | none =>
    rw [remove_absent g id hl]
    exact ⟨hwl, hnd, hiff⟩
  | some obj =>
    refine ⟨by rw [remove_sinkWhitelist g id obj hl]; exact hwl, ?_, ?_⟩
    · cases obj with
      | node d =>
        rcases remove_node_sinks_or g id d hl with h | h <;> rw [h]
        · exact idSetRemove_nodup hnd id
        · exact hnd
      | port d =>
        rw [remove_port_sinks g id d hl]
        exact hnd
      | link d =>
        rw [remove_link_sinks g id d hl]
        exact hnd
    · intro n
      rw [remove_objects g id obj hl, alRemoveKey_lookup]
      by_cases hn : id = n
      · subst hn
        rw [if_pos rfl]
        cases obj with
        | node d =>
          cases hold : d.mediaClass with
          | none =>
            rw [remove_node_sinks_none g id d hl hold]
            have hnotid : id ∉ g.sinks := by
              intro hm
              rcases (hiff id).mp hm with ⟨d0, hd0, mc0, hmc0, _⟩
              rw [hl] at hd0
              injection hd0 with hd0
              injection hd0 with hd0
              rw [← hd0, hold] at hmc0
              cases hmc0
            simp [hnotid]
          | some mc =>
            cases hs0 : strContains mc "Sink" with
            | true =>
              rw [remove_node_sinks_sink g id d mc hl hold hs0]
              rw [mem_idSetRemove hnd]
              simp
            | false =>
              rw [remove_node_sinks_nosink g id d mc hl hold hs0]
              have hnotid : id ∉ g.sinks := by
                intro hm
                rcases (hiff id).mp hm with ⟨d0, hd0, mc0, hmc0, hc0⟩
                rw [hl] at hd0
                injection hd0 with hd0
                injection hd0 with hd0
                rw [← hd0, hold] at hmc0
                injection hmc0 with hmc0
                rw [← hmc0, hs0] at hc0
                cases hc0
              simp [hnotid]
        | port d =>
          rw [remove_port_sinks g id d hl]
          have hnotid : id ∉ g.sinks := by
            intro hm
            rcases (hiff id).mp hm with ⟨d0, hd0, _⟩
            rw [hl] at hd0
            cases hd0
          simp [hnotid]
        | link d =>
          rw [remove_link_sinks g id d hl]
          have hnotid : id ∉ g.sinks := by
            intro hm
            rcases (hiff id).mp hm with ⟨d0, hd0, _⟩
            rw [hl] at hd0
            cases hd0
          simp [hnotid]
      · rw [if_neg hn]
        have hn2 : ¬ n = id := fun h => hn h.symm
        cases obj with
        | node d =>
          rcases remove_node_sinks_or g id d hl with h | h <;> rw [h]
          · rw [mem_idSetRemove hnd]
            simp only [hn2, ne_eq, not_false_iff, and_true]
            exact hiff n
          · exact hiff n
        | port d =>
          rw [remove_port_sinks g id d hl]
          exact hiff n
        | link d =>
          rw [remove_link_sinks g id d hl]
          exact hiff n

theorem c2Inv_ops (g : PWGraph) (ops : List GraphOp) (hinv : c2Inv g)
    (hfresh : freshOpsB g ops = true) : c2Inv (applyOps g ops) := by
  induction ops generalizing g with
  | nil => exact hinv
  | cons op ops ih =>
    unfold freshOpsB at hfresh
    rw [Bool.and_eq_true] at hfresh
    obtain ⟨h1, h2⟩ := hfresh
    unfold applyOps
    refine ih (applyOp g op) ?_ h2
    cases op with
    | ins id obj =>
      exact c2Inv_insert g id obj hinv (by simpa using h1)
    | upd id p =>
      exact c2Inv_update g id p hinv
    | rem id =>
      exact c2Inv_remove g id hinv

/-- C2: after every sequence of insert/update/remove operations (at fresh
ids for inserts, as the PipeWire registry guarantees) on a graph configured
with an empty sink whitelist, a node id `n` is a member of the sinks set iff
the node's current (merged) `media_class` contains the substring "Sink".
With a non-empty whitelist the claim fails (see the counterexample): the
whitelist is consulted against the data current at insert/media-class-change
time only, never re-evaluated when other fields change. -/
theorem c2_sinks_characterisation (bl : List NodeFilter) (ops : List GraphOp)
    (hfresh : freshOpsB (PWGraph.new [] bl) ops = true) (n : Nat) :
    n ∈ (applyOps (PWGraph.new [] bl) ops).sinks ↔
      ∃ d : NodeData,
        alLookup (applyOps (PWGraph.new [] bl) ops).objects n = some (.node d)
          ∧ ∃ mc : String, d.mediaClass = some mc ∧ strContains mc "Sink" = true := by
  have h0 : c2Inv (PWGraph.new [] bl) := by
    refine ⟨rfl, List.nodup_nil, ?_⟩
    intro m
    simp [PWGraph.new, alLookup]
  exact (c2Inv_ops _ ops h0 hfresh).2.2 n

/-- Witness for C2: a single fresh insert of an `Audio/Sink` node makes the
characterisation concrete at `n = 1`. -/
theorem c2_sinks_characterisation_witness :
    freshOpsB (PWGraph.new [] [])
        [.ins 1 (.node { NodeData.empty with mediaClass := some "Audio/Sink" })] = true
      ∧ (1 ∈ (applyOps (PWGraph.new [] [])
            [.ins 1 (.node { NodeData.empty with mediaClass := some "Audio/Sink" })]).sinks ↔
          ∃ d : NodeData,
            alLookup (applyOps (PWGraph.new [] [])
                [.ins 1 (.node { NodeData.empty with
                    mediaClass := some "Audio/Sink" })]).objects 1 = some (.node d)
              ∧ ∃ mc : String, d.mediaClass = some mc ∧ strContains mc "Sink" = true) :=
  ⟨rfl, c2_sinks_characterisation []
    [.ins 1 (.node { NodeData.empty with mediaClass := some "Audio/Sink" })] rfl 1⟩

/-- Counterexample to C2 as stated: in `c2Graph` (non-empty whitelist that
matches only the display name "foo"), node 1 is in `sinks` although its
current merged data (display name "zzz" after the update) passes neither arm
of the claim's whitelist condition. -/
theorem c2_counterexample :
    1 ∈ c2Graph.sinks
      ∧ alLookup c2Graph.objects 1 = some (.node c2NodeData)
      ∧ (∃ mc, c2NodeData.mediaClass = some mc ∧ strContains mc "Sink" = true)
      ∧ c2Graph.sinkWhitelist.isEmpty = false
      ∧ SinkFilter.matches_any c2Graph.sinkWhitelist c2NodeData = false := by
  refine ⟨?_, rfl, ⟨"Audio/Sink", rfl, rfl⟩, rfl, rfl⟩
  rw [show c2Graph.sinks = [1] from rfl]
  exact List.mem_singleton.mpr rfl

theorem c3Inv_insert (g : PWGraph) (id : Nat) (obj : PWObject)
    (hinv : c3Inv g) (hfresh : alLookup g.objects id = none) :
    c3Inv (g.insert id obj) := by
  obtain ⟨hndTo, hndFrom, hndIn, hndOut, hTo, hFrom, hIn, hOut⟩ := hinv
  have hfTo : ∀ k, id ∉ indexSet g.linksToPort k := by
    intro k hm
    rcases (hTo k id).mp hm with ⟨d0, hd0, _⟩
    rw [hfresh] at hd0
    cases hd0
  have hfFrom : ∀ k, id ∉ indexSet g.linksFromPort k := by
    intro k hm
    rcases (hFrom k id).mp hm with ⟨d0, hd0, _⟩
    rw [hfresh] at hd0
    cases hd0
  have hfIn : ∀ k, id ∉ indexSet g.nodeInputPorts k := by
    intro k hm
    rcases (hIn k id).mp hm with ⟨d0, hd0, _⟩
    rw [hfresh] at hd0
    cases hd0
  have hfOut : ∀ k, id ∉ indexSet g.nodeOutputPorts k := by
    intro k hm
    rcases (hOut k id).mp hm with ⟨d0, hd0, _⟩
    rw [hfresh] at hd0
    cases hd0
  have hobjs : (g.insert id obj).objects = alInsert g.objects id obj :=
    insert_objects g id obj
  cases obj with
  | node d =>
    obtain ⟨eTo, eFrom, eIn, eOut⟩ := insert_node_idx g id d
    rw [c3Inv, eTo, eFrom, eIn, eOut, hobjs]
    refine ⟨hndTo, hndFrom, hndIn, hndOut, ?_, ?_, ?_, ?_⟩ <;> intro k x <;>
      by_cases hx : id = x
    · subst hx
      simp [linksToDeriv, alInsert_lookup, hfTo k]
    · rw [linksToDeriv]
      simp only [alInsert_lookup, if_neg hx]
      exact hTo k x
    · subst hx
      simp [linksFromDeriv, alInsert_lookup, hfFrom k]
    · rw [linksFromDeriv]
      simp only [alInsert_lookup, if_neg hx]
      exact hFrom k x
    · subst hx
      simp [inPortsDeriv, alInsert_lookup, hfIn k]
    · rw [inPortsDeriv]
      simp only [alInsert_lookup, if_neg hx]
      exact hIn k x
    · subst hx
      simp [outPortsDeriv, alInsert_lookup, hfOut k]
    · rw [outPortsDeriv]
      simp only [alInsert_lookup, if_neg hx]
      exact hOut k x
  | port d =>
    obtain ⟨eTo, eFrom, eIn, eOut⟩ := insert_port_idx g id d
    rw [c3Inv, eTo, eFrom, eIn, eOut, hobjs]
    have hInD : ∀ k x, x ∈ indexSet
        (match d.nodeId, d.direction with
         | some n, some .input => alAdjustSet g.nodeInputPorts n (fun s => idSetInsert s id)
         | _, _ => g.nodeInputPorts) k
        ↔ inPortsDeriv (alInsert g.objects id (.port d)) k x := by
      intro k x
      rw [inPortsDeriv]
      simp only [alInsert_lookup]
      rcases hnid : d.nodeId with _ | nn <;> rcases hdir : d.direction with _ | dv
      · by_cases hx : id = x
        · subst hx
          simp [hfIn k, hnid]
        · simp only [if_neg hx]
          exact hIn k x
      · cases dv <;>
          (by_cases hx : id = x
           · subst hx
             simp [hfIn k, hnid]
           · simp only [if_neg hx]
             exact hIn k x)
      · by_cases hx : id = x
        · subst hx
          simp [hfIn k, hdir]
        · simp only [if_neg hx]
          exact hIn k x
      · cases dv with
        | input =>
          by_cases hx : id = x
          · subst hx
            simp [mem_indexSet_adjust_ins, hfIn k, hnid, hdir]
          · simp only [mem_indexSet_adjust_ins, if_neg hx]
            have hx2 : ¬ x = id := fun h => hx h.symm
            simp only [hx2, and_false, or_false]
            exact hIn k x
        | output =>
          by_cases hx : id = x
          · subst hx
            simp [hfIn k, hnid, hdir]
          · simp only [if_neg hx]
            exact hIn k x
        | other raw =>
          by_cases hx : id = x
          · subst hx
            simp [hfIn k, hnid, hdir]
          · simp only [if_neg hx]
            exact hIn k x
    have hOutD : ∀ k x, x ∈ indexSet
        (match d.nodeId, d.direction with
         | some n, some .output => alAdjustSet g.nodeOutputPorts n (fun s => idSetInsert s id)
         | _, _ => g.nodeOutputPorts) k
        ↔ outPortsDeriv (alInsert g.objects id (.port d)) k x := by
      intro k x
      rw [outPortsDeriv]
      simp only [alInsert_lookup]
      rcases hnid : d.nodeId with _ | nn <;> rcases hdir : d.direction with _ | dv
      · by_cases hx : id = x
        · subst hx
          simp [hfOut k, hnid]
        · simp only [if_neg hx]
          exact hOut k x
      · cases dv <;>
          (by_cases hx : id = x
           · subst hx
             simp [hfOut k, hnid]
           · simp only [if_neg hx]
             exact hOut k x)
      · by_cases hx : id = x
        · subst hx
          simp [hfOut k, hdir]
        · simp only [if_neg hx]
          exact hOut k x
      · cases dv with
        | output =>
          by_cases hx : id = x
          · subst hx
            simp [mem_indexSet_adjust_ins, hfOut k, hnid, hdir]
          · simp only [mem_indexSet_adjust_ins, if_neg hx]
            have hx2 : ¬ x = id := fun h => hx h.symm
            simp only [hx2, and_false, or_false]
            exact hOut k x
        | input =>
          by_cases hx : id = x
          · subst hx
            simp [hfOut k, hnid, hdir]
          · simp only [if_neg hx]
            exact hOut k x
        | other raw =>
          by_cases hx : id = x
          · subst hx
            simp [hfOut k, hnid, hdir]
          · simp only [if_neg hx]
            exact hOut k x
    refine ⟨hndTo, hndFrom, ?_, ?_, ?_, ?_, hInD, hOutD⟩
    · rcases hnid : d.nodeId with _ | nn <;> rcases hdir : d.direction with _ | dv <;>
        try exact hndIn
      cases dv <;> first
      | exact hndIn
      | exact indexSet_adjust_ins_nodup hndIn nn id
    · rcases hnid : d.nodeId with _ | nn <;> rcases hdir : d.direction with _ | dv <;>
        try exact hndOut
      cases dv <;> first
      | exact hndOut
      | exact indexSet_adjust_ins_nodup hndOut nn id
    · intro k x
      rw [linksToDeriv]
      simp only [alInsert_lookup]
      by_cases hx : id = x
      · subst hx
        simp [hfTo k]
      · simp only [if_neg hx]
        exact hTo k x
    · intro k x
      rw [linksFromDeriv]
      simp only [alInsert_lookup]
      by_cases hx : id = x
      · subst hx
        simp [hfFrom k]
      · simp only [if_neg hx]
        exact hFrom k x
  | link d =>
    obtain ⟨eTo, eFrom, eIn, eOut⟩ := insert_link_idx g id d
    rw [c3Inv, eTo, eFrom, eIn, eOut, hobjs]
    refine ⟨?_, ?_, hndIn, hndOut, ?_, ?_, ?_, ?_⟩
    · rcases hip : d.inputPort with _ | p
      · exact hndTo
      · exact indexSet_adjust_ins_nodup hndTo p id
    · rcases hop : d.outputPort with _ | p
      · exact hndFrom
      · exact indexSet_adjust_ins_nodup hndFrom p id
    · intro k x
      rw [linksToDeriv]
      simp only [alInsert_lookup]
      rcases hip : d.inputPort with _ | p
      · by_cases hx : id = x
        · subst hx
          simp [hfTo k, hip]
        · simp only [if_neg hx]
          exact hTo k x
      · by_cases hx : id = x
        · subst hx
          simp [mem_indexSet_adjust_ins, hfTo k, hip]
        · simp only [mem_indexSet_adjust_ins, if_neg hx]
          have hx2 : ¬ x = id := fun h => hx h.symm
          simp only [hx2, and_false, or_false]
          exact hTo k x
    · intro k x
      rw [linksFromDeriv]
      simp only [alInsert_lookup]
      rcases hop : d.outputPort with _ | p
      · by_cases hx : id = x
        · subst hx
          simp [hfFrom k, hop]
        · simp only [if_neg hx]
          exact hFrom k x
      · by_cases hx : id = x
        · subst hx
          simp [mem_indexSet_adjust_ins, hfFrom k, hop]
        · simp only [mem_indexSet_adjust_ins, if_neg hx]
          have hx2 : ¬ x = id := fun h => hx h.symm
          simp only [hx2, and_false, or_false]
          exact hFrom k x
    · intro k x
      rw [inPortsDeriv]
      simp only [alInsert_lookup]
      by_cases hx : id = x
      · subst hx
        simp [hfIn k]
      · simp only [if_neg hx]
        exact hIn k x
    · intro k x
      rw [outPortsDeriv]
      simp only [alInsert_lookup]
      by_cases hx : id = x
      · subst hx
        simp [hfOut k]
      · simp only [if_neg hx]
        exact hOut k x

theorem inPortsDeriv_alInsert (objs : List (Nat × PWObject)) (id : Nat) (obj : PWObject)
    (k x : Nat) :
    inPortsDeriv (alInsert objs id obj) k x ↔
      (if id = x
       then ∃ pd : PortData, obj = .port pd ∧ pd.nodeId = some k
         ∧ pd.direction = some PWDirection.input
       else inPortsDeriv objs k x) := by
  by_cases hx : id = x <;> simp [inPortsDeriv, alInsert_lookup, hx]

theorem outPortsDeriv_alInsert (objs : List (Nat × PWObject)) (id : Nat) (obj : PWObject)
    (k x : Nat) :
    outPortsDeriv (alInsert objs id obj) k x ↔
      (if id = x
       then ∃ pd : PortData, obj = .port pd ∧ pd.nodeId = some k
         ∧ pd.direction = some PWDirection.output
       else outPortsDeriv objs k x) := by
  by_cases hx : id = x <;> simp [outPortsDeriv, alInsert_lookup, hx]

theorem linksToDeriv_alInsert (objs : List (Nat × PWObject)) (id : Nat) (obj : PWObject)
    (k x : Nat) :
    linksToDeriv (alInsert objs id obj) k x ↔
      (if id = x
       then ∃ ld : LinkData, obj = .link ld ∧ ld.inputPort = some k
       else linksToDeriv objs k x) := by
  by_cases hx : id = x <;> simp [linksToDeriv, alInsert_lookup, hx]

theorem linksFromDeriv_alInsert (objs : List (Nat × PWObject)) (id : Nat) (obj : PWObject)
    (k x : Nat) :
    linksFromDeriv (alInsert objs id obj) k x ↔
      (if id = x
       then ∃ ld : LinkData, obj = .link ld ∧ ld.outputPort = some k
       else linksFromDeriv objs k x) := by
  by_cases hx : id = x <;> simp [linksFromDeriv, alInsert_lookup, hx]

theorem inPortsDeriv_alRemoveKey (objs : List (Nat × PWObject)) (id : Nat) (k x : Nat) :
    inPortsDeriv (alRemoveKey objs id) k x ↔ (¬ id = x ∧ inPortsDeriv objs k x) := by
  by_cases hx : id = x <;> simp [inPortsDeriv, alRemoveKey_lookup, hx]

theorem outPortsDeriv_alRemoveKey (objs : List (Nat × PWObject)) (id : Nat) (k x : Nat) :
    outPortsDeriv (alRemoveKey objs id) k x ↔ (¬ id = x ∧ outPortsDeriv objs k x) := by
  by_cases hx : id = x <;> simp [outPortsDeriv, alRemoveKey_lookup, hx]

theorem linksToDeriv_alRemoveKey (objs : List (Nat × PWObject)) (id : Nat) (k x : Nat) :
    linksToDeriv (alRemoveKey objs id) k x ↔ (¬ id = x ∧ linksToDeriv objs k x) := by
  by_cases hx : id = x <;> simp [linksToDeriv, alRemoveKey_lookup, hx]

theorem linksFromDeriv_alRemoveKey (objs : List (Nat × PWObject)) (id : Nat) (k x : Nat) :
    linksFromDeriv (alRemoveKey objs id) k x ↔ (¬ id = x ∧ linksFromDeriv objs k x) := by
  by_cases hx : id = x <;> simp [linksFromDeriv, alRemoveKey_lookup, hx]

theorem inPortsDeriv_lookup_port {g : PWGraph} {id : Nat} {d : PortData}
    (hl : alLookup g.objects id = some (.port d)) (k : Nat) :
    inPortsDeriv g.objects k id ↔ (d.nodeId = some k ∧ d.direction = some PWDirection.input) := by
  simp [inPortsDeriv, hl]

theorem outPortsDeriv_lookup_port {g : PWGraph} {id : Nat} {d : PortData}
    (hl : alLookup g.objects id = some (.port d)) (k : Nat) :
    outPortsDeriv g.objects k id ↔ (d.nodeId = some k ∧ d.direction = some PWDirection.output) := by
  simp [outPortsDeriv, hl]

theorem linksToDeriv_lookup_link {g : PWGraph} {id : Nat} {d : LinkData}
    (hl : alLookup g.objects id = some (.link d)) (k : Nat) :
    linksToDeriv g.objects k id ↔ d.inputPort = some k := by
  simp [linksToDeriv, hl]

theorem linksFromDeriv_lookup_link {g : PWGraph} {id : Nat} {d : LinkData}
    (hl : alLookup g.objects id = some (.link d)) (k : Nat) :
    linksFromDeriv g.objects k id ↔ d.outputPort = some k := by
  simp [linksFromDeriv, hl]

theorem PortData.update_nodeId_some (d nd : PortData) (v : Nat)
    (h : nd.nodeId = some v) : (d.update nd).nodeId = some v := by
  simp [PortData.update, h]

theorem PortData.update_nodeId_none (d nd : PortData)
    (h : nd.nodeId = none) : (d.update nd).nodeId = d.nodeId := by
  simp [PortData.update, h]

theorem PortData.update_direction_some (d nd : PortData) (v : PWDirection)
    (h : nd.direction = some v) : (d.update nd).direction = some v := by
  simp [PortData.update, h]

theorem PortData.update_direction_none (d nd : PortData)
    (h : nd.direction = none) : (d.update nd).direction = d.direction := by
  simp [PortData.update, h]

theorem LinkData.update_inputPort_some (d nd : LinkData) (v : Nat)
    (h : nd.inputPort = some v) : (d.update nd).inputPort = some v := by
  simp [LinkData.update, h]

theorem LinkData.update_inputPort_none (d nd : LinkData)
    (h : nd.inputPort = none) : (d.update nd).inputPort = d.inputPort := by
  simp [LinkData.update, h]

theorem LinkData.update_outputPort_some (d nd : LinkData) (v : Nat)
    (h : nd.outputPort = some v) : (d.update nd).outputPort = some v := by
  simp [LinkData.update, h]

theorem LinkData.update_outputPort_none (d nd : LinkData)
    (h : nd.outputPort = none) : (d.update nd).outputPort = d.outputPort := by
  simp [LinkData.update, h]

theorem portIdxRemoveOld_nodup_in (g : PWGraph) (id : Nat) (d : PortData)
    (hndIn : ∀ k, (indexSet g.nodeInputPorts k).Nodup) :
    ∀ k, (indexSet (portIdxRemoveOld g id d).nodeInputPorts k).Nodup := by
  intro k
  rcases hdn : d.nodeId with _ | onn
  · rw [portIdxRemoveOld_noid g id d hdn]
    exact hndIn k
  · rcases hdd : d.direction with _ | odv
    · rw [portIdxRemoveOld_nodir g id d hdd]
      exact hndIn k
    · cases odv with
      | input =>
        rw [portIdxRemoveOld_input g id d onn hdn hdd]
        exact indexSet_adjust_rem_nodup hndIn onn id k
      | output =>
        rw [portIdxRemoveOld_output g id d onn hdn hdd]
        exact hndIn k
      | other raw =>
        rw [portIdxRemoveOld_other g id d onn raw hdn hdd]
        exact hndIn k

theorem portIdxRemoveOld_nodup_out (g : PWGraph) (id : Nat) (d : PortData)
    (hndOut : ∀ k, (indexSet g.nodeOutputPorts k).Nodup) :
    ∀ k, (indexSet (portIdxRemoveOld g id d).nodeOutputPorts k).Nodup := by
  intro k
  rcases hdn : d.nodeId with _ | onn
  · rw [portIdxRemoveOld_noid g id d hdn]
    exact hndOut k
  · rcases hdd : d.direction with _ | odv
    · rw [portIdxRemoveOld_nodir g id d hdd]
      exact hndOut k
    · cases odv with
      | input =>
        rw [portIdxRemoveOld_input g id d onn hdn hdd]
        exact hndOut k
      | output =>
        rw [portIdxRemoveOld_output g id d onn hdn hdd]
        exact indexSet_adjust_rem_nodup hndOut onn id k
      | other raw =>
        rw [portIdxRemoveOld_other g id d onn raw hdn hdd]
        exact hndOut k

theorem portIdxRemoveOld_mem_in (g : PWGraph) (id : Nat) (d : PortData)
    (hndIn : ∀ k, (indexSet g.nodeInputPorts k).Nodup) (k x : Nat) :
    x ∈ indexSet (portIdxRemoveOld g id d).nodeInputPorts k ↔
      (x ∈ indexSet g.nodeInputPorts k
        ∧ ¬(x = id ∧ d.nodeId = some k ∧ d.direction = some PWDirection.input)) := by
  rcases hdn : d.nodeId with _ | onn
  · rw [portIdxRemoveOld_noid g id d hdn]
    simp [hdn]
  · rcases hdd : d.direction with _ | odv
    · rw [portIdxRemoveOld_nodir g id d hdd]
      simp [hdd]
    · cases odv with
      | input =>
        rw [portIdxRemoveOld_input g id d onn hdn hdd]
        dsimp only
        rw [mem_indexSet_adjust_rem _ _ _ _ _ (hndIn onn)]
        simp only [hdn, hdd, Option.some_inj, and_true]
        constructor
        · rintro ⟨hm, hno⟩
          exact ⟨hm, fun hc => hno ⟨hc.2, hc.1⟩⟩
        · rintro ⟨hm, hno⟩
          exact ⟨hm, fun hc => hno ⟨hc.2, hc.1⟩⟩
      | output =>
        rw [portIdxRemoveOld_output g id d onn hdn hdd]
        simp [hdn, hdd]
      | other raw =>
        rw [portIdxRemoveOld_other g id d onn raw hdn hdd]
        simp [hdn, hdd]

theorem portIdxRemoveOld_mem_out (g : PWGraph) (id : Nat) (d : PortData)
    (hndOut : ∀ k, (indexSet g.nodeOutputPorts k).Nodup) (k x : Nat) :
    x ∈ indexSet (portIdxRemoveOld g id d).nodeOutputPorts k ↔
      (x ∈ indexSet g.nodeOutputPorts k
        ∧ ¬(x = id ∧ d.nodeId = some k ∧ d.direction = some PWDirection.output)) := by
  rcases hdn : d.nodeId with _ | onn
  · rw [portIdxRemoveOld_noid g id d hdn]
    simp [hdn]
  · rcases hdd : d.direction with _ | odv
    · rw [portIdxRemoveOld_nodir g id d hdd]
      simp [hdd]
    · cases odv with
      | output =>
        rw [portIdxRemoveOld_output g id d onn hdn hdd]
        dsimp only
        rw [mem_indexSet_adjust_rem _ _ _ _ _ (hndOut onn)]
        simp only [hdn, hdd, Option.some_inj, and_true]
        constructor
        · rintro ⟨hm, hno⟩
          exact ⟨hm, fun hc => hno ⟨hc.2, hc.1⟩⟩
        · rintro ⟨hm, hno⟩
          exact ⟨hm, fun hc => hno ⟨hc.2, hc.1⟩⟩
      | input =>
        rw [portIdxRemoveOld_input g id d onn hdn hdd]
        simp [hdn, hdd]
      | other raw =>
        rw [portIdxRemoveOld_other g id d onn raw hdn hdd]
        simp [hdn, hdd]

theorem linkToRemoveOld_nodup (g : PWGraph) (id : Nat) (d : LinkData)
    (hndTo : ∀ k, (indexSet g.linksToPort k).Nodup) :
    ∀ k, (indexSet (linkToRemoveOld g id d).linksToPort k).Nodup := by
  intro k
  rcases hip : d.inputPort with _ | ip
  · rw [linkToRemoveOld_none g id d hip]
    exact hndTo k
  · rw [linkToRemoveOld_some g id d ip hip]
    exact indexSet_adjust_rem_nodup hndTo ip id k

theorem linkFromRemoveOld_nodup (g : PWGraph) (id : Nat) (d : LinkData)
    (hndFrom : ∀ k, (indexSet g.linksFromPort k).Nodup) :
    ∀ k, (indexSet (linkFromRemoveOld g id d).linksFromPort k).Nodup := by
  intro k
  rcases hop : d.outputPort with _ | op
  · rw [linkFromRemoveOld_none g id d hop]
    exact hndFrom k
  · rw [linkFromRemoveOld_some g id d op hop]
    exact indexSet_adjust_rem_nodup hndFrom op id k

theorem linkToRemoveOld_mem (g : PWGraph) (id : Nat) (d : LinkData)
    (hndTo : ∀ k, (indexSet g.linksToPort k).Nodup) (k x : Nat) :
    x ∈ indexSet (linkToRemoveOld g id d).linksToPort k ↔
      (x ∈ indexSet g.linksToPort k ∧ ¬(x = id ∧ d.inputPort = some k)) := by
  rcases hip : d.inputPort with _ | ip
  · rw [linkToRemoveOld_none g id d hip]
    simp [hip]
  · rw [linkToRemoveOld_some g id d ip hip]
    dsimp only
    rw [mem_indexSet_adjust_rem _ _ _ _ _ (hndTo ip)]
    simp only [hip, Option.some_inj]
    constructor
    · rintro ⟨hm, hno⟩
      exact ⟨hm, fun hc => hno ⟨hc.2, hc.1⟩⟩
    · rintro ⟨hm, hno⟩
      exact ⟨hm, fun hc => hno ⟨hc.2, hc.1⟩⟩

theorem linkFromRemoveOld_mem (g : PWGraph) (id : Nat) (d : LinkData)
    (hndFrom : ∀ k, (indexSet g.linksFromPort k).Nodup) (k x : Nat) :
    x ∈ indexSet (linkFromRemoveOld g id d).linksFromPort k ↔
      (x ∈ indexSet g.linksFromPort k ∧ ¬(x = id ∧ d.outputPort = some k)) := by
  rcases hop : d.outputPort with _ | op
  · rw [linkFromRemoveOld_none g id d hop]
    simp [hop]
  · rw [linkFromRemoveOld_some g id d op hop]
    dsimp only
    rw [mem_indexSet_adjust_rem _ _ _ _ _ (hndFrom op)]
    simp only [hop, Option.some_inj]
    constructor
    · rintro ⟨hm, hno⟩
      exact ⟨hm, fun hc => hno ⟨hc.2, hc.1⟩⟩
    · rintro ⟨hm, hno⟩
      exact ⟨hm, fun hc => hno ⟨hc.2, hc.1⟩⟩

theorem c3Inv_update_node (g : PWGraph) (id : Nat) (d nd : NodeData)
    (hinv : c3Inv g) (hl : alLookup g.objects id = some (.node d)) :
    c3Inv ((g.update id (.node nd)).1) := by
  obtain ⟨hndTo, hndFrom, hndIn, hndOut, hTo, hFrom, hIn, hOut⟩ := hinv
  obtain ⟨eTo, eFrom, eIn, eOut, _⟩ := update_node_idx g id d nd hl
  rw [c3Inv, eTo, eFrom, eIn, eOut, update_node_objects g id d nd hl]
  refine ⟨hndTo, hndFrom, hndIn, hndOut, ?_, ?_, ?_, ?_⟩ <;> intro k x
  · rw [linksToDeriv_alInsert]
    by_cases hx : id = x
    · subst hx
      rw [if_pos rfl]
      have hnm : id ∉ indexSet g.linksToPort k := by
        intro hm
        rcases (hTo k id).mp hm with ⟨d0, hd0, _⟩
        rw [hl] at hd0
        cases hd0
      simp [hnm]
    · rw [if_neg hx]
      exact hTo k x
  · rw [linksFromDeriv_alInsert]
    by_cases hx : id = x
    · subst hx
      rw [if_pos rfl]
      have hnm : id ∉ indexSet g.linksFromPort k := by
        intro hm
        rcases (hFrom k id).mp hm with ⟨d0, hd0, _⟩
        rw [hl] at hd0
        cases hd0
      simp [hnm]
    · rw [if_neg hx]
      exact hFrom k x
  · rw [inPortsDeriv_alInsert]
    by_cases hx : id = x
    · subst hx
      rw [if_pos rfl]
      have hnm : id ∉ indexSet g.nodeInputPorts k := by
        intro hm
        rcases (hIn k id).mp hm with ⟨d0, hd0, _⟩
        rw [hl] at hd0
        cases hd0
      simp [hnm]
    · rw [if_neg hx]
      exact hIn k x
  · rw [outPortsDeriv_alInsert]
    by_cases hx : id = x
    · subst hx
      rw [if_pos rfl]
      have hnm : id ∉ indexSet g.nodeOutputPorts k := by
        intro hm
        rcases (hOut k id).mp hm with ⟨d0, hd0, _⟩
        rw [hl] at hd0
        cases hd0
      simp [hnm]
    · rw [if_neg hx]
      exact hOut k x

theorem c3Inv_update_port (g : PWGraph) (id : Nat) (d nd : PortData)
    (hinv : c3Inv g) (hl : alLookup g.objects id = some (.port d))
    (hok : nd.nodeId.isSome = nd.direction.isSome) :
    c3Inv ((g.update id (.port nd)).1) := by
  obtain ⟨hndTo, hndFrom, hndIn, hndOut, hTo, hFrom, hIn, hOut⟩ := hinv
  obtain ⟨_, eTo, eFrom, _⟩ := update_port_others g id d nd hl
  have hobjs := update_port_objects g id d nd hl
  have hToNew : ∀ k x, x ∈ indexSet g.linksToPort k ↔
      linksToDeriv (alInsert g.objects id (.port (d.update nd))) k x := by
    intro k x
    rw [linksToDeriv_alInsert]
    by_cases hx : id = x
    · subst hx
      rw [if_pos rfl]
      have hnm : id ∉ indexSet g.linksToPort k := by
        intro hm
        rcases (hTo k id).mp hm with ⟨d0, hd0, _⟩
        rw [hl] at hd0
        cases hd0
      simp [hnm]
    · rw [if_neg hx]
      exact hTo k x
  have hFromNew : ∀ k x, x ∈ indexSet g.linksFromPort k ↔
      linksFromDeriv (alInsert g.objects id (.port (d.update nd))) k x := by
    intro k x
    rw [linksFromDeriv_alInsert]
    by_cases hx : id = x
    · subst hx
      rw [if_pos rfl]
      have hnm : id ∉ indexSet g.linksFromPort k := by
        intro hm
        rcases (hFrom k id).mp hm with ⟨d0, hd0, _⟩
        rw [hl] at hd0
        cases hd0
      simp [hnm]
    · rw [if_neg hx]
      exact hFrom k x
  rcases hnn : nd.nodeId with _ | nn <;> rcases hdir : nd.direction with _ | dv
  · obtain ⟨eIn, eOut⟩ := update_port_idx_none g id d nd hl hnn hdir
    rw [c3Inv, eTo, eFrom, eIn, eOut, hobjs]
    have hmn := PortData.update_nodeId_none d nd hnn
    have hmd := PortData.update_direction_none d nd hdir
    refine ⟨hndTo, hndFrom, hndIn, hndOut, hToNew, hFromNew, ?_, ?_⟩ <;> intro k x
    · rw [inPortsDeriv_alInsert]
      by_cases hx : id = x
      · subst hx
        rw [if_pos rfl, hIn k id, inPortsDeriv_lookup_port hl k]
        simp [hmn, hmd]
      · rw [if_neg hx]
        exact hIn k x
    · rw [outPortsDeriv_alInsert]
      by_cases hx : id = x
      · subst hx
        rw [if_pos rfl, hOut k id, outPortsDeriv_lookup_port hl k]
        simp [hmn, hmd]
      · rw [if_neg hx]
        exact hOut k x
  · rw [hnn, hdir] at hok
    cases hok
  · rw [hnn, hdir] at hok
    cases hok
  · by_cases hsame : d.nodeId = some nn ∧ d.direction = some dv
    · obtain ⟨eIn, eOut⟩ := update_port_idx_same g id d nd hl
        (hsame.1.trans hnn.symm) (hsame.2.trans hdir.symm)
      rw [c3Inv, eTo, eFrom, eIn, eOut, hobjs]
      have hmn := PortData.update_nodeId_some d nd nn hnn
      have hmd := PortData.update_direction_some d nd dv hdir
      refine ⟨hndTo, hndFrom, hndIn, hndOut, hToNew, hFromNew, ?_, ?_⟩ <;> intro k x
      · rw [inPortsDeriv_alInsert]
        by_cases hx : id = x
        · subst hx
          rw [if_pos rfl, hIn k id, inPortsDeriv_lookup_port hl k]
          simp [hmn, hmd, hsame.1, hsame.2]
        · rw [if_neg hx]
          exact hIn k x
      · rw [outPortsDeriv_alInsert]
        by_cases hx : id = x
        · subst hx
          rw [if_pos rfl, hOut k id, outPortsDeriv_lookup_port hl k]
          simp [hmn, hmd, hsame.1, hsame.2]
        · rw [if_neg hx]
          exact hOut k x
    · have hdiff : d.nodeId ≠ nd.nodeId ∨ d.direction ≠ nd.direction := by
        by_cases h1 : d.nodeId = some nn
        · right
          rw [hdir]
          intro hcc
          exact hsame ⟨h1, hcc⟩
        · left
          rw [hnn]
          exact h1
      obtain ⟨eIn, eOut⟩ := update_port_idx_diff g id d nd nn dv hl hdiff hnn hdir
      rw [c3Inv, eTo, eFrom, eIn, eOut, hobjs]
      have hmn := PortData.update_nodeId_some d nd nn hnn
      have hmd := PortData.update_direction_some d nd dv hdir
      have hidm : ∀ k, id ∈ indexSet g.nodeInputPorts k ↔
          (d.nodeId = some k ∧ d.direction = some PWDirection.input) :=
        fun k => (hIn k id).trans (inPortsDeriv_lookup_port hl k)
      have hidmO : ∀ k, id ∈ indexSet g.nodeOutputPorts k ↔
          (d.nodeId = some k ∧ d.direction = some PWDirection.output) :=
        fun k => (hOut k id).trans (outPortsDeriv_lookup_port hl k)
      refine ⟨hndTo, hndFrom, ?_, ?_, hToNew, hFromNew, ?_, ?_⟩
      · cases dv with
        | input =>
          exact fun k =>
            indexSet_adjust_ins_nodup (portIdxRemoveOld_nodup_in g id d hndIn) nn id k
        | output => exact portIdxRemoveOld_nodup_in g id d hndIn
        | other raw => exact portIdxRemoveOld_nodup_in g id d hndIn
      · cases dv with
        | input => exact portIdxRemoveOld_nodup_out g id d hndOut
        | output =>
          exact fun k =>
            indexSet_adjust_ins_nodup (portIdxRemoveOld_nodup_out g id d hndOut) nn id k
        | other raw => exact portIdxRemoveOld_nodup_out g id d hndOut
      · intro k x
        cases dv with
        | input =>
          dsimp only
          rw [mem_indexSet_adjust_ins, portIdxRemoveOld_mem_in g id d hndIn,
            inPortsDeriv_alInsert]
          by_cases hx : id = x
          · subst hx
            rw [if_pos rfl]
            simp [hidm k, hmn, hmd]
          · rw [if_neg hx]
            have hx2 : ¬ x = id := fun h => hx h.symm
            simpa [hx2] using hIn k x
        | output =>
          dsimp only
          rw [portIdxRemoveOld_mem_in g id d hndIn, inPortsDeriv_alInsert]
          by_cases hx : id = x
          · subst hx
            rw [if_pos rfl]
            simp [hidm k, hmn, hmd]
          · rw [if_neg hx]
            have hx2 : ¬ x = id := fun h => hx h.symm
            simpa [hx2] using hIn k x
        | other raw =>
          dsimp only
          rw [portIdxRemoveOld_mem_in g id d hndIn, inPortsDeriv_alInsert]
          by_cases hx : id = x
          · subst hx
            rw [if_pos rfl]
            simp [hidm k, hmn, hmd]
          · rw [if_neg hx]
            have hx2 : ¬ x = id := fun h => hx h.symm
            simpa [hx2] using hIn k x
      · intro k x
        cases dv with
        | input =>
          dsimp only
          rw [portIdxRemoveOld_mem_out g id d hndOut, outPortsDeriv_alInsert]
          by_cases hx : id = x
          · subst hx
            rw [if_pos rfl]
            simp [hidmO k, hmn, hmd]
          · rw [if_neg hx]
            have hx2 : ¬ x = id := fun h => hx h.symm
            simpa [hx2] using hOut k x
        | output =>
          dsimp only
          rw [mem_indexSet_adjust_ins, portIdxRemoveOld_mem_out g id d hndOut,
            outPortsDeriv_alInsert]
          by_cases hx : id = x
          · subst hx
            rw [if_pos rfl]
            simp [hidmO k, hmn, hmd]
          · rw [if_neg hx]
            have hx2 : ¬ x = id := fun h => hx h.symm
            simpa [hx2] using hOut k x
        | other raw =>
          dsimp only
          rw [portIdxRemoveOld_mem_out g id d hndOut, outPortsDeriv_alInsert]
          by_cases hx : id = x
          · subst hx
            rw [if_pos rfl]
            simp [hidmO k, hmn, hmd]
          · rw [if_neg hx]
            have hx2 : ¬ x = id := fun h => hx h.symm
            simpa [hx2] using hOut k x

theorem c3Inv_update_link (g : PWGraph) (id : Nat) (d nd : LinkData)
    (hinv : c3Inv g) (hl : alLookup g.objects id = some (.link d)) :
    c3Inv ((g.update id (.link nd)).1) := by
  obtain ⟨hndTo, hndFrom, hndIn, hndOut, hTo, hFrom, hIn, hOut⟩ := hinv
  obtain ⟨_, eIn, eOut, _⟩ := update_link_others g id d nd hl
  have hobjs := update_link_objects g id d nd hl
  have hInNew : ∀ k x, x ∈ indexSet g.nodeInputPorts k ↔
      inPortsDeriv (alInsert g.objects id (.link (d.update nd))) k x := by
    intro k x
    rw [inPortsDeriv_alInsert]
    by_cases hx : id = x
    · subst hx
      rw [if_pos rfl]
      have hnm : id ∉ indexSet g.nodeInputPorts k := by
        intro hm
        rcases (hIn k id).mp hm with ⟨d0, hd0, _⟩
        rw [hl] at hd0
        cases hd0
      simp [hnm]
    · rw [if_neg hx]
      exact hIn k x
  have hOutNew : ∀ k x, x ∈ indexSet g.nodeOutputPorts k ↔
      outPortsDeriv (alInsert g.objects id (.link (d.update nd))) k x := by
    intro k x
    rw [outPortsDeriv_alInsert]
    by_cases hx : id = x
    · subst hx
      rw [if_pos rfl]
      have hnm : id ∉ indexSet g.nodeOutputPorts k := by
        intro hm
        rcases (hOut k id).mp hm with ⟨d0, hd0, _⟩
        rw [hl] at hd0
        cases hd0
      simp [hnm]
    · rw [if_neg hx]
      exact hOut k x
  have hTo2 : ∀ k x, x ∈ indexSet ((g.update id (.link nd)).1).linksToPort k ↔
      linksToDeriv (alInsert g.objects id (.link (d.update nd))) k x := by
    rcases hip : nd.inputPort with _ | np
    · have e := update_link_toIdx_newnone g id d nd hl hip
      have hmi := LinkData.update_inputPort_none d nd hip
      intro k x
      rw [e, linksToDeriv_alInsert]
      by_cases hx : id = x
      · subst hx
        rw [if_pos rfl, hTo k id, linksToDeriv_lookup_link hl k]
        simp [hmi]
      · rw [if_neg hx]
        exact hTo k x
    · by_cases hsame : d.inputPort = some np
      · have e := update_link_toIdx_same g id d nd hl (hsame.trans hip.symm)
        have hmi := LinkData.update_inputPort_some d nd np hip
        intro k x
        rw [e, linksToDeriv_alInsert]
        by_cases hx : id = x
        · subst hx
          rw [if_pos rfl, hTo k id, linksToDeriv_lookup_link hl k]
          simp [hmi, hsame]
        · rw [if_neg hx]
          exact hTo k x
      · have hne : d.inputPort ≠ nd.inputPort := by
          intro hcc
          rw [hip] at hcc
          exact hsame hcc
        have e := update_link_toIdx_diff g id d nd np hl hne hip
        have hmi := LinkData.update_inputPort_some d nd np hip
        have hidm : ∀ k, id ∈ indexSet g.linksToPort k ↔ d.inputPort = some k :=
          fun k => (hTo k id).trans (linksToDeriv_lookup_link hl k)
        intro k x
        rw [e, mem_indexSet_adjust_ins, linkToRemoveOld_mem g id d hndTo,
          linksToDeriv_alInsert]
        by_cases hx : id = x
        · subst hx
          rw [if_pos rfl]
          simp [hidm k, hmi]
        · rw [if_neg hx]
          have hx2 : ¬ x = id := fun h => hx h.symm
          simpa [hx2] using hTo k x
  have hFrom2 : ∀ k x, x ∈ indexSet ((g.update id (.link nd)).1).linksFromPort k ↔
      linksFromDeriv (alInsert g.objects id (.link (d.update nd))) k x := by
    rcases hop : nd.outputPort with _ | np
    · have e := update_link_fromIdx_newnone g id d nd hl hop
      have hmo := LinkData.update_outputPort_none d nd hop
      intro k x
      rw [e, linksFromDeriv_alInsert]
      by_cases hx : id = x
      · subst hx
        rw [if_pos rfl, hFrom k id, linksFromDeriv_lookup_link hl k]
        simp [hmo]
      · rw [if_neg hx]
        exact hFrom k x
    · by_cases hsame : d.outputPort = some np
      · have e := update_link_fromIdx_same g id d nd hl (hsame.trans hop.symm)
        have hmo := LinkData.update_outputPort_some d nd np hop
        intro k x
        rw [e, linksFromDeriv_alInsert]
        by_cases hx : id = x
        · subst hx
          rw [if_pos rfl, hFrom k id, linksFromDeriv_lookup_link hl k]
          simp [hmo, hsame]
        · rw [if_neg hx]
          exact hFrom k x
      · have hne : d.outputPort ≠ nd.outputPort := by
          intro hcc
          rw [hop] at hcc
          exact hsame hcc
        have e := update_link_fromIdx_diff g id d nd np hl hne hop
        have hmo := LinkData.update_outputPort_some d nd np hop
        have hidm : ∀ k, id ∈ indexSet g.linksFromPort k ↔ d.outputPort = some k :=
          fun k => (hFrom k id).trans (linksFromDeriv_lookup_link hl k)
        intro k x
        rw [e, mem_indexSet_adjust_ins, linkFromRemoveOld_mem g id d hndFrom,
          linksFromDeriv_alInsert]
        by_cases hx : id = x
        · subst hx
          rw [if_pos rfl]
          simp [hidm k, hmo]
        · rw [if_neg hx]
          have hx2 : ¬ x = id := fun h => hx h.symm
          simpa [hx2] using hFrom k x
  have hndTo2 : ∀ k, (indexSet ((g.update id (.link nd)).1).linksToPort k).Nodup := by
    intro k
    rcases hip : nd.inputPort with _ | np
    · rw [update_link_toIdx_newnone g id d nd hl hip]
      exact hndTo k
    · by_cases hsame : d.inputPort = some np
      · rw [update_link_toIdx_same g id d nd hl (hsame.trans hip.symm)]
        exact hndTo k
      · have hne : d.inputPort ≠ nd.inputPort := by
          intro hcc
          rw [hip] at hcc
          exact hsame hcc
        rw [update_link_toIdx_diff g id d nd np hl hne hip]
        exact indexSet_adjust_ins_nodup (linkToRemoveOld_nodup g id d hndTo) np id k
  have hndFrom2 : ∀ k, (indexSet ((g.update id (.link nd)).1).linksFromPort k).Nodup := by
    intro k
    rcases hop : nd.outputPort with _ | np
    · rw [update_link_fromIdx_newnone g id d nd hl hop]
      exact hndFrom k
    · by_cases hsame : d.outputPort = some np
      · rw [update_link_fromIdx_same g id d nd hl (hsame.trans hop.symm)]
        exact hndFrom k
      · have hne : d.outputPort ≠ nd.outputPort := by
          intro hcc
          rw [hop] at hcc
          exact hsame hcc
        rw [update_link_fromIdx_diff g id d nd np hl hne hop]
        exact indexSet_adjust_ins_nodup (linkFromRemoveOld_nodup g id d hndFrom) np id k
  rw [c3Inv, eIn, eOut, hobjs]
  exact ⟨hndTo2, hndFrom2, hndIn, hndOut, hTo2, hFrom2, hInNew, hOutNew⟩

theorem c3Inv_remove (g : PWGraph) (id : Nat) (hinv : c3Inv g) :
    c3Inv ((g.remove id).1) := by
  obtain ⟨hndTo, hndFrom, hndIn, hndOut, hTo, hFrom, hIn, hOut⟩ := hinv
  cases hl : alLookup g.objects id with
  | none =>
    rw [remove_absent g id hl]
    exact ⟨hndTo, hndFrom, hndIn, hndOut, hTo, hFrom, hIn, hOut⟩
  | some obj =>
    have hobjs := remove_objects g id obj hl
    cases obj with
    | node d =>
      obtain ⟨eTo, eFrom, eIn, eOut⟩ := remove_node_idx g id d hl
      rw [c3Inv, eTo, eFrom, eIn, eOut, hobjs]
      refine ⟨hndTo, hndFrom, hndIn, hndOut, ?_, ?_, ?_, ?_⟩ <;> intro k x
      · rw [linksToDeriv_alRemoveKey]
        by_cases hx : id = x
        · subst hx
          have hnm : id ∉ indexSet g.linksToPort k := by
            intro hm
            rcases (hTo k id).mp hm with ⟨d0, hd0, _⟩
            rw [hl] at hd0
            cases hd0
          simp [hnm]
        · simpa [hx] using hTo k x
      · rw [linksFromDeriv_alRemoveKey]
        by_cases hx : id = x
        · subst hx
          have hnm : id ∉ indexSet g.linksFromPort k := by
            intro hm
            rcases (hFrom k id).mp hm with ⟨d0, hd0, _⟩
            rw [hl] at hd0
            cases hd0
          simp [hnm]
        · simpa [hx] using hFrom k x
      · rw [inPortsDeriv_alRemoveKey]
        by_cases hx : id = x
        · subst hx
          have hnm : id ∉ indexSet g.nodeInputPorts k := by
            intro hm
            rcases (hIn k id).mp hm with ⟨d0, hd0, _⟩
            rw [hl] at hd0
            cases hd0
          simp [hnm]
        · simpa [hx] using hIn k x
      · rw [outPortsDeriv_alRemoveKey]
        by_cases hx : id = x
        · subst hx
          have hnm : id ∉ indexSet g.nodeOutputPorts k := by
            intro hm
            rcases (hOut k id).mp hm with ⟨d0, hd0, _⟩
            rw [hl] at hd0
            cases hd0
          simp [hnm]
        · simpa [hx] using hOut k x
    | port d =>
      obtain ⟨eTo, eFrom, eIn, eOut⟩ := remove_port_idx g id d hl
      rw [c3Inv, eTo, eFrom, eIn, eOut, hobjs]
      have hidm : ∀ k, id ∈ indexSet g.nodeInputPorts k ↔
          (d.nodeId = some k ∧ d.direction = some PWDirection.input) :=
        fun k => (hIn k id).trans (inPortsDeriv_lookup_port hl k)
      have hidmO : ∀ k, id ∈ indexSet g.nodeOutputPorts k ↔
          (d.nodeId = some k ∧ d.direction = some PWDirection.output) :=
        fun k => (hOut k id).trans (outPortsDeriv_lookup_port hl k)
      refine ⟨hndTo, hndFrom, portIdxRemoveOld_nodup_in g id d hndIn,
        portIdxRemoveOld_nodup_out g id d hndOut, ?_, ?_, ?_, ?_⟩ <;> intro k x
      · rw [linksToDeriv_alRemoveKey]
        by_cases hx : id = x
        · subst hx
          have hnm : id ∉ indexSet g.linksToPort k := by
            intro hm
            rcases (hTo k id).mp hm with ⟨d0, hd0, _⟩
            rw [hl] at hd0
            cases hd0
          simp [hnm]
        · simpa [hx] using hTo k x
      · rw [linksFromDeriv_alRemoveKey]
        by_cases hx : id = x
        · subst hx
          have hnm : id ∉ indexSet g.linksFromPort k := by
            intro hm
            rcases (hFrom k id).mp hm with ⟨d0, hd0, _⟩
            rw [hl] at hd0
            cases hd0
          simp [hnm]
        · simpa [hx] using hFrom k x
      · rw [portIdxRemoveOld_mem_in g id d hndIn, inPortsDeriv_alRemoveKey]
        by_cases hx : id = x
        · subst hx
          simp [hidm k]
        · have hx2 : ¬ x = id := fun h => hx h.symm
          simpa [hx, hx2] using hIn k x
      · rw [portIdxRemoveOld_mem_out g id d hndOut, outPortsDeriv_alRemoveKey]
        by_cases hx : id = x
        · subst hx
          simp [hidmO k]
        · have hx2 : ¬ x = id := fun h => hx h.symm
          simpa [hx, hx2] using hOut k x
    | link d =>
      obtain ⟨eIn, eOut, eFrom, eTo⟩ := remove_link_idx g id d hl
      rw [c3Inv, eTo, eFrom, eIn, eOut, hobjs]
      have hidm : ∀ k, id ∈ indexSet g.linksToPort k ↔ d.inputPort = some k :=
        fun k => (hTo k id).trans (linksToDeriv_lookup_link hl k)
      have hidmF : ∀ k, id ∈ indexSet g.linksFromPort k ↔ d.outputPort = some k :=
        fun k => (hFrom k id).trans (linksFromDeriv_lookup_link hl k)
      refine ⟨linkToRemoveOld_nodup g id d hndTo, linkFromRemoveOld_nodup g id d hndFrom,
        hndIn, hndOut, ?_, ?_, ?_, ?_⟩ <;> intro k x
      · rw [linkToRemoveOld_mem g id d hndTo, linksToDeriv_alRemoveKey]
        by_cases hx : id = x
        · subst hx
          simp [hidm k]
        · have hx2 : ¬ x = id := fun h => hx h.symm
          simpa [hx, hx2] using hTo k x
      · rw [linkFromRemoveOld_mem g id d hndFrom, linksFromDeriv_alRemoveKey]
        by_cases hx : id = x
        · subst hx
          simp [hidmF k]
        · have hx2 : ¬ x = id := fun h => hx h.symm
          simpa [hx, hx2] using hFrom k x
      · rw [inPortsDeriv_alRemoveKey]
        by_cases hx : id = x
        · subst hx
          have hnm : id ∉ indexSet g.nodeInputPorts k := by
            intro hm
            rcases (hIn k id).mp hm with ⟨d0, hd0, _⟩
            rw [hl] at hd0
            cases hd0
          simp [hnm]
        · simpa [hx] using hIn k x
      · rw [outPortsDeriv_alRemoveKey]
        by_cases hx : id = x
        · subst hx
          have hnm : id ∉ indexSet g.nodeOutputPorts k := by
            intro hm
            rcases (hOut k id).mp hm with ⟨d0, hd0, _⟩
            rw [hl] at hd0
            cases hd0
          simp [hnm]
        · simpa [hx] using hOut k x

theorem c3Inv_update (g : PWGraph) (id : Nat) (p : PWObjectData) (hinv : c3Inv g)
    (hok : ∀ nd : PortData, p = .port nd → nd.nodeId.isSome = nd.direction.isSome) :
    c3Inv ((g.update id p).1) := by
  cases hl : alLookup g.objects id with
  | none =>
    rw [update_absent g id p hl]
    exact hinv
  | some obj =>
    cases p with
    | node nd =>
      cases obj with
      | node d => exact c3Inv_update_node g id d nd hinv hl
      | port d =>
        rw [update_mismatch g id (.node nd) (.port d) hl rfl]
        exact hinv
      | link d =>
        rw [update_mismatch g id (.node nd) (.link d) hl rfl]
        exact hinv
    | port nd =>
      cases obj with
      | node d =>
        rw [update_mismatch g id (.port nd) (.node d) hl rfl]
        exact hinv
      | port d => exact c3Inv_update_port g id d nd hinv hl (hok nd rfl)
      | link d =>
        rw [update_mismatch g id (.port nd) (.link d) hl rfl]
        exact hinv
    | link nd =>
      cases obj with
      | node d =>
        rw [update_mismatch g id (.link nd) (.node d) hl rfl]
        exact hinv
      | port d =>
        rw [update_mismatch g id (.link nd) (.port d) hl rfl]
        exact hinv
      | link d => exact c3Inv_update_link g id d nd hinv hl

theorem c3Inv_ops (g : PWGraph) (ops : List GraphOp) (hinv : c3Inv g)
    (hfresh : freshOpsB g ops = true) (hpok : portPayloadOk ops = true) :
    c3Inv (applyOps g ops) := by
  induction ops generalizing g with
  | nil => exact hinv
  | cons op ops ih =>
    unfold freshOpsB at hfresh
    rw [Bool.and_eq_true] at hfresh
    obtain ⟨h1, h2⟩ := hfresh
    unfold portPayloadOk at hpok
    rw [List.all_cons, Bool.and_eq_true] at hpok
    obtain ⟨hp1, hp2⟩ := hpok
    unfold applyOps
    refine ih (applyOp g op) ?_ h2 hp2
    cases op with
    | ins id obj => exact c3Inv_insert g id obj hinv (by simpa using h1)
    | upd id p =>
      refine c3Inv_update g id p hinv ?_
      intro nd hnd
      subst hnd
      simpa using hp1
    | rem id => exact c3Inv_remove g id hinv

/-- C3: after every sequence of insert/update/remove operations whose
inserts target fresh ids and whose Port update payloads carry `node_id` and
`direction` together (as PipeWire port-info events do), the four secondary
indexes contain exactly the entries derivable from the current primary map:
a link is indexed under a port iff its current input (resp. output) port
field names that port, and a port is indexed under a node iff its current
`node_id` names that node and its direction is input (resp. output).
Without the paired-payload condition the claim fails (see the
counterexample): a Port update changing only `node_id` skips all index
maintenance. -/
theorem c3_index_coherence (wl : List SinkFilter) (bl : List NodeFilter)
    (ops : List GraphOp)
    (hfresh : freshOpsB (PWGraph.new wl bl) ops = true)
    (hpok : portPayloadOk ops = true) :
    (∀ p l : Nat, l ∈ indexSet (applyOps (PWGraph.new wl bl) ops).linksToPort p
        ↔ linksToDeriv (applyOps (PWGraph.new wl bl) ops).objects p l)
      ∧ (∀ p l : Nat, l ∈ indexSet (applyOps (PWGraph.new wl bl) ops).linksFromPort p
          ↔ linksFromDeriv (applyOps (PWGraph.new wl bl) ops).objects p l)
      ∧ (∀ n p : Nat, p ∈ indexSet (applyOps (PWGraph.new wl bl) ops).nodeInputPorts n
          ↔ inPortsDeriv (applyOps (PWGraph.new wl bl) ops).objects n p)
      ∧ (∀ n p : Nat, p ∈ indexSet (applyOps (PWGraph.new wl bl) ops).nodeOutputPorts n
          ↔ outPortsDeriv (applyOps (PWGraph.new wl bl) ops).objects n p) := by
  have h0 : c3Inv (PWGraph.new wl bl) := by
    refine ⟨fun k => ?_, fun k => ?_, fun k => ?_, fun k => ?_,
      fun k x => ?_, fun k x => ?_, fun k x => ?_, fun k x => ?_⟩ <;>
      simp [PWGraph.new, indexSet, alLookup, linksToDeriv, linksFromDeriv,
        inPortsDeriv, outPortsDeriv]
  have h := c3Inv_ops (PWGraph.new wl bl) ops h0 hfresh hpok
  exact ⟨h.2.2.2.2.1, h.2.2.2.2.2.1, h.2.2.2.2.2.2.1, h.2.2.2.2.2.2.2⟩

/-- Witness for C3: a fresh insert of an input port of node 1 followed by a
well-formed update moving it (with direction re-supplied) to node 3. -/
theorem c3_index_coherence_witness :
    freshOpsB (PWGraph.new [] [])
        [.ins 2 (.port ⟨none, some 1, some PWDirection.input, none⟩),
         .upd 2 (.port ⟨none, some 3, some PWDirection.input, none⟩)] = true
      ∧ portPayloadOk
          [.ins 2 (.port ⟨none, some 1, some PWDirection.input, none⟩),
           .upd 2 (.port ⟨none, some 3, some PWDirection.input, none⟩)] = true
      ∧ (2 ∈ indexSet (applyOps (PWGraph.new [] [])
            [.ins 2 (.port ⟨none, some 1, some PWDirection.input, none⟩),
             .upd 2 (.port ⟨none, some 3, some PWDirection.input, none⟩)]).nodeInputPorts 3
          ↔ inPortsDeriv (applyOps (PWGraph.new [] [])
              [.ins 2 (.port ⟨none, some 1, some PWDirection.input, none⟩),
               .upd 2 (.port ⟨none, some 3, some PWDirection.input, none⟩)]).objects 3 2) :=
  ⟨rfl, rfl,
    (c3_index_coherence [] []
      [.ins 2 (.port ⟨none, some 1, some PWDirection.input, none⟩),
       .upd 2 (.port ⟨none, some 3, some PWDirection.input, none⟩)] rfl rfl).2.2.1 3 2⟩

/-- Counterexample to C3 as stated: in `c3Graph`, an update moved port 2 to
node 2 without supplying a direction; the port's current data names node 2,
yet the node-input-ports index still lists port 2 under node 1 (a dangling
entry) and has nothing under node 2. -/
theorem c3_counterexample :
    alLookup c3Graph.objects 2
        = some (.port ⟨none, some 2, some PWDirection.input, none⟩)
      ∧ 2 ∈ indexSet c3Graph.nodeInputPorts 1
      ∧ ¬ inPortsDeriv c3Graph.objects 1 2
      ∧ indexSet c3Graph.nodeInputPorts 2 = [] := by
  refine ⟨rfl, ?_, ?_, rfl⟩
  · rw [show indexSet c3Graph.nodeInputPorts 1 = [2] from rfl]
    exact List.mem_singleton.mpr rfl
  · have hfact : alLookup c3Graph.objects 2
        = some (.port ⟨none, some 2, some PWDirection.input, none⟩) := rfl
    rintro ⟨pd, hpd, hnid, _⟩
    rw [hfact] at hpd
    injection hpd with hpd
    injection hpd with hpd
    rw [← hpd] at hnid
    simp at hnid
